import Mathlib

/-!
# Flow code generator and runtime helpers of x0 (`lib/flow/FlowRunner.cpp`)

A shallow embedding of the Flow runner.  The code generator emits LLVM IR; the
embedding looks at it from two sides:
* the behaviour of the emitted code: for every `emit…`/`visit` function, what the
  instructions that function emits do when run (basic blocks become `if`s,
  loops become recursive functions, `ret` becomes an early exit);
* the code generator itself: what the same functions do to the runner's fields
  (the type of `value_`, the functions created, the errors reported).
Machine integers are natural numbers reduced modulo their width; a signed
reading is taken only where the emitted instruction is a signed one.

Memory is modelled in two ways, both executable:
* a character pointer (`i8*`) is the list of bytes stored from the pointed-to
  address onwards, so `p + n` is `p.drop n` and `*p` is the head of the list;
  reading at the end of the list yields the terminating NUL;
* an array of ABI value records lives in a record memory `List FlowValue`,
  addressed by index; an access outside the memory is undefined behaviour and
  makes the helper return `none`.
-/

namespace x0

/-! ## Machine integers -/

/-- An 8-bit byte, the element type of `i8*`. -/
abbrev Byte := Fin 256

/-- Subtraction on `i64` as `builder_.CreateSub` computes it: modulo `2^64`. -/
def sub64 (a b : Nat) : Nat := (a % 2 ^ 64 + 2 ^ 64 - b % 2 ^ 64) % 2 ^ 64

/-- Subtraction on `i8`: modulo `2^8`. -/
def sub8 (a b : Nat) : Nat := (a % 256 + 256 - b % 256) % 256

/-- Addition on `i8`: modulo `2^8`. -/
def add8 (a b : Nat) : Nat := (a + b) % 256

/-- Sign extension of an `i8` to an `i64`: `CreateIntCast(v, int64Type(), true)`. -/
def sext8to64 (x : Nat) : Nat := if x % 256 < 128 then x % 256 else x % 256 + (2 ^ 64 - 256)

/-- The signed reading of an `i64` bit pattern, as `icmp slt/sgt/sle/sge` reads it. -/
def toSigned64 (x : Nat) : Int :=
  if x % 2 ^ 64 < 2 ^ 63 then ((x % 2 ^ 64 : Nat) : Int) else ((x % 2 ^ 64 : Nat) : Int) - 2 ^ 64

/-- The signed reading of an `i32` bit pattern. -/
def toSigned32 (x : Nat) : Int :=
  if x % 2 ^ 32 < 2 ^ 31 then ((x % 2 ^ 32 : Nat) : Int) else ((x % 2 ^ 32 : Nat) : Int) - 2 ^ 32

/-- Subtraction on `i32`: modulo `2^32`. -/
def sub32 (a b : Nat) : Nat := (a % 2 ^ 32 + 2 ^ 32 - b % 2 ^ 32) % 2 ^ 32

/-- The sign of an integer: `-1`, `0` or `1`. -/
def sign (d : Int) : Int := if d < 0 then -1 else if d = 0 then 0 else 1

/-! ## Character pointers and strings -/

/-- Load through an `i8*`: the byte at the pointed-to address (NUL at the end). -/
def load (p : List Byte) : Nat := (p.headD 0).val

/-- The C library's `strlen`: the number of bytes before the first NUL. -/
def strlen : List Byte → Nat
  | [] => 0
  | c :: cs => if c = 0 then 0 else strlen cs + 1

/-- The C library's `tolower` in the "C" locale, on an `unsigned char` value:
    the ASCII letters `A`–`Z` are mapped to `a`–`z`, every other value is kept. -/
def tolower (c : Nat) : Nat := if 65 ≤ c ∧ c ≤ 90 then c + 32 else c

/-- The C library's `strcasecmp` in the "C" locale: the difference of the first
    pair of lower-cased bytes that differ, `0` when both strings end together. -/
def strcasecmp : List Byte → List Byte → Int
  | [], s2 => (tolower 0 : Int) - (tolower (load s2) : Int)
  | c :: cs, s2 =>
    let c1 := tolower c.val
    let c2 := tolower (load s2)
    if c1 ≠ c2 then (c1 : Int) - (c2 : Int)
    else if c1 = 0 then 0
    else strcasecmp cs s2.tail

/-- ASCII lower-casing of a byte: `A`–`Z` go to `a`–`z`, all other bytes stay. -/
def asciiLower (c : Byte) : Byte := if 65 ≤ c.val ∧ c.val ≤ 90 then c + 32 else c

/-- Two byte strings agree modulo ASCII case: same length, and the same byte at
    every position once `A`–`Z` are mapped to lower case. -/
def eqModCase (a b : List Byte) : Prop :=
  a.length = b.length ∧ ∀ i, i < a.length → asciiLower (a.getD i 0) = asciiLower (b.getD i 0)

/-- Modelled from the spec: the `Operator` enumeration of the Flow AST
    (`x0/flow/Flow.h` is not among the sources); the operators are those of the
    operator table of section 4.1. -/
inductive Operator
  | Not | UnaryMinus | UnaryPlus
  | And | Or | Xor | Assign
  | Plus | Minus | Mul | Div | Pow
  | Equal | UnEqual | Less | Greater | LessOrEqual | GreaterOrEqual
  | PrefixMatch | SuffixMatch | RegexMatch | In
  deriving DecidableEq, Repr

/-- A Flow string value as generated code holds it: either a C-string (`i8*`,
    NUL-terminated) or a pointer to a buffer record `{length: i64, data: i8*}`. -/
inductive StrVal
  | cstring (p : List Byte)
  | buffer (length : Nat) (data : List Byte)
  deriving DecidableEq, Repr

/-- The bytes a string value denotes: up to the first NUL for a C-string, the
    first `length` bytes of the data for a buffer. -/
def StrVal.bytes : StrVal → List Byte
  | .cstring p => p.takeWhile (fun c => c ≠ 0)
  | .buffer length data => data.take length

/-- A string value is well formed when its length is an `i64` value and, for a
    buffer, does not exceed the data it points to. -/
def StrVal.wf : StrVal → Prop
  | .cstring p => strlen p < 2 ^ 64
  | .buffer length data => length ≤ data.length ∧ length < 2 ^ 64

instance StrVal.decidableWf : (v : StrVal) → Decidable v.wf
  | .cstring p => inferInstanceAs (Decidable (strlen p < 2 ^ 64))
  | .buffer length data => inferInstanceAs (Decidable (length ≤ data.length ∧ length < 2 ^ 64))

/-- `FlowRunner::emitToLower` on an `i8`:
    `off = ch - 65; lwr = ch + 32; cnd = off <u 26; res = select cnd, lwr, ch`. -/
def emitToLower (value : Nat) : Nat :=
  let off := sub8 value 65
  let lwr := add8 value 32
  let cnd := decide (off < 26)
  if cnd then lwr else value % 256

/-- `FlowRunner::emitCmpString(len1, buf1, len2, buf2)`: the emitted loop
    `loop.cmp1 / loop.cmp2 / loop.tail / loop.end`; the result is the `i64`
    loaded from `d`.  The recursion is on `len1`, which `loop.tail` decrements;
    with `len1 = 0` the test `(len1 & len2) == 0` of `loop.cmp1` holds. -/
def emitCmpString : (len1 : Nat) → (buf1 : List Byte) → (len2 : Nat) → (buf2 : List Byte) → Nat
  | 0, _, len2, _ => sub64 0 len2
  | len1 + 1, buf1, len2, buf2 =>
    -- loop.cmp1
    let d1 := sub64 (len1 + 1) len2
    if (len1 + 1) &&& len2 = 0 then d1
    else
      -- loop.cmp2
      let v1 := emitToLower (load buf1)
      let v2 := emitToLower (load buf2)
      let d2 := sext8to64 (sub8 v1 v2)
      if d2 ≠ 0 then d2
      else
        -- loop.tail
        emitCmpString len1 buf1.tail (sub64 len2 1) buf2.tail

/-- `FlowRunner::emitLoadStringLength`: the buffer length field, or `strlen`. -/
def emitLoadStringLength : StrVal → Nat
  | .buffer length _ => length
  | .cstring p => strlen p

/-- `FlowRunner::emitLoadStringBuffer`: the buffer data pointer, or the C-string. -/
def emitLoadStringBuffer : StrVal → List Byte
  | .buffer _ data => data
  | .cstring p => p

/-- `FlowRunner::emitCmpString(op, left, right)`: lengths and data are loaded,
    the comparator (or, for `=~`, the host's `flow_regexmatch`, passed in as
    `regexmatch`) is run and its result post-processed by the operator.  `none`
    is the `NULL` of the `default` branch. -/
def emitCmpStringOp (regexmatch : Nat → List Byte → Nat → List Byte → Nat)
    (op : Operator) (left right : StrVal) : Option Bool :=
  let len1 := emitLoadStringLength left
  let buf1 := emitLoadStringBuffer left
  let len2 := emitLoadStringLength right
  let buf2 := emitLoadStringBuffer right
  let rv := if op = Operator.RegexMatch then regexmatch len1 buf1 len2 buf2
            else emitCmpString len1 buf1 len2 buf2
  match op with
  | .RegexMatch => some (decide (rv % 2 ^ 32 ≠ 0))
  | .Equal => some (decide (rv = 0))
  | .UnEqual => some (decide (rv ≠ 0))
  | .Less => some (decide (toSigned64 rv < 0))
  | .Greater => some (decide (toSigned64 rv > 0))
  | .LessOrEqual => some (decide (toSigned64 rv ≤ 0))
  | .GreaterOrEqual => some (decide (toSigned64 rv ≥ 0))
  | _ => none

/-- `FlowRunner::emitPrefixMatch`: `false` when the right string is longer
    (`icmp ugt`), otherwise the comparator on the first `l2` bytes of both. -/
def emitPrefixMatch (left right : StrVal) : Bool :=
  let l1 := emitLoadStringLength left
  let l2 := emitLoadStringLength right
  if l2 > l1 then false
  else
    -- PrefixMatch.cmp2
    let v1 := emitLoadStringBuffer left
    let v2 := emitLoadStringBuffer right
    let tmp2 := emitCmpString l2 v1 l2 v2
    if tmp2 ≠ 0 then false else true

/-- `FlowRunner::emitSuffixMatch`: `false` when the right string is longer,
    otherwise the comparator on the last `l2` bytes of the left string. -/
def emitSuffixMatch (left right : StrVal) : Bool :=
  let l1 := emitLoadStringLength left
  let l2 := emitLoadStringLength right
  if l2 > l1 then false
  else
    -- SuffixMatch.cmp2
    let ofs := sub64 l1 l2
    let v1 := (emitLoadStringBuffer left).drop ofs
    let v2 := emitLoadStringBuffer right
    let tmp2 := emitCmpString l2 v1 l2 v2
    if tmp2 ≠ 0 then false else true

/-- The runtime helper `flow_endsWidth(left, right)`. -/
def flow_endsWidth (left right : List Byte) : Int :=
  let ll := strlen left
  let lr := strlen right
  if lr > ll then 1
  else if strcasecmp (left.drop (ll - lr)) right ≠ 0 then 1
  else 0

/-! ## ABI value records and arrays -/

/-- Modelled from the spec: the value kinds of section 3, the tags of
    `FlowValue` (`x0/flow/FlowValue.h` is not among the sources). -/
inductive FlowValueType
  | VOID | BOOLEAN | NUMBER | STRING | BUFFER | ARRAY | REGEXP | IP | FUNCTION | HANDLER
  deriving DecidableEq, Repr

/-- The pointer slot of an ABI value record: a null pointer, a character pointer
    (the bytes from the pointed-to address onwards), or a pointer to any other
    host object (array, regexp, ip address, function), identified by its address. -/
inductive Pointer
  | null
  | chars (p : List Byte)
  | object (addr : Nat)
  deriving DecidableEq, Repr

/-- Modelled from the spec: the ABI value record `{ kind: u32, number: u64,
    buffer: ptr }` of section 3, the class `FlowValue` of `x0/flow/FlowValue.h`,
    which is not among the sources. -/
structure FlowValue where
  type_ : FlowValueType
  number_ : Nat
  buffer_ : Pointer
  deriving DecidableEq, Repr

/-- Modelled from the spec: `FlowValue::isVoid()`, the test for the array
    sentinel, "detected as kind==VOID". -/
def FlowValue.isVoid (v : FlowValue) : Bool := decide (v.type_ = FlowValueType.VOID)

/-- Modelled from the spec: `FlowValue::set(const FlowValue&)`, which makes the
    record a copy of its argument (kind and both slots). -/
def FlowValue.set (_self : FlowValue) (v : FlowValue) : FlowValue := v

/-- Modelled from the spec: `FlowValue::clear()`, which turns the record into the
    VOID sentinel; the slots are not read when the kind is VOID. -/
def FlowValue.clear (self : FlowValue) : FlowValue := { self with type_ := FlowValueType.VOID }

/-- The loop of `flow_arraylen`: `while (!array->isVoid()) { ++array; ++result; }`
    with `result` a `uint32_t`.  Each turn advances `array`, so `fuel` turns are
    enough once `fuel` exceeds the size of the memory; reading outside the
    memory is undefined behaviour (`none`). -/
def flow_arraylen.loop (mem : List FlowValue) : (fuel : Nat) → (array result : Nat) → Option Nat
  | 0, _, _ => none
  | fuel + 1, array, result =>
    match mem[array]? with
    | none => none
    | some v =>
      if v.isVoid then some result
      else flow_arraylen.loop mem fuel (array + 1) ((result + 1) % 2 ^ 32)

/-- The runtime helper `flow_arraylen(array)` on the record memory `mem`. -/
def flow_arraylen (mem : List FlowValue) (array : Nat) : Option Nat :=
  flow_arraylen.loop mem (mem.length + 1) array 0

/-- One copy loop of `flow_arrayadd`: `while (!src->isVoid()) (result++)->set(*src++);`.
    Returns the memory and the advanced `result` pointer.  Each turn advances
    `src`, so `fuel` turns are enough once `fuel` exceeds the size of the
    memory; an access outside the memory is undefined behaviour (`none`). -/
def flow_arrayadd.copy : (fuel : Nat) → (mem : List FlowValue) → (result src : Nat) →
    Option (List FlowValue × Nat)
  | 0, _, _, _ => none
  | fuel + 1, mem, result, src =>
    match mem[src]? with
    | none => none
    | some v =>
      if v.isVoid then some (mem, result)
      else
        match mem[result]? with
        | none => none
        | some r => flow_arrayadd.copy fuel (mem.set result (r.set v)) (result + 1) (src + 1)

/-- The runtime helper `flow_arrayadd(result, left, right)` on the record memory
    `mem`: both copy loops, then `result->clear()`. -/
def flow_arrayadd (mem : List FlowValue) (result left right : Nat) : Option (List FlowValue) :=
  match flow_arrayadd.copy (mem.length + 1) mem result left with
  | none => none
  | some (mem1, result1) =>
    match flow_arrayadd.copy (mem1.length + 1) mem1 result1 right with
    | none => none
    | some (mem2, result2) =>
      match mem2[result2]? with
      | none => none
      | some r => some (mem2.set result2 r.clear)

/-- The record memory `mem` holds at address `p` the VOID-terminated array whose
    elements are `xs`: the records `p, …, p + |xs| - 1` are the elements, none
    of them VOID, and the record `p + |xs|` is the VOID sentinel. -/
def IsArrayAt (mem : List FlowValue) (p : Nat) (xs : List FlowValue) : Prop :=
  (∀ x ∈ xs, x.isVoid = false) ∧
  (∀ i, i < xs.length → mem[p + i]? = xs[i]?) ∧
  (∃ v, mem[p + xs.length]? = some v ∧ v.isVoid = true)

/-- A NUMBER record. -/
def FlowValue.ofNumber (n : Nat) : FlowValue :=
  { type_ := FlowValueType.NUMBER, number_ := n % 2 ^ 64, buffer_ := Pointer.null }

/-- A VOID record, the array sentinel. -/
def FlowValue.void : FlowValue :=
  { type_ := FlowValueType.VOID, number_ := 0, buffer_ := Pointer.null }

/-- A sample record memory: the array `[1]` at address 0, the array `[2, 3]` at
    address 2, and four free records from address 5 on. -/
def sampleMemory : List FlowValue :=
  [FlowValue.ofNumber 1, FlowValue.void,
   FlowValue.ofNumber 2, FlowValue.ofNumber 3, FlowValue.void,
   FlowValue.void, FlowValue.void, FlowValue.void, FlowValue.void]

/-! ## The Flow AST -/

/-- Modelled from the spec: where a variable symbol is declared, as
    `visit(Variable&)` tells it from `parentScope()`: no parent scope (a
    variable of the host, looked up in the registry of native entries), the
    symbol table of the unit (`outerTable()` is `NULL`: a global variable), or
    the symbol table of a function (a local variable). -/
inductive ParentScope
  | absent | unitTable | functionTable
  deriving DecidableEq, Repr

mutual
/-- Modelled from the spec: the expression nodes of the Flow AST
    (`x0/flow/Flow.h` is not among the sources).  A reference to a variable or
    a function and a call hold the symbol they refer to, as the AST does
    through a pointer. -/
inductive Expr
  | BoolExpr (value : Bool)
  | NumberExpr (value : Nat)
  | StringExpr (value : List Byte)
  | RegExpExpr (value : Nat)
  | IPAddressExpr (value : Nat)
  | VariableExpr (var : Variable)
  | FunctionRefExpr (function : Function)
  | UnaryExpr (operatorStyle : Operator) (subExpr : Expr)
  | BinaryExpr (operatorStyle : Operator) (leftExpr rightExpr : Expr)
  | ListExpr (elems : List Expr)
  | CallExpr (callee : Function) (args : List Expr) (isAssignment : Bool)
/-- Modelled from the spec: the statement nodes of the Flow AST. -/
inductive Stmt
  | ExprStmt (expression : Expr)
  | CompoundStmt (stmts : List Stmt)
  | CondStmt (condition : Expr) (thenStmt : Stmt) (elseStmt : Option Stmt)
/-- Modelled from the spec: a variable symbol of the Flow AST, with the
    expression that initialises it (not used for a variable of the host).
    `addr` stands for the address of the symbol object: the scope stack of the
    code generator is keyed by symbol pointers, so two symbols of one name are
    told apart by it. -/
inductive Variable
  | make (addr : Nat) (name : String) (parentScope : ParentScope) (value : Expr)
/-- Modelled from the spec: a function symbol of the Flow AST: its local
    variables (`scope()`) and its body, which is absent for a declaration
    without a body.  `addr` stands for the address of the symbol object. -/
inductive Function
  | make (addr : Nat) (name : String) (isHandler : Bool) (scope : List Variable)
      (body : Option Stmt)
end

/-- A function symbol without local variables, at address 0. -/
def Function.mk (name : String) (isHandler : Bool) (body : Option Stmt) : Function :=
  Function.make 0 name isHandler [] body

/-- The address of a function symbol. -/
def Function.addr : Function → Nat
  | .make addr _ _ _ _ => addr

/-- The `name()` of a function symbol. -/
def Function.name : Function → String
  | .make _ name _ _ _ => name

/-- The `isHandler()` flag of a function symbol. -/
def Function.isHandler : Function → Bool
  | .make _ _ isHandler _ _ => isHandler

/-- The `scope()` of a function symbol: its local variables, in order. -/
def Function.scope : Function → List Variable
  | .make _ _ _ scope _ => scope

/-- The `body()` of a function symbol. -/
def Function.body : Function → Option Stmt
  | .make _ _ _ _ body => body

/-- The expression a left operand of an assignment must be for `CreateStore`
    to have a slot to store to: a reference to a variable, also under unary
    `+`. -/
def Expr.lvalue : Expr → Option Variable
  | .VariableExpr var => some var
  | .UnaryExpr .UnaryPlus subExpr => Expr.lvalue subExpr
  | _ => none

/-- The address of a variable symbol. -/
def Variable.addr : Variable → Nat
  | .make addr _ _ _ => addr

/-- The `name()` of a variable symbol. -/
def Variable.name : Variable → String
  | .make _ name _ _ => name

/-- The `parentScope()` of a variable symbol. -/
def Variable.parentScope : Variable → ParentScope
  | .make _ _ parentScope _ => parentScope

/-- The `value()` of a variable symbol, its initialiser. -/
def Variable.value : Variable → Expr
  | .make _ _ _ value => value

/-! ## Values of generated code and the host backend -/

/-- What `value_` holds at run time after the code generated for an
    expression, tagged by its LLVM type: `i1`, `i32`, `i64`, a C-string (`i8*`),
    a pointer to a buffer record, a pointer to an array of ABI value records
    (its elements up to the sentinel), a pointer to a host regexp or ip
    address, a pointer to a generated function, or the result of an
    instruction that yields no value (a call of a `void` function, a store).
    `null` stands for `value_ == NULL`: no value has been generated, as after
    `reportError`. -/
inductive Val
  | i1 (b : Bool)
  | i32 (n : Nat)
  | i64 (n : Nat)
  | cstring (p : List Byte)
  | bufferPtr (length : Nat) (data : List Byte)
  | array (elems : List FlowValue)
  | regexp (addr : Nat)
  | ipaddr (addr : Nat)
  | function (addr : Nat) (name : String)
  | void
  | null
  deriving DecidableEq, Repr

/-- Modelled from the spec: the kind of a native entry, `FlowBackend::Callback::type`
    (`x0/flow/FlowBackend.h` is not among the sources). -/
inductive CallbackType
  | SETUP_FUNCTION | SETUP_PROPERTY | SHARED_FUNCTION | SHARED_PROPERTY
  | FUNCTION | PROPERTY | VARIABLE | HANDLER
  deriving DecidableEq, Repr

/-- Modelled from the spec: a native entry, `FlowBackend::Callback`. -/
structure Callback where
  type : CallbackType
  name : String
  returnType : FlowValueType
  deriving DecidableEq, Repr

/-- Modelled from the spec: the host side of generated code, over a host state
    `σ`: the registry of native entries (`FlowBackend`), the dispatch entry
    point `flow_backend_callback`, which runs entry `id` on `argv[1..argc]` and
    leaves the entry's result in `argv[0]`, and the host helpers whose
    implementation is outside these sources (`RegExp`, `IPAddress`, `pow`). -/
structure Backend (σ : Type) where
  find : String → Option Nat
  callbackAt : Nat → Callback
  isVariable : String → Bool
  dispatch : Nat → List FlowValue → σ → FlowValue × σ
  regexmatch : Nat → List Byte → Nat → List Byte → Nat
  regexmatch2 : Nat → List Byte → Nat → Nat
  ipcmp : Nat → Nat → Nat
  ipstrcmp : Nat → List Byte → Nat
  pow : Nat → Nat → Nat

/-- What a run of generated code did, in order: a dispatch to native entry `id`
    of kind `type` that left `ret` in `argv[0]`; the return of a called Flow
    handler with its result; the entry into the code of a Flow function, whose
    local variables are fresh `alloca` slots; the return of a called Flow
    function that is no handler; a store of `value` to the slot of the local
    variable at `addr`. -/
inductive Event
  | native (id : Nat) (type : CallbackType) (argv : List FlowValue) (ret : FlowValue)
  | flowHandler (name : String) (result : Bool)
  | enter (name : String)
  | leave (name : String)
  | store (addr : Nat) (name : String) (value : Val)
  deriving DecidableEq, Repr

/-- The event is a call to a handler-kind callable that returned true: a native
    handler that left a non-zero number in `argv[0]`, or a Flow handler that
    returned true. -/
def Event.handledTrue : Event → Bool
  | .native _ type _ ret => decide (type = CallbackType.HANDLER) && decide (ret.number_ ≠ 0)
  | .flowHandler _ result => result
  | _ => false

/-- The state a run of generated code acts on: the host state and the record of
    what has been executed so far.  The slots of local variables are read back
    from the record (`World.load`). -/
structure World (σ : Type) where
  host : σ
  trace : List Event

/-- Where the code emitted for an AST node leaves control: at the insertion
    point that follows it, with `value_` (which is `Val.null` after
    `reportError`: code generation goes on, and so does the run); at a
    `ret i1 true` of a `handler.done` block; or nowhere (`error`): the code
    generator dereferences a `NULL` value or emits an instruction that is not
    valid, so that there is no code to run, or the run reaches an instruction
    whose behaviour is undefined. -/
inductive Outcome (σ : Type) (α : Type)
  | value (v : α) (w : World σ)
  | done (w : World σ)
  | error

/-- The value of code that leaves none behind: a statement, a function body. -/
abbrev NoValue : Type := Unit

/-! ## Types of values and the fields of the runner in the code generator -/

/-- The LLVM type of a value of generated code, as far as code generation
    distinguishes types; `ptr elem` is the type of the `alloca` slot of a local
    variable whose initial value has the type `elem`. -/
inductive Ty
  | i1 | i32 | i64 | cstring | bufferPtr | array | regexp | ipaddr | function | void
  | ptr (elem : Ty)
  deriving DecidableEq, Repr

/-- `isIntegerTy()`. -/
def Ty.isIntegerTy : Ty → Bool
  | .i1 | .i32 | .i64 => true
  | _ => false

/-- `isBool(value)`, on a value that is not `NULL`. -/
def isBool (ty : Ty) : Bool := decide (ty = Ty.i1)

/-- `FlowRunner::isCString(value)`; `none` is `NULL`. -/
def isCString (value : Option Ty) : Bool := decide (value = some Ty.cstring)

/-- `FlowRunner::isBufferPtr(value)`. -/
def isBufferPtr (value : Option Ty) : Bool := decide (value = some Ty.bufferPtr)

/-- `FlowRunner::isString(value)`. -/
def isString (value : Option Ty) : Bool := isCString value || isBufferPtr value

/-- `FlowRunner::isStringPair(v1, v2)`. -/
def isStringPair (v1 v2 : Option Ty) : Bool :=
  (isCString v1 || isBufferPtr v1) && (isCString v2 || isBufferPtr v2)

/-- `FlowRunner::isArray(value)`. -/
def isArray (value : Option Ty) : Bool := decide (value = some Ty.array)

/-- `FlowRunner::isRegExp(value)`. -/
def isRegExp (value : Option Ty) : Bool := decide (value = some Ty.regexp)

/-- `FlowRunner::isIPAddress(value)`. -/
def isIPAddress (value : Option Ty) : Bool := decide (value = some Ty.ipaddr)

/-- `FlowRunner::isNumber(value)`. -/
def isNumber (value : Option Ty) : Bool := decide (value = some Ty.i64)

/-- Modelled from the spec: a member of a unit, a function or a global variable
    with its initialiser (`x0/flow/Flow.h` is not among the sources). -/
inductive Symbol
  | function (f : Function)
  | variable (v : Variable)

/-- `Symbol::isFunction()`. -/
def Symbol.isFunction : Symbol → Bool
  | .function _ => true
  | .variable _ => false

/-- The identity of a symbol object, the key of the scope stack
    (`std::map<Symbol *, llvm::Value *>`): whether it is a function, its
    address and its name. -/
abbrev SymbolKey := Bool × Nat × String

/-- The key of a function symbol. -/
def Function.key (f : Function) : SymbolKey := (true, f.addr, f.name)

/-- The key of a variable symbol. -/
def Variable.key (v : Variable) : SymbolKey := (false, v.addr, v.name)

/-- Modelled from the spec: a parsed source unit, its imports (name and path)
    and its members in source order. -/
structure Unit where
  imports : List (String × String)
  members : List Symbol

/-- A pass added to the function pass manager: the target data of the engine,
    or the passes that `llvm::createStandardFunctionPasses` adds for an
    optimisation level. -/
inductive Pass
  | TargetData
  | StandardFunctionPasses (optimizationLevel : Int)
  deriving DecidableEq, Repr

/-- The fields of `FlowRunner` that code generation and the life cycle act on.
    A pointer field is `true` when it is not `NULL`; `value_` is the type of
    the value it points to, `none` for `NULL`; `functions_` holds the names
    under which `visit(Function&)` created the functions of the module, in
    order (the module gives a function a new name when the one asked for is
    taken, which is not modelled); `functionPassMgr_` is the list of
    passes added to the pass manager it points to, `none` for `NULL`;
    `initializerFn_` is the list of the global variables whose initialiser
    code has been generated into the function it points to, in order, `none`
    for `NULL`.  `scope_` is the scope stack, innermost frame first, each frame
    binding symbols to the type of the value bound (`none` for a `NULL`
    value); the binding of `NULL` to the context argument of a function is
    left out.  `reported` is the sequence of messages that have been passed to
    the error handler, `initializerRuns` the number of times the initialiser
    function has been run. -/
structure FlowRunner where
  unit_ : Option Unit
  optimizationLevel_ : Int
  errorHandler_ : Bool
  module_ : Bool
  executionEngine_ : Bool
  functionPassMgr_ : Option (List Pass)
  functions_ : List String
  value_ : Option Ty
  initializerFn_ : Option (List String)
  initializerRuns : Nat
  reported : List String
  scope_ : List (List (SymbolKey × Option Ty)) := [[]]
  requestingLvalue_ : Bool := false

/-- `FlowRunner::reportError(message)`: the message goes to the error handler,
    when one is set, and `value_` is cleared.  Nothing else is recorded.  (The
    message is the format string; its arguments are not expanded, except for
    names.) -/
def reportError (s : FlowRunner) (message : String) : FlowRunner :=
  { s with
    reported := if s.errorHandler_ then s.reported ++ ["code generator error: " ++ message]
                else s.reported,
    value_ := none }

/-- Assignment to `value_`. -/
def setValue (s : FlowRunner) (ty : Ty) : FlowRunner := { s with value_ := some ty }

/-- `a && b` in the code generator, where evaluating `b` dereferences a pointer
    that may be `NULL` (`none`). -/
def andThen (a : Bool) (b : Option Bool) : Option Bool := if a then b else some false

/-- In the code generator, `FlowRunner::toBool(value)` on the type of `value`:
    the conversion yields an `i1` for a boolean, an integer or a string.  `none`
    when code generation does not go on: `value` is `NULL`, or the type is
    unknown, so that after `reportError` the unconverted value is used as a
    condition and the function does not verify. -/
def toBoolTy (value : Option Ty) : Option Ty :=
  match value with
  | none => none
  | some ty =>
    if isBool ty then some Ty.i1
    else if ty.isIntegerTy then some Ty.i1
    else if isString (some ty) then some Ty.i1
    else none

/-- In the code generator, `FlowRunner::emitNativeValue(index, lhs, rhs)`: whether
    the stores emitted for `rhs` are valid (an integer narrower than the `i64`
    number slot cannot be stored to it). -/
def emitNativeValueOk (rhs : Option Ty) : Bool :=
  match rhs with
  | some Ty.i32 => false
  | _ => true

/-- In the code generator, the second half of `FlowRunner::emitNativeCall`: the
    type of `value_` after the result has been read, by the kind of the native
    entry.  A handler call ends a block with `ret i1 true`, which is valid only
    inside a handler (`inHandler`). -/
def emitNativeReturnTy (native : Callback) (inHandler : Bool) (s : FlowRunner) : Option FlowRunner :=
  match native.type with
  | .VARIABLE | .FUNCTION =>
    if native.returnType = FlowValueType.BUFFER then some (setValue s Ty.bufferPtr)
    else
      match native.returnType with
      | .BOOLEAN => some (setValue s Ty.i64)
      | .NUMBER => some (setValue s Ty.i64)
      | .STRING => some (setValue s Ty.cstring)
      | _ => some (setValue s Ty.i32)
  | .HANDLER => if inHandler then some (setValue s Ty.i1) else none
  | _ => some (reportError s "Unknown callback type (%d) encountered.")

/-- In the code generator, the operator `switch` of `FlowRunner::visit(UnaryExpr&)`,
    entered with `value_` of type `ty`. -/
def visitUnaryOp (op : Operator) (ty : Ty) (s : FlowRunner) : Option FlowRunner :=
  match op with
  | .Not =>
    if ty.isIntegerTy then some (setValue s Ty.i1)
    else if isString (some ty) then some (setValue s Ty.i1)
    else if isArray (some ty) then some (setValue s Ty.i1)
    else some (reportError s "Invalid sub-type in not-expression")
  | .UnaryMinus => if ty.isIntegerTy then some s else none
  | .UnaryPlus => some s
  | _ => some (reportError s "Unknown operator style (%d) in unary operator")

/-- An integer instruction on two operands (`CreateAdd`, `CreateICmpSLT`, …):
    valid when both have the same integer type. -/
def sameIntTy (lt : Ty) (right : Option Ty) : Bool := decide (right = some lt) && lt.isIntegerTy

/-- In the code generator, the second `switch` of `FlowRunner::visit(BinaryExpr&)`,
    for the operators other than `&&`, `||`, `xor`: from the types of both
    operand values (`none` for `NULL`) to the new `value_`, through
    `reportError` where the operand types are not accepted.  The outer `none`
    stands for code generation that does not go on: a `NULL` operand is
    dereferenced, or the emitted instruction is invalid. -/
def visitBinaryOp (op : Operator) (left right : Option Ty) (s : FlowRunner) : Option FlowRunner :=
  match op with
  | .Assign =>
    -- `CreateStore(right, left)`: valid when `left` is a slot of the type of `right`
    match left, right with
    | some (Ty.ptr elem), some rt => if elem = rt then some (setValue s Ty.void) else none
    | _, _ => none
  | .Plus => do
    let lt ← left
    if ← andThen lt.isIntegerTy (right.map Ty.isIntegerTy) then
      if sameIntTy lt right then some (setValue s lt) else none
    else if ← andThen (isCString left) (right.map Ty.isIntegerTy) then
      some (setValue s Ty.cstring)
    else if ← andThen (isBufferPtr left) (right.map Ty.isIntegerTy) then
      if isNumber right then some (setValue s Ty.bufferPtr) else none
    else if isArray left && isArray right then some (setValue s Ty.array)
    else if isStringPair left right then some (setValue s Ty.cstring)
    else some (reportError s "operand types not compatible to operator +")
  | .Minus => do
    let lt ← left
    if ← andThen lt.isIntegerTy (right.map Ty.isIntegerTy) then
      if sameIntTy lt right then some (setValue s lt) else none
    else if ← andThen (isBufferPtr left) (right.map Ty.isIntegerTy) then
      if isNumber right then some (setValue s Ty.bufferPtr) else none
    else if ← andThen (isCString left) (right.map Ty.isIntegerTy) then
      if isNumber right then some (setValue s Ty.cstring) else none
    else some (reportError s "operand types not compatible to operator -")
  | .Mul => do
    let lt ← left
    if ← andThen lt.isIntegerTy (right.map Ty.isIntegerTy) then
      if sameIntTy lt right then some (setValue s lt) else none
    else some (reportError s "operand types not compatible to operator *")
  | .Div => do
    let lt ← left
    let _ ← right
    if sameIntTy lt right then some (setValue s lt) else none
  | .Equal => do
    let lt ← left
    let rt ← right
    if isBool lt && isBool rt then some (setValue s Ty.i1)
    else if lt.isIntegerTy && rt.isIntegerTy then some (setValue s Ty.i1)
    else if isStringPair left right then some (setValue s Ty.i1)
    else if isString left && rt.isIntegerTy then
      if isNumber right then some (setValue s Ty.i1) else none
    else if isArray left && isArray right then some (setValue s Ty.i1)
    else if isIPAddress left && isString right then
      if isCString right then some (setValue s Ty.i1) else none
    else if isIPAddress left && isIPAddress right then some (setValue s Ty.i1)
    else some (reportError s "Incompatible operand types for operator ==")
  | .UnEqual => do
    let lt ← left
    if ← andThen lt.isIntegerTy (right.map Ty.isIntegerTy) then
      if sameIntTy lt right then some (setValue s Ty.i1) else none
    else if ← andThen (isBool lt) (right.map isBool) then some (setValue s Ty.i1)
    else if isStringPair left right then some (setValue s Ty.i1)
    else if ← andThen (isString left) (right.map Ty.isIntegerTy) then
      if isNumber right then some (setValue s Ty.i1) else none
    else if isArray left && isArray right then some (setValue s Ty.i1)
    else if isIPAddress left && isString right then
      if isCString right then some (setValue s Ty.i1) else none
    else if isIPAddress left && isIPAddress right then some (setValue s Ty.i1)
    else
      match right with
      | none => none
      | some _ => some (reportError s "Incompatible operand types for operator !=")
  | .Less => do
    let lt ← left
    if ← andThen lt.isIntegerTy (right.map Ty.isIntegerTy) then
      if sameIntTy lt right then some (setValue s Ty.i1) else none
    else if isStringPair left right then some (setValue s Ty.i1)
    else if ← andThen (isString left) (right.map Ty.isIntegerTy) then
      if isNumber right then some (setValue s Ty.i1) else none
    else some (reportError s "Incompatible operand types for operator <")
  | .Greater => do
    let lt ← left
    if ← andThen lt.isIntegerTy (right.map Ty.isIntegerTy) then
      if sameIntTy lt right then some (setValue s Ty.i1) else none
    else if isStringPair left right then some (setValue s Ty.i1)
    else if ← andThen (isString left) (right.map Ty.isIntegerTy) then
      if isNumber right then some (setValue s Ty.i1) else none
    else some (reportError s "Incompatible operand types for operator >")
  | .LessOrEqual => do
    let lt ← left
    if ← andThen lt.isIntegerTy (right.map Ty.isIntegerTy) then
      if sameIntTy lt right then some (setValue s Ty.i1) else none
    else if isStringPair left right then some (setValue s Ty.i1)
    else if ← andThen (isString left) (right.map Ty.isIntegerTy) then
      if isNumber right then some (setValue s Ty.i1) else none
    else some (reportError s "Incompatible operand types for operator <=")
  | .GreaterOrEqual => do
    let lt ← left
    if ← andThen lt.isIntegerTy (right.map Ty.isIntegerTy) then
      if sameIntTy lt right then some (setValue s Ty.i1) else none
    else if ← andThen (isString left) (right.map Ty.isIntegerTy) then
      if isNumber right then some (setValue s Ty.i1) else none
    else if isStringPair left right then some (setValue s Ty.i1)
    else some (reportError s "Incompatible operand types for operator >=")
  | .PrefixMatch =>
    if isStringPair left right then some (setValue s Ty.i1)
    else some (reportError s "Incompatible operand types for operator =^")
  | .SuffixMatch =>
    if isStringPair left right then some (setValue s Ty.i1)
    else some (reportError s "Incompatible operand types for operator =$")
  | .RegexMatch =>
    if isString left && isString right then some (setValue s Ty.i1)
    else if isString left && isRegExp right then some (setValue s Ty.i32)
    else some (reportError s "Incompatible operand types for operator =~")
  | .In =>
    if isString left && isString right then
      if isCString left && isCString right then some (setValue s Ty.i1) else none
    else if isNumber left && isArray right then some (setValue s Ty.i1)
    else if isString left && isArray right then some (setValue s Ty.i1)
    else some (reportError s "Incompatible operand types for operator: 'in'")
  | .Pow => do
    let lt ← left
    if ← andThen lt.isIntegerTy (right.map Ty.isIntegerTy) then some (setValue s Ty.i64)
    else some (reportError s "Incompatible operand types for operator **")
  | _ => some (reportError s "unsupported binary-operator op (%d)\n")

/-- The runner right after construction, the engine having been created. -/
def freshRunner : FlowRunner :=
  { unit_ := none, optimizationLevel_ := 0, errorHandler_ := false, module_ := true,
    executionEngine_ := true, functionPassMgr_ := none, functions_ := [], value_ := none,
    initializerFn_ := none, initializerRuns := 0, reported := [], scope_ := [[]],
    requestingLvalue_ := false }

/-! ## The behaviour of generated code -/

/-- Modelled from the spec: the numeric tag of a value kind, the `u32` stored in
    the kind field of an ABI value record (kinds in the order of section 3). -/
def FlowValueType.code : FlowValueType → Nat
  | .VOID => 0 | .BOOLEAN => 1 | .NUMBER => 2 | .STRING => 3 | .BUFFER => 4
  | .ARRAY => 5 | .REGEXP => 6 | .IP => 7 | .FUNCTION => 8 | .HANDLER => 9

/-- The bytes behind the pointer slot when it is read as a character pointer. -/
def Pointer.toChars : Pointer → List Byte
  | .chars p => p
  | _ => []

/-- `isIntegerTy()` of the value's type. -/
def Val.isIntegerTy : Val → Bool
  | .i1 _ | .i32 _ | .i64 _ => true
  | _ => false

/-- The integer a value of integer type holds, zero-extended. -/
def Val.zext : Val → Nat
  | .i1 b => if b then 1 else 0
  | .i32 n => n
  | .i64 n => n
  | _ => 0

/-- `FlowRunner::isString`: a C-string or a pointer to a buffer record. -/
def Val.toStrVal : Val → Option StrVal
  | .cstring p => some (StrVal.cstring p)
  | .bufferPtr length data => some (StrVal.buffer length data)
  | _ => none

/-- The LLVM type of a value, `none` for `NULL`: what the type tests of the code
    generator see of it. -/
def Val.ty : Val → Option Ty
  | .i1 _ => some Ty.i1
  | .i32 _ => some Ty.i32
  | .i64 _ => some Ty.i64
  | .cstring _ => some Ty.cstring
  | .bufferPtr _ _ => some Ty.bufferPtr
  | .array _ => some Ty.array
  | .regexp _ => some Ty.regexp
  | .ipaddr _ => some Ty.ipaddr
  | .function _ _ => some Ty.function
  | .void => some Ty.void
  | .null => none

/-- The integer a value of integer type holds, sign-extended to 64 bits
    (`CreateSIToFP`, an index of `getelementptr`); an `i1` that is true is `-1`. -/
def Val.sext : Val → Nat
  | .i1 b => if b then 2 ^ 64 - 1 else 0
  | .i32 n => if n % 2 ^ 32 < 2 ^ 31 then n % 2 ^ 32 else n % 2 ^ 32 + (2 ^ 64 - 2 ^ 32)
  | .i64 n => n
  | _ => 0


/-- The length `flow_arraylen` finds for an array with the given records: the
    number of records before the first VOID one, as a `uint32_t`. -/
def arraylenOf (elems : List FlowValue) : Nat :=
  (elems.takeWhile (fun v => !v.isVoid)).length % 2 ^ 32

/-- `FlowRunner::toBool`: an `i1` is kept, an integer is compared with zero, a
    string's length is compared with zero.  `none` where the conversion yields
    no `i1`: `NULL` is dereferenced, or, for any other type, `reportError` is
    called and the unconverted value is returned, which the caller then uses
    as an `i1`. -/
def toBool : Val → Option Bool
  | .i1 b => some b
  | .i32 n => some (decide (n ≠ 0))
  | .i64 n => some (decide (n ≠ 0))
  | .cstring p => some (decide (strlen p ≠ 0))
  | .bufferPtr length _ => some (decide (length ≠ 0))
  | _ => none

/-- `FlowRunner::emitNativeValue(index, lhs, rhs)`: the ABI value record stored
    into `lhs[index]` for the value `rhs` (`none` and `Val.null` are `NULL`).
    The record is freshly allocated: a slot that the code does not store to
    holds no defined value and is shown as `0` / null.  An array is a value
    here, not an address, so the pointer stored for it is shown as the object
    at address 0.  For an `i32` the kind is NUMBER, but the store of an `i32`
    to the `i64` number slot is not a valid instruction: no run marshals an
    `i32` (`emitNativeValueOk`, `evalArgs`). -/
def emitNativeValue : Option Val → FlowValue
  | none => { type_ := .VOID, number_ := 0, buffer_ := .null }
  | some .null => { type_ := .VOID, number_ := 0, buffer_ := .null }
  | some (.i1 b) => { type_ := .BOOLEAN, number_ := if b then 1 else 0, buffer_ := .null }
  | some (.i32 n) => { type_ := .NUMBER, number_ := n, buffer_ := .null }
  | some (.i64 n) => { type_ := .NUMBER, number_ := n, buffer_ := .null }
  | some (.array _) => { type_ := .ARRAY, number_ := 0, buffer_ := .object 0 }
  | some (.regexp addr) => { type_ := .REGEXP, number_ := 0, buffer_ := .object addr }
  | some (.ipaddr addr) => { type_ := .IP, number_ := 0, buffer_ := .object addr }
  | some (.function addr _) => { type_ := .FUNCTION, number_ := 0, buffer_ := .object addr }
  | some (.cstring p) => { type_ := .STRING, number_ := 0, buffer_ := .chars p }
  | some (.bufferPtr length data) => { type_ := .BUFFER, number_ := length, buffer_ := .chars data }
  | some .void => { type_ := .VOID, number_ := 0, buffer_ := .null }

/-- `FlowRunner::visit(UnaryExpr&)` once the operand has been generated: the new
    `value_` for the operand value `v`.  A `NULL` operand is returned as it is
    (`if (!codegen(expr.subExpr())) return;`); where `reportError` is called
    the result is `Val.null`.  `none` where the emitted instruction is not
    valid: `CreateNeg` on a value that is no integer. -/
def unaryOp (op : Operator) (v : Val) : Option Val :=
  match v with
  | .null => some .null
  | v =>
    match op with
    | .Not =>
      match v with
      | .i1 b => some (.i1 (decide ((if b then 1 else 0) = 0)))
      | .i32 n => some (.i1 (decide (n = 0)))
      | .i64 n => some (.i1 (decide (n = 0)))
      | .cstring p => some (.i1 (decide (strlen p = 0)))
      | .bufferPtr length _ => some (.i1 (decide (length = 0)))
      | .array elems => some (.i1 (decide (arraylenOf elems = 0)))
      | _ => some .null
    | .UnaryMinus =>
      -- `builder_.CreateNeg(value_);` the result is not stored into `value_`
      if v.isIntegerTy then some v else none
    | .UnaryPlus => some v
    | _ => some .null

/-! ### Runtime helpers on arrays and ip addresses -/

/-- Modelled from the spec: `FlowValue::type()`, the kind tag. -/
def FlowValue.type (v : FlowValue) : FlowValueType := v.type_

/-- Modelled from the spec: `FlowValue::toNumber()`, the number slot. -/
def FlowValue.toNumber (v : FlowValue) : Nat := v.number_

/-- Modelled from the spec: `FlowValue::toBool()`, the number slot read as a
    boolean ("represented in the ABI record as a number 0/1"). -/
def FlowValue.toBool (v : FlowValue) : Bool := decide (v.number_ ≠ 0)

/-- Modelled from the spec: `FlowValue::toString()`, the buffer slot read as a
    character pointer. -/
def FlowValue.toString_ (v : FlowValue) : List Byte := v.buffer_.toChars

/-- The C library's `strcmp`: the difference of the first pair of bytes that
    differ, `0` when both strings end together. -/
def strcmp : List Byte → List Byte → Int
  | [], s2 => (0 : Int) - (load s2 : Int)
  | c :: cs, s2 =>
    if c.val ≠ load s2 then (c.val : Int) - (load s2 : Int)
    else if c.val = 0 then 0
    else strcmp cs s2.tail

/-- The C library's `strncasecmp` in the "C" locale: `strcasecmp` on at most
    `n` bytes. -/
def strncasecmp : List Byte → List Byte → Nat → Int
  | _, _, 0 => 0
  | s1, s2, n + 1 =>
    let c1 := tolower (load s1)
    let c2 := tolower (load s2)
    if c1 ≠ c2 then (c1 : Int) - (c2 : Int)
    else if c1 = 0 then 0
    else strncasecmp s1.tail s2.tail n

/-- The loop of `flow_arraycmp`, on the record memory `mem`.  Both pointers
    advance in every turn, so `fuel` turns are enough once `fuel` exceeds the
    size of the memory; an access outside the memory is undefined behaviour
    (`none`). -/
def flow_arraycmp.loop (mem : List FlowValue) : (fuel : Nat) → (left right : Nat) → Option Nat
  | 0, _, _ => none
  | fuel + 1, left, right =>
    match mem[left]?, mem[right]? with
    | some l, some r =>
      if !l.isVoid && !r.isVoid then
        -- compare types
        if l.type ≠ r.type then some 1
        else
          let test : Bool :=
            match l.type with
            | .NUMBER => decide (l.toNumber = r.toNumber)
            | .STRING => decide (strcasecmp l.toString_ r.toString_ = 0)
            | .BOOLEAN => decide (l.toBool = r.toBool)
            | _ => false
          if !test then some 1
          else flow_arraycmp.loop mem fuel (left + 1) (right + 1)
      else if l.isVoid && r.isVoid then some 0
      else some 1
    | _, _ => none

/-- The runtime helper `flow_arraycmp(left, right)` on the record memory `mem`:
    `0` for equal, `1` for not equal. -/
def flow_arraycmp (mem : List FlowValue) (left right : Nat) : Option Nat :=
  flow_arraycmp.loop mem (mem.length + 1) left right

/-- The loop of `flow_NumberInArray`, on the record memory `mem`; `1` is the
    `true` and `0` the `false` that the helper returns as `int`. -/
def flow_NumberInArray.loop (mem : List FlowValue) (number : Nat) :
    (fuel : Nat) → (array : Nat) → Option Nat
  | 0, _ => none
  | fuel + 1, array =>
    match mem[array]? with
    | none => none
    | some v =>
      if v.isVoid then some 0
      else
        match v.type with
        | .NUMBER =>
          if number = v.toNumber then some 1
          else flow_NumberInArray.loop mem number fuel (array + 1)
        | _ => flow_NumberInArray.loop mem number fuel (array + 1)

/-- The runtime helper `flow_NumberInArray(number, array)`. -/
def flow_NumberInArray (mem : List FlowValue) (number : Nat) (array : Nat) : Option Nat :=
  flow_NumberInArray.loop mem number (mem.length + 1) array

/-- The inner loop of the BUFFER case of `flow_StringInArray`:
    `while (i) { if (tolower(*t) == tolower(*u)) return true; ++t; ++u; --i; }`;
    `false` when the loop runs out. -/
def flow_StringInArray.scan : (i : Nat) → (t u : List Byte) → Bool
  | 0, _, _ => false
  | i + 1, t, u =>
    if tolower (load t) = tolower (load u) then true
    else flow_StringInArray.scan i t.tail u.tail

/-- The loop of `flow_StringInArray`, on the record memory `mem`. -/
def flow_StringInArray.loop (mem : List FlowValue) (textLength : Nat) (text : List Byte) :
    (fuel : Nat) → (array : Nat) → Option Nat
  | 0, _ => none
  | fuel + 1, array =>
    match mem[array]? with
    | none => none
    | some v =>
      if v.isVoid then some 0
      else
        match v.type with
        | .STRING =>
          if textLength = strlen v.toString_ ∧ strncasecmp text v.toString_ textLength = 0 then
            some 1
          else flow_StringInArray.loop mem textLength text fuel (array + 1)
        | .BUFFER =>
          if v.toNumber = textLength ∧ flow_StringInArray.scan textLength v.toString_ text = true then
            some 1
          else flow_StringInArray.loop mem textLength text fuel (array + 1)
        | _ => flow_StringInArray.loop mem textLength text fuel (array + 1)

/-- The runtime helper `flow_StringInArray(textLength, text, array)`. -/
def flow_StringInArray (mem : List FlowValue) (textLength : Nat) (text : List Byte)
    (array : Nat) : Option Nat :=
  flow_StringInArray.loop mem textLength text (mem.length + 1) array

/-- Modelled from the spec: an IP address (v4 or v6) supporting equality, the
    class `IPAddress` of `x0/IPAddress.h`, which is not among the sources: its
    address family and its address bytes. -/
structure IPAddress where
  family : Nat
  addr : List Byte
  deriving DecidableEq, Repr

/-- The runtime helper `flow_ipcmp(ip1, ip2)`: `*ip1 == *ip2 ? 0 : 1`. -/
def flow_ipcmp (ip1 ip2 : IPAddress) : Int := if ip1 = ip2 then 0 else 1

/-- The runtime helper `flow_ipstrcmp(ipaddr, string)`:
    `strcmp(ipaddr->str().c_str(), string)`.  `str` is `IPAddress::str()`, the
    text form of an address, whose code is not among the sources. -/
def flow_ipstrcmp (str : IPAddress → List Byte) (ipaddr : IPAddress) (string : List Byte) : Int :=
  strcmp ((str ipaddr).takeWhile (fun c => c ≠ 0)) string

/-- The record memory that holds the array a list expression builds: its
    records, followed by the VOID record of `emitNativeValue(nelems, array, NULL)`. -/
def arrayMemory (elems : List FlowValue) : List FlowValue := elems ++ [emitNativeValue none]

/-- The C library's `strcasestr(haystack, needle) != NULL` in the "C" locale. -/
def strcasestrFound (haystack needle : List Byte) : Bool :=
  ((haystack.takeWhile (fun c => c ≠ 0)).tails).any
    (fun t => ((needle.takeWhile (fun c => c ≠ 0)).map asciiLower).isPrefixOf (t.map asciiLower))

/-- `FlowRunner::emitStringCat`: the fresh C-string holding both strings. -/
def emitStringCat (v1 v2 : StrVal) : List Byte :=
  (emitLoadStringBuffer v1).take (emitLoadStringLength v1) ++
    (emitLoadStringBuffer v2).take (emitLoadStringLength v2) ++ [0]

/-- The operand pairs of `FlowRunner::visit(BinaryExpr&)` for which no value is
    computed: by the types of the operands, the code generator either calls
    `reportError` and leaves `value_ == NULL` (`Val.null`), or does not go on
    (`none`), as `visitBinaryOp` tells. -/
def binaryOpRest (op : Operator) (left right : Val) : Option Val :=
  match visitBinaryOp op left.ty right.ty freshRunner with
  | none => none
  | some s => if s.value_.isNone then some Val.null else none

/-- The second `switch` of `FlowRunner::visit(BinaryExpr&)`: the value of a
    binary operator other than `&&`, `||`, `xor` and `=` on the values of its
    two operands, by the pair of operand types.  An integer instruction
    (`CreateAdd`, `CreateICmpSLT`, ...) takes two operands of one width; an `i1`
    that is true reads as `-1` when signed.  Where the operand types are not
    accepted, `reportError` is called and the result is `Val.null`.  `none`
    where the emitted instruction is not valid (mismatched integer widths) or
    its behaviour is not defined: division by zero or of the least integer by
    `-1`, a pointer moved outside its object, and the concatenation of arrays,
    where `flow_arrayadd` writes the sentinel one record behind the
    `nl + nr` records allocated for the result. -/
def binaryOp {σ : Type} (be : Backend σ) (op : Operator) (left right : Val) : Option Val :=
  match op, left, right with
  -- Plus
  | .Plus, .i1 a, .i1 b => some (.i1 (xor a b))
  | .Plus, .i32 a, .i32 b => some (.i32 ((a + b) % 2 ^ 32))
  | .Plus, .i64 a, .i64 b => some (.i64 ((a + b) % 2 ^ 64))
  | .Plus, .cstring p, .i1 b => if b then none else some (.cstring p)
  | .Plus, .cstring p, .i32 n =>
    if n < 2 ^ 31 ∧ n ≤ p.length then some (.cstring (p.drop n)) else none
  | .Plus, .cstring p, .i64 n => if n ≤ p.length then some (.cstring (p.drop n)) else none
  | .Plus, .bufferPtr length data, .i64 n =>
    if n ≤ data.length then some (.bufferPtr (sub64 length n) (data.drop n)) else none
  | .Plus, .array _, .array _ => none
  | .Plus, .cstring p, .cstring q => some (.cstring (emitStringCat (.cstring p) (.cstring q)))
  | .Plus, .cstring p, .bufferPtr l d => some (.cstring (emitStringCat (.cstring p) (.buffer l d)))
  | .Plus, .bufferPtr l d, .cstring q => some (.cstring (emitStringCat (.buffer l d) (.cstring q)))
  | .Plus, .bufferPtr l d, .bufferPtr m e =>
    some (.cstring (emitStringCat (.buffer l d) (.buffer m e)))
  -- Minus
  | .Minus, .i1 a, .i1 b => some (.i1 (xor a b))
  | .Minus, .i32 a, .i32 b => some (.i32 (sub32 a b))
  | .Minus, .i64 a, .i64 b => some (.i64 (sub64 a b))
  | .Minus, .bufferPtr length data, .i64 n =>
    if sub64 length n ≤ data.length then some (.bufferPtr n (data.drop (sub64 length n))) else none
  | .Minus, .cstring p, .i64 n =>
    if sub64 (strlen p) n ≤ p.length then some (.cstring (p.drop (sub64 (strlen p) n))) else none
  -- Mul
  | .Mul, .i1 a, .i1 b => some (.i1 (a && b))
  | .Mul, .i32 a, .i32 b => some (.i32 ((a * b) % 2 ^ 32))
  | .Mul, .i64 a, .i64 b => some (.i64 ((a * b) % 2 ^ 64))
  -- Div: `CreateSDiv`
  | .Div, .i1 a, .i1 b => if b = false ∨ a = true then none else some (.i1 false)
  | .Div, .i32 a, .i32 b =>
    if b = 0 ∨ (a = 2 ^ 31 ∧ b = 2 ^ 32 - 1) then none
    else some (.i32 ((Int.tdiv (toSigned32 a) (toSigned32 b) % 2 ^ 32).toNat))
  | .Div, .i64 a, .i64 b =>
    if b = 0 ∨ (a = 2 ^ 63 ∧ b = 2 ^ 64 - 1) then none
    else some (.i64 ((Int.tdiv (toSigned64 a) (toSigned64 b) % 2 ^ 64).toNat))
  -- Pow: both operands through `CreateSIToFP`, the result through `CreateFPToSI`
  | .Pow, .i1 a, .i1 b => some (.i64 (be.pow (Val.i1 a).sext (Val.i1 b).sext % 2 ^ 64))
  | .Pow, .i1 a, .i32 b => some (.i64 (be.pow (Val.i1 a).sext (Val.i32 b).sext % 2 ^ 64))
  | .Pow, .i1 a, .i64 b => some (.i64 (be.pow (Val.i1 a).sext b % 2 ^ 64))
  | .Pow, .i32 a, .i1 b => some (.i64 (be.pow (Val.i32 a).sext (Val.i1 b).sext % 2 ^ 64))
  | .Pow, .i32 a, .i32 b => some (.i64 (be.pow (Val.i32 a).sext (Val.i32 b).sext % 2 ^ 64))
  | .Pow, .i32 a, .i64 b => some (.i64 (be.pow (Val.i32 a).sext b % 2 ^ 64))
  | .Pow, .i64 a, .i1 b => some (.i64 (be.pow a (Val.i1 b).sext % 2 ^ 64))
  | .Pow, .i64 a, .i32 b => some (.i64 (be.pow a (Val.i32 b).sext % 2 ^ 64))
  | .Pow, .i64 a, .i64 b => some (.i64 (be.pow a b % 2 ^ 64))
  -- Equal: integers narrower than 64 bits are zero-extended first
  | .Equal, .i1 a, .i1 b => some (.i1 (decide (a = b)))
  | .Equal, .i1 a, .i32 b => some (.i1 (decide ((Val.i1 a).zext = b)))
  | .Equal, .i1 a, .i64 b => some (.i1 (decide ((Val.i1 a).zext = b)))
  | .Equal, .i32 a, .i1 b => some (.i1 (decide (a = (Val.i1 b).zext)))
  | .Equal, .i32 a, .i32 b => some (.i1 (decide (a = b)))
  | .Equal, .i32 a, .i64 b => some (.i1 (decide (a = b)))
  | .Equal, .i64 a, .i1 b => some (.i1 (decide (a = (Val.i1 b).zext)))
  | .Equal, .i64 a, .i32 b => some (.i1 (decide (a = b)))
  | .Equal, .i64 a, .i64 b => some (.i1 (decide (a = b)))
  | .Equal, .ipaddr a, .cstring p => some (.i1 (decide (be.ipstrcmp a p % 2 ^ 32 = 0)))
  | .Equal, .ipaddr a, .ipaddr b => some (.i1 (decide (be.ipcmp a b % 2 ^ 32 = 0)))
  -- UnEqual
  | .UnEqual, .i1 a, .i1 b => some (.i1 (decide (a ≠ b)))
  | .UnEqual, .i32 a, .i32 b => some (.i1 (decide (a ≠ b)))
  | .UnEqual, .i64 a, .i64 b => some (.i1 (decide (a ≠ b)))
  | .UnEqual, .ipaddr a, .cstring p => some (.i1 (decide (be.ipstrcmp a p % 2 ^ 32 ≠ 0)))
  | .UnEqual, .ipaddr a, .ipaddr b => some (.i1 (decide (be.ipcmp a b % 2 ^ 32 ≠ 0)))
  -- relational operators on integers: `icmp slt`, `sgt`, `sle`, `sge`
  | .Less, .i1 a, .i1 b => some (.i1 (a && !b))
  | .Less, .i32 a, .i32 b => some (.i1 (decide (toSigned32 a < toSigned32 b)))
  | .Less, .i64 a, .i64 b => some (.i1 (decide (toSigned64 a < toSigned64 b)))
  | .Greater, .i1 a, .i1 b => some (.i1 (!a && b))
  | .Greater, .i32 a, .i32 b => some (.i1 (decide (toSigned32 a > toSigned32 b)))
  | .Greater, .i64 a, .i64 b => some (.i1 (decide (toSigned64 a > toSigned64 b)))
  | .LessOrEqual, .i1 a, .i1 b => some (.i1 (a || !b))
  | .LessOrEqual, .i32 a, .i32 b => some (.i1 (decide (toSigned32 a ≤ toSigned32 b)))
  | .LessOrEqual, .i64 a, .i64 b => some (.i1 (decide (toSigned64 a ≤ toSigned64 b)))
  | .GreaterOrEqual, .i1 a, .i1 b => some (.i1 (!a || b))
  | .GreaterOrEqual, .i32 a, .i32 b => some (.i1 (decide (toSigned32 a ≥ toSigned32 b)))
  | .GreaterOrEqual, .i64 a, .i64 b => some (.i1 (decide (toSigned64 a ≥ toSigned64 b)))
  -- regex match against a compiled pattern: the `i32` of `flow_regexmatch2`
  | .RegexMatch, .cstring p, .regexp re => some (.i32 (be.regexmatch2 (strlen p) p re % 2 ^ 32))
  | .RegexMatch, .bufferPtr l d, .regexp re => some (.i32 (be.regexmatch2 l d re % 2 ^ 32))
  -- substring test: `strcasestr(right, left) != NULL`
  | .In, .cstring p, .cstring q => some (.i1 (strcasestrFound q p))
  -- membership: the `int` of `flow_NumberInArray` / `flow_StringInArray`, tested `!= 0`
  | .In, .i64 n, .array elems =>
    (flow_NumberInArray (arrayMemory elems) n 0).map (fun r => Val.i1 (decide (r ≠ 0)))
  | .In, .cstring p, .array elems =>
    (flow_StringInArray (arrayMemory elems) (strlen p) p 0).map (fun r => Val.i1 (decide (r ≠ 0)))
  | .In, .bufferPtr l d, .array elems =>
    (flow_StringInArray (arrayMemory elems) l d 0).map (fun r => Val.i1 (decide (r ≠ 0)))
  -- arrays: the `int32_t` of `flow_arraycmp`, tested against 0
  | .Equal, .array xs, .array ys =>
    (flow_arraycmp (arrayMemory xs ++ arrayMemory ys) 0 (xs.length + 1)).map
      (fun r => Val.i1 (decide (r = 0)))
  | .UnEqual, .array xs, .array ys =>
    (flow_arraycmp (arrayMemory xs ++ arrayMemory ys) 0 (xs.length + 1)).map
      (fun r => Val.i1 (decide (r ≠ 0)))
  -- the remaining string forms
  | op, left, right =>
    match left.toStrVal, right.toStrVal, right with
    | some l, some r, _ =>
      match op with
      | .Equal | .UnEqual | .Less | .Greater | .LessOrEqual | .GreaterOrEqual | .RegexMatch =>
        (emitCmpStringOp be.regexmatch op l r).map Val.i1
      | .PrefixMatch => some (.i1 (emitPrefixMatch l r))
      | .SuffixMatch => some (.i1 (emitSuffixMatch l r))
      | _ => binaryOpRest op left right
    | some l, none, .i64 n =>
      -- (string, int): the length of the string is compared with the number
      match op with
      | .Equal => some (.i1 (decide (emitLoadStringLength l = n)))
      | .UnEqual => some (.i1 (decide (emitLoadStringLength l ≠ n)))
      | .Less => some (.i1 (decide (emitLoadStringLength l < n)))
      | .Greater => some (.i1 (decide (emitLoadStringLength l > n)))
      | .LessOrEqual => some (.i1 (decide (toSigned64 (emitLoadStringLength l) ≤ toSigned64 n)))
      | .GreaterOrEqual => some (.i1 (decide (toSigned64 (emitLoadStringLength l) ≥ toSigned64 n)))
      | _ => binaryOpRest op left right
    | _, _, _ => binaryOpRest op left right

/-- Append an event to the record of a run. -/
def World.log {σ : Type} (w : World σ) (e : Event) : World σ :=
  { w with trace := w.trace ++ [e] }

/-- The second half of `FlowRunner::emitNativeCall`, "handle return value": how
    the record `ret` that the call left in `argv[0]` is read, by the kind of the
    native entry.  For a function or variable the slot is chosen by the declared
    return kind (the kind field, index 0, in the `default` case).  For a
    handler a non-zero number branches to `handler.done` (`ret i1 true`),
    otherwise control continues in `handler.cont`.  For any other kind of
    entry `reportError` is called, after the call has been emitted. -/
def emitNativeReturn {σ : Type} (native : Callback) (ret : FlowValue) (w1 : World σ) :
    Outcome σ Val :=
  match native.type with
  | .VARIABLE | .FUNCTION =>
    if native.returnType = FlowValueType.BUFFER then
      Outcome.value (Val.bufferPtr ret.number_ ret.buffer_.toChars) w1
    else
      match native.returnType with
      | .BOOLEAN => Outcome.value (Val.i64 ret.number_) w1
      | .NUMBER => Outcome.value (Val.i64 ret.number_) w1
      | .STRING => Outcome.value (Val.cstring ret.buffer_.toChars) w1
      | _ => Outcome.value (Val.i32 ret.type_.code) w1
  | .HANDLER =>
    if ret.number_ ≠ 0 then Outcome.done w1
    else Outcome.value (Val.i1 false) w1
  | _ => Outcome.value Val.null w1

/-- `FlowRunner::emitNativeCall(id, argList)`, once the arguments have their
    values: `argv[0]` is initialised to VOID, `argv[1..argc]` receive the
    marshalled arguments, `flow_backend_callback` is called, and the result is
    read from `argv[0]`. -/
def emitNativeCall {σ : Type} (be : Backend σ) (id : Nat) (args : List Val) (w : World σ) :
    Outcome σ Val :=
  let argv := args.map (fun a => emitNativeValue (some a))
  let r := be.dispatch id argv w.host
  let native := be.callbackAt id
  emitNativeReturn native r.1
    { host := r.2, trace := w.trace ++ [Event.native id native.type argv r.1] }

/-- The value the slot of the local variable at `addr` holds, read back from
    the record of the run, latest event first: the value of the latest store
    to it since the function that is running was entered.  `depth` counts the
    calls of Flow functions that have returned and whose entry has not been
    passed yet; their stores are to their own slots. -/
def World.load.loop (addr : Nat) (name : String) : List Event → (depth : Nat) → Option Val
  | [], _ => none
  | .store a n v :: rest, 0 =>
    if a = addr ∧ n = name then some v else World.load.loop addr name rest 0
  | .store _ _ _ :: rest, depth + 1 => World.load.loop addr name rest (depth + 1)
  | .enter _ :: _, 0 => none
  | .enter _ :: rest, depth + 1 => World.load.loop addr name rest depth
  | .flowHandler _ _ :: rest, depth => World.load.loop addr name rest (depth + 1)
  | .leave _ :: rest, depth => World.load.loop addr name rest (depth + 1)
  | .native _ _ _ _ :: rest, depth => World.load.loop addr name rest depth

/-- The value of the local variable at `addr` in the function that is running;
    `none` when nothing has been stored to its slot. -/
def World.load {σ : Type} (w : World σ) (addr : Nat) (name : String) : Option Val :=
  World.load.loop addr name w.trace.reverse 0

/-- The names that the module holds before any function of a unit is generated:
    the native entry point, the runtime helpers of `emitCoreFunctions` and the
    initialiser function.  `emitCall` finds its callee by name in the module,
    so a call of a Flow function of such a name is a call of that function;
    such a call is not modelled. -/
def moduleNames : List String :=
  ["flow_backend_callback", "strlen", "strcat", "strcpy", "memcpy", "strcasecmp", "strncasecmp",
   "strcasestr", "strcmp", "strncmp", "flow_endsWidth", "flow_arraylen", "flow_arrayadd",
   "flow_arraycmp", "flow_regexmatch", "flow_regexmatch2", "flow_NumberInArray",
   "flow_StringInArray", "flow_ipstrcmp", "flow_ipcmp", "llvm.pow.f64", "__flow_initialize"]

/-- The end of `FlowRunner::emitCall`, after the code of the callee `name` has
    run (`o`): the result of a handler is tested, true branches to
    `handler.done` (`ret i1 true`), false continues in `handler.cont`; a
    function that is no handler yields no value, and a `ret i1 true` inside it
    is not valid. -/
def emitCallReturn {σ : Type} (name : String) (isHandler : Bool) (o : Outcome σ NoValue) :
    Outcome σ Val :=
  match o with
  | Outcome.error => Outcome.error
  | Outcome.done w1 =>
    if isHandler then Outcome.done (w1.log (Event.flowHandler name true)) else Outcome.error
  | Outcome.value _ w1 =>
    if isHandler then Outcome.value (Val.i1 false) (w1.log (Event.flowHandler name false))
    else Outcome.value Val.void (w1.log (Event.leave name))

mutual
/-- The behaviour of the code that `FlowRunner::codegen(Expr*)` emits for an
    expression (the `visit` functions of the expression nodes). -/
def evalExpr {σ : Type} (be : Backend σ) : Expr → World σ → Outcome σ Val
  | .BoolExpr value, w => Outcome.value (Val.i64 (if value then 1 else 0)) w
  | .NumberExpr value, w => Outcome.value (Val.i64 (value % 2 ^ 64)) w
  | .StringExpr value, w => Outcome.value (Val.cstring (value.takeWhile (fun c => c ≠ 0))) w
  | .RegExpExpr value, w => Outcome.value (Val.regexp value) w
  | .IPAddressExpr value, w => Outcome.value (Val.ipaddr value) w
  | .VariableExpr var, w =>
    -- `requestingLvalue_` is false: the slot of a local variable is loaded
    evalVariable be var w
  | .FunctionRefExpr function, w =>
    -- `value_ = codegen(expr.function())`
    if (be.find function.name).isSome then
      -- `visit(Function&)` returns at once: `value_` is what was generated before
      Outcome.error
    else if function.body.isNone then Outcome.value Val.null w
    else Outcome.value (Val.function function.addr function.name) w
  | .UnaryExpr op subExpr, w =>
    match evalExpr be subExpr w with
    | Outcome.error => Outcome.error
    | Outcome.done w1 => Outcome.done w1
    | Outcome.value v w1 =>
      match unaryOp op v with
      | none => Outcome.error
      | some r => Outcome.value r w1
  | .BinaryExpr op leftExpr rightExpr, w =>
    match op with
    | .Assign =>
      -- `requestingLvalue_` is true while the left operand is generated: a
      -- reference to a local variable yields its slot.  No other expression
      -- yields a pointer to a value of the type of `right`.  A variable that
      -- is not bound yet would be bound by this reference, its initialiser
      -- generated while `requestingLvalue_` is true; that is not modelled.
      match leftExpr.lvalue with
      | none => Outcome.error
      | some var =>
        if var.parentScope = ParentScope.functionTable then
          match w.load var.addr var.name with
          | none => Outcome.error
          | some old =>
            match evalExpr be rightExpr w with
            | Outcome.error => Outcome.error
            | Outcome.done w1 => Outcome.done w1
            | Outcome.value right w1 =>
              -- `CreateStore(right, left)`
              if right.ty.isSome ∧ old.ty = right.ty then
                Outcome.value Val.void (w1.log (Event.store var.addr var.name right))
              else Outcome.error
        else Outcome.error
    | op =>
      match evalExpr be leftExpr w with
      | Outcome.error => Outcome.error
      | Outcome.done w1 => Outcome.done w1
      | Outcome.value left w1 =>
        match op with
        | .And =>
          match evalExpr be rightExpr w1 with
          | Outcome.error => Outcome.error
          | Outcome.done w2 => Outcome.done w2
          | Outcome.value right w2 =>
            match toBool left, toBool right with
            | some l, some r => Outcome.value (Val.i1 (l && r)) w2
            | _, _ => Outcome.error
        | .Or =>
          match toBool left with
          | none => Outcome.error
          | some true =>
            -- br to or.cont; the phi takes `left` from the block of the test
            Outcome.value (Val.i1 true) w1
          | some false =>
            -- or.rhs
            match evalExpr be rightExpr w1 with
            | Outcome.error => Outcome.error
            | Outcome.done w2 => Outcome.done w2
            | Outcome.value right w2 =>
              match toBool right with
              | none => Outcome.error
              | some r => Outcome.value (Val.i1 r) w2
        | .Xor =>
          match evalExpr be rightExpr w1 with
          | Outcome.error => Outcome.error
          | Outcome.done w2 => Outcome.done w2
          | Outcome.value right w2 =>
            match toBool left, toBool right with
            | some l, some r => Outcome.value (Val.i1 (xor l r)) w2
            | _, _ => Outcome.error
        | op =>
          match evalExpr be rightExpr w1 with
          | Outcome.error => Outcome.error
          | Outcome.done w2 => Outcome.done w2
          | Outcome.value right w2 =>
            match binaryOp be op left right with
            | none => Outcome.error
            | some r => Outcome.value r w2
  | .ListExpr elems, w =>
    match evalArgs be elems w with
    | Outcome.error => Outcome.error
    | Outcome.done w1 => Outcome.done w1
    | Outcome.value vs w1 => Outcome.value (Val.array (vs.map (fun a => emitNativeValue (some a)))) w1
  | .CallExpr callee args isAssignment, w =>
    match be.find callee.name with
    | none =>
      -- emitCall
      if callee.name ∈ moduleNames then Outcome.error
      else if callee.body.isNone then
        -- `codegen(callee)` reports the function as unknown; no call is emitted
        Outcome.value Val.null w
      else
        match evalCallArgs be args w with
        | Outcome.error => Outcome.error
        | Outcome.done w1 => Outcome.done w1
        | Outcome.value _ w1 => emitCallReturn callee.name callee.isHandler (execFunction be callee w1)
    | some id =>
      if isAssignment && !be.isVariable callee.name then
        -- reportError("Trying to assign a value to non-variable")
        Outcome.value Val.null w
      else
        match evalArgs be args w with
        | Outcome.error => Outcome.error
        | Outcome.done w1 => Outcome.done w1
        | Outcome.value vs w1 => emitNativeCall be id vs w1

/-- The behaviour of the code that `FlowRunner::codegen(Symbol*)` emits for a
    variable symbol that the scope stack does not bind, through
    `visit(Variable&)`, and the value a reference to the variable has.
    A variable of the host is read by a call of its native entry.  A global
    variable has the value of its initialiser, whose code is in the
    initialiser function: in another function the value can be used only if
    it is a constant, so an initialiser whose code does anything at run time
    gives no code to run.  A local variable that has been stored to is
    loaded; otherwise the code of its initialiser is here, and, unless the
    value is `NULL`, a slot is allocated for it and the value is stored.
    Whether a local variable is bound is a matter of generation order; in a
    run that reads no slot before it has been stored to, the variable is bound
    exactly when a store to it has been executed. -/
def evalVariable {σ : Type} (be : Backend σ) : Variable → World σ → Outcome σ Val
  | .make addr name parentScope value, w =>
    match parentScope with
    | .absent =>
      match be.find name with
      | none => Outcome.value Val.null w
      | some id => emitNativeCall be id [] w
    | .unitTable =>
      match evalExpr be value w with
      | Outcome.value v w1 => if w1.trace = w.trace then Outcome.value v w else Outcome.error
      | _ => Outcome.error
    | .functionTable =>
      match w.load addr name with
      | some v => Outcome.value v w
      | none =>
        match evalExpr be value w with
        | Outcome.error => Outcome.error
        | Outcome.done w1 => Outcome.done w1
        | Outcome.value v w1 =>
          match v.ty with
          | none => Outcome.value Val.null w1
          | some Ty.void => Outcome.error
          | some _ => Outcome.value v (w1.log (Event.store addr name v))

/-- The argument expressions of a native call or the elements of a list, in
    order, each value stored into its ABI value record by `emitNativeValue`; a
    `NULL` value is stored as VOID; the store of an `i32` is not valid. -/
def evalArgs {σ : Type} (be : Backend σ) : List Expr → World σ → Outcome σ (List Val)
  | [], w => Outcome.value [] w
  | e :: es, w =>
    match evalExpr be e w with
    | Outcome.error => Outcome.error
    | Outcome.done w1 => Outcome.done w1
    | Outcome.value v w1 =>
      if emitNativeValueOk v.ty then
        match evalArgs be es w1 with
        | Outcome.error => Outcome.error
        | Outcome.done w2 => Outcome.done w2
        | Outcome.value vs w2 => Outcome.value (v :: vs) w2
      else Outcome.error

/-- The argument expressions of a call of a Flow function (`emitCall`), in
    order; a `NULL` value cannot be an argument of `CreateCall`. -/
def evalCallArgs {σ : Type} (be : Backend σ) : List Expr → World σ → Outcome σ (List Val)
  | [], w => Outcome.value [] w
  | e :: es, w =>
    match evalExpr be e w with
    | Outcome.error => Outcome.error
    | Outcome.done w1 => Outcome.done w1
    | Outcome.value v w1 =>
      if v.ty.isSome then
        match evalCallArgs be es w1 with
        | Outcome.error => Outcome.error
        | Outcome.done w2 => Outcome.done w2
        | Outcome.value vs w2 => Outcome.value (v :: vs) w2
      else Outcome.error

/-- The code that `FlowRunner::visit(Function&)` emits for a function with a
    body, from its entry: the local variables of `function.scope()`, then the
    body; the catch-all return follows a body that ran to its end.  The
    arguments of a function are not bound to anything (the `TODO` of the loop
    over them), so the code depends on no argument value. -/
def execFunction {σ : Type} (be : Backend σ) : Function → World σ → Outcome σ NoValue
  | .make _ _ _ _ none, _ => Outcome.error
  | .make _ name _ scope (some body), w =>
    match execScope be scope (w.log (Event.enter name)) with
    | Outcome.error => Outcome.error
    | Outcome.done w1 => Outcome.done w1
    | Outcome.value _ w1 => execStmt be body w1

/-- The loop `for (i : function.scope()) codegen(*i);` at the entry of a
    function. -/
def execScope {σ : Type} (be : Backend σ) : List Variable → World σ → Outcome σ NoValue
  | [], w => Outcome.value () w
  | v :: vs, w =>
    match evalVariable be v w with
    | Outcome.error => Outcome.error
    | Outcome.done w1 => Outcome.done w1
    | Outcome.value _ w1 => execScope be vs w1

/-- The behaviour of the code that `FlowRunner::codegen(Stmt*)` emits for a
    statement (`visit(ExprStmt&)`, `visit(CompoundStmt&)`, `visit(CondStmt&)`). -/
def execStmt {σ : Type} (be : Backend σ) : Stmt → World σ → Outcome σ NoValue
  | .ExprStmt expression, w =>
    match evalExpr be expression w with
    | Outcome.error => Outcome.error
    | Outcome.done w1 => Outcome.done w1
    | Outcome.value _ w1 => Outcome.value () w1
  | .CompoundStmt stmts, w => execStmts be stmts w
  | .CondStmt condition thenStmt elseStmt, w =>
    match evalExpr be condition w with
    | Outcome.error => Outcome.error
    | Outcome.done w1 => Outcome.done w1
    | Outcome.value c w1 =>
      match toBool c with
      | none => Outcome.error
      | some true => execStmt be thenStmt w1
      | some false => execElse be elseStmt w1

/-- The statements of a compound statement, in order. -/
def execStmts {σ : Type} (be : Backend σ) : List Stmt → World σ → Outcome σ NoValue
  | [], w => Outcome.value () w
  | s :: ss, w =>
    match execStmt be s w with
    | Outcome.error => Outcome.error
    | Outcome.done w1 => Outcome.done w1
    | Outcome.value _ w1 => execStmts be ss w1

/-- The `on.else` block: `codegen(stmt.elseStmt())`, which may be absent. -/
def execElse {σ : Type} (be : Backend σ) : Option Stmt → World σ → Outcome σ NoValue
  | none, w => Outcome.value () w
  | some s, w => execStmt be s w
end

/-- `FlowRunner::emitCall` on a Flow function with a body, once the arguments
    have been generated: the call runs the code of the callee, and for a
    handler callee the result is tested. -/
def emitCall {σ : Type} (be : Backend σ) (callee : Function) (w : World σ) : Outcome σ Val :=
  emitCallReturn callee.name callee.isHandler (execFunction be callee w)

mutual
/-- The two expressions are the same tree. -/
def Expr.same : Expr → Expr → Bool
  | .BoolExpr a, e => match e with
    | .BoolExpr b => decide (a = b)
    | _ => false
  | .NumberExpr a, e => match e with
    | .NumberExpr b => decide (a = b)
    | _ => false
  | .StringExpr a, e => match e with
    | .StringExpr b => decide (a = b)
    | _ => false
  | .RegExpExpr a, e => match e with
    | .RegExpExpr b => decide (a = b)
    | _ => false
  | .IPAddressExpr a, e => match e with
    | .IPAddressExpr b => decide (a = b)
    | _ => false
  | .VariableExpr a, e => match e with
    | .VariableExpr b => Variable.same a b
    | _ => false
  | .FunctionRefExpr a, e => match e with
    | .FunctionRefExpr b => Function.same a b
    | _ => false
  | .UnaryExpr o a, e => match e with
    | .UnaryExpr p b => decide (o = p) && Expr.same a b
    | _ => false
  | .BinaryExpr o a c, e => match e with
    | .BinaryExpr p b d => decide (o = p) && Expr.same a b && Expr.same c d
    | _ => false
  | .ListExpr a, e => match e with
    | .ListExpr b => Expr.sameList a b
    | _ => false
  | .CallExpr f a x, e => match e with
    | .CallExpr g b y => Function.same f g && Expr.sameList a b && decide (x = y)
    | _ => false
  termination_by structural x => x
/-- The two lists of expressions are the same. -/
def Expr.sameList : List Expr → List Expr → Bool
  | [], l => l.isEmpty
  | a :: as, l => match l with
    | b :: bs => Expr.same a b && Expr.sameList as bs
    | [] => false
  termination_by structural x => x
/-- The two statements are the same tree. -/
def Stmt.same : Stmt → Stmt → Bool
  | .ExprStmt a, s => match s with
    | .ExprStmt b => Expr.same a b
    | _ => false
  | .CompoundStmt a, s => match s with
    | .CompoundStmt b => Stmt.sameList a b
    | _ => false
  | .CondStmt c t e, s => match s with
    | .CondStmt d u f => Expr.same c d && Stmt.same t u && Stmt.sameOption e f
    | _ => false
  termination_by structural x => x
/-- The two lists of statements are the same. -/
def Stmt.sameList : List Stmt → List Stmt → Bool
  | [], l => l.isEmpty
  | a :: as, l => match l with
    | b :: bs => Stmt.same a b && Stmt.sameList as bs
    | [] => false
  termination_by structural x => x
/-- The two optional statements are the same. -/
def Stmt.sameOption : Option Stmt → Option Stmt → Bool
  | none, o => o.isNone
  | some a, o => match o with
    | some b => Stmt.same a b
    | none => false
  termination_by structural x => x
/-- The two variable symbols are the same tree. -/
def Variable.same : Variable → Variable → Bool
  | .make a n p v, x => match x with
    | .make b m q u => decide (a = b) && decide (n = m) && decide (p = q) && Expr.same v u
  termination_by structural x => x
/-- The two lists of variable symbols are the same. -/
def Variable.sameList : List Variable → List Variable → Bool
  | [], l => l.isEmpty
  | a :: as, l => match l with
    | b :: bs => Variable.same a b && Variable.sameList as bs
    | [] => false
  termination_by structural x => x
/-- The two function symbols are the same tree. -/
def Function.same : Function → Function → Bool
  | .make a n h s x, f => match f with
    | .make b m i t y =>
      decide (a = b) && decide (n = m) && decide (h = i) && Variable.sameList s t &&
        Stmt.sameOption x y
  termination_by structural x => x
end

mutual
/-- The symbols an expression refers to, with the symbols that these refer to
    in turn. -/
def Expr.symbols : Expr → List Symbol
  | .VariableExpr var => Variable.symbols var
  | .FunctionRefExpr function => Function.symbols function
  | .UnaryExpr _ subExpr => Expr.symbols subExpr
  | .BinaryExpr _ leftExpr rightExpr => Expr.symbols leftExpr ++ Expr.symbols rightExpr
  | .ListExpr elems => Expr.symbolsList elems
  | .CallExpr callee args _ => Function.symbols callee ++ Expr.symbolsList args
  | _ => []
/-- The symbols a list of expressions refers to. -/
def Expr.symbolsList : List Expr → List Symbol
  | [] => []
  | e :: es => Expr.symbols e ++ Expr.symbolsList es
/-- The symbols a statement refers to. -/
def Stmt.symbols : Stmt → List Symbol
  | .ExprStmt expression => Expr.symbols expression
  | .CompoundStmt stmts => Stmt.symbolsList stmts
  | .CondStmt condition thenStmt elseStmt =>
    Expr.symbols condition ++ Stmt.symbols thenStmt ++ Stmt.symbolsOption elseStmt
/-- The symbols a list of statements refers to. -/
def Stmt.symbolsList : List Stmt → List Symbol
  | [] => []
  | s :: ss => Stmt.symbols s ++ Stmt.symbolsList ss
/-- The symbols an optional statement refers to. -/
def Stmt.symbolsOption : Option Stmt → List Symbol
  | none => []
  | some s => Stmt.symbols s
/-- A variable symbol and the symbols its initialiser refers to. -/
def Variable.symbols : Variable → List Symbol
  | .make addr name parentScope value =>
    Symbol.variable (.make addr name parentScope value) :: Expr.symbols value
/-- The variable symbols of a list and the symbols they refer to. -/
def Variable.symbolsList : List Variable → List Symbol
  | [] => []
  | v :: vs => Variable.symbols v ++ Variable.symbolsList vs
/-- A function symbol and the symbols its local variables and its body refer
    to. -/
def Function.symbols : Function → List Symbol
  | .make addr name isHandler scope body =>
    Symbol.function (.make addr name isHandler scope body) ::
      (Variable.symbolsList scope ++ Stmt.symbolsOption body)
end

/-- The members of a unit and the symbols they refer to. -/
def Unit.symbols (unit : Unit) : List Symbol :=
  unit.members.flatMap (fun m =>
    match m with
    | Symbol.function f => Function.symbols f
    | Symbol.variable v => Variable.symbols v)

/-- No event of the list is a handler-kind call that returned true. -/
def Quiet (evs : List Event) : Prop := ∀ e ∈ evs, e.handledTrue = false

/-- The list has a first handler-kind call that returned true, it is a native
    handler, and nothing is executed after it: the events that follow are only
    the returns, with true, of the Flow handlers that enclose the call. -/
def Consumed (evs : List Event) : Prop :=
  ∃ pre e post, evs = pre ++ e :: post ∧ Quiet pre ∧ e.handledTrue = true ∧
    (∃ id argv ret, e = Event.native id CallbackType.HANDLER argv ret) ∧
    ∀ x ∈ post, ∃ name, x = Event.flowHandler name true

/-- The events an outcome added to the record of the run are as its kind
    requires: none that returned true for a code sequence that ran to its end,
    a call that returned true with nothing after it for a `ret i1 true`. -/
def Traced {σ α : Type} (w : World σ) : Outcome σ α → Prop
  | Outcome.value _ w1 => ∃ evs, w1.trace = w.trace ++ evs ∧ Quiet evs
  | Outcome.done w1 => ∃ evs, w1.trace = w.trace ++ evs ∧ Consumed evs
  | Outcome.error => True

/-- A sample backend over a host state that counts the dispatched calls:
    entry 0 is the handler `consume`, which returns true, entry 1 the handler
    `pass`, which returns false, entry 2 the function `crash`. -/
def sampleBackend : Backend Nat where
  find := fun name =>
    if name = "consume" then some 0 else if name = "pass" then some 1
    else if name = "crash" then some 2 else none
  callbackAt := fun id =>
    if id = 0 then { type := .HANDLER, name := "consume", returnType := .BOOLEAN }
    else if id = 1 then { type := .HANDLER, name := "pass", returnType := .BOOLEAN }
    else { type := .FUNCTION, name := "crash", returnType := .NUMBER }
  isVariable := fun _ => false
  dispatch := fun id _ n =>
    ({ type_ := .BOOLEAN, number_ := if id = 0 then 1 else 0, buffer_ := .null }, n + 1)
  regexmatch := fun _ _ _ _ => 0
  regexmatch2 := fun _ _ _ => 0
  ipcmp := fun _ _ => 1
  ipstrcmp := fun _ _ => 1
  pow := fun _ _ => 0

/-- `Scope::lookup(symbol)`, on the types of the values bound: the binding in
    the first frame that holds the symbol, `none` when it is a `NULL` value
    or when no frame holds the symbol. -/
def scopeLookup (symbol : SymbolKey) : List (List (SymbolKey × Option Ty)) → Option Ty
  | [] => none
  | i :: rest =>
    match i.lookup symbol with
    | some value => value
    | none => scopeLookup symbol rest

/-- `Scope::insert(symbol, value)`: the binding goes into the innermost frame. -/
def scopeInsert (symbol : SymbolKey) (value : Option Ty) :
    List (List (SymbolKey × Option Ty)) → List (List (SymbolKey × Option Ty))
  | [] => []
  | i :: rest => ((symbol, value) :: i) :: rest

/-- `Scope::insertGlobal(symbol, value)`: the binding goes into the outermost
    frame. -/
def scopeInsertGlobal (symbol : SymbolKey) (value : Option Ty) :
    List (List (SymbolKey × Option Ty)) → List (List (SymbolKey × Option Ty))
  | [] => []
  | [i] => [(symbol, value) :: i]
  | i :: rest => i :: scopeInsertGlobal symbol value rest

mutual
/-- The code generator on an expression, `FlowRunner::codegen(Expr*)` with the
    `visit` functions of the expression nodes, as far as the runner's fields
    go: `value_` (the type of the generated value), the scope stack, the
    functions created, the initialiser code generated and the errors
    reported.  `inHandler` tells whether the function being generated is a
    handler.  `none` when code generation does not go on (a `NULL` value is
    dereferenced, or the function does not verify).  In which function a value
    has been generated is not followed: a value of the initialiser function
    that is no constant cannot be used in another function, which is not
    tested here. -/
def codegenExpr {σ : Type} (be : Backend σ) (inHandler : Bool) :
    Expr → FlowRunner → Option FlowRunner
  | .BoolExpr _, s => some (setValue s Ty.i64)
  | .NumberExpr _, s => some (setValue s Ty.i64)
  | .StringExpr _, s => some (setValue s Ty.cstring)
  | .RegExpExpr _, s => some (setValue s Ty.regexp)
  | .IPAddressExpr _, s => some (setValue s Ty.ipaddr)
  | .VariableExpr var, s =>
    -- `value_ = codegen(expr.variable())`
    match codegenVariable be inHandler var s with
    | none => none
    | some s1 =>
      match s1.value_ with
      | none => some s1
      | some ty =>
        if var.parentScope = ParentScope.functionTable then
          if s1.requestingLvalue_ then some s1
          else
            -- `CreateLoad(value_)`
            match ty with
            | Ty.ptr elem => some (setValue s1 elem)
            | _ => none
        else some s1
  | .FunctionRefExpr function, s =>
    -- `value_ = codegen(expr.function())`
    match scopeLookup function.key s.scope_ with
    | some ty => some (setValue s ty)
    | none => codegenFunction be function s
  | .UnaryExpr op subExpr, s =>
    match codegenExpr be inHandler subExpr s with
    | none => none
    | some s1 =>
      match s1.value_ with
      | none => some s1
      | some ty => visitUnaryOp op ty s1
  | .BinaryExpr op leftExpr rightExpr, s =>
    match codegenExpr be inHandler leftExpr
        { s with requestingLvalue_ := decide (op = Operator.Assign) } with
    | none => none
    | some s1 =>
      let left := s1.value_
      match op with
      | .And | .Or | .Xor =>
        match toBoolTy left with
        | none => none
        | some _ =>
          match codegenExpr be inHandler rightExpr s1 with
          | none => none
          | some s2 =>
            match toBoolTy s2.value_ with
            | none => none
            | some _ => some (setValue s2 Ty.i1)
      | op =>
        match codegenExpr be inHandler rightExpr { s1 with requestingLvalue_ := false } with
        | none => none
        | some s2 => visitBinaryOp op left s2.value_ s2
  | .ListExpr elems, s =>
    match codegenArgs be inHandler true elems s with
    | none => none
    | some s1 => some (setValue s1 Ty.array)
  | .CallExpr callee args isAssignment, s =>
    match be.find callee.name with
    | none =>
      -- emitCall: the callee is looked up in the module by its name
      if callee.name ∈ moduleNames then none
      else if callee.name ∈ s.functions_ then
        match codegenArgs be inHandler false args s with
        | none => none
        | some s1 =>
          if callee.isHandler then (if inHandler then some (setValue s1 Ty.i1) else none)
          else some (setValue s1 Ty.void)
      else
        -- `codegen(callee)`
        match scopeLookup callee.key s.scope_ with
        | some ty => some (setValue s ty)
        | none =>
          match codegenFunction be callee s with
          | none => none
          | some s1 =>
            if callee.name ∈ s1.functions_ then
              match codegenArgs be inHandler false args s1 with
              | none => none
              | some s2 =>
                if callee.isHandler then (if inHandler then some (setValue s2 Ty.i1) else none)
                else some (setValue s2 Ty.void)
            else some s1
    | some id =>
      if isAssignment && !be.isVariable callee.name then
        some (reportError s ("Trying to assign a value to non-variable '" ++ callee.name ++ "'"))
      else
        match codegenArgs be inHandler true args s with
        | none => none
        | some s1 => emitNativeReturnTy (be.callbackAt id) inHandler s1

/-- The code generator on a variable symbol, `FlowRunner::codegen(Symbol*)`: the
    value that the scope stack binds the symbol to, and otherwise
    `visit(Variable&)`.  A variable without parent scope is read by a call of
    its native entry.  For a local variable the initialiser is generated at
    the insertion point; unless its value is `NULL`, a slot of its type is
    allocated, the value is stored and the slot is bound in the innermost
    frame.  For a global variable the initialiser is generated at the
    insertion point of the initialiser function, which returns `void` and is
    no handler (`none` without an initialiser function), and its value, be it
    `NULL`, is bound in the outermost frame. -/
def codegenVariable {σ : Type} (be : Backend σ) (inHandler : Bool) :
    Variable → FlowRunner → Option FlowRunner
  | .make addr name parentScope value, s =>
    match scopeLookup (false, addr, name) s.scope_ with
    | some ty => some (setValue s ty)
    | none =>
      match parentScope with
      | .absent =>
        match be.find name with
        | none => some (reportError s ("undefined global variable '" ++ name ++ "'"))
        | some id => emitNativeReturnTy (be.callbackAt id) inHandler s
      | .functionTable =>
        match codegenExpr be inHandler value s with
        | none => none
        | some s1 =>
          match s1.value_ with
          | none => some s1
          | some Ty.void => none
          | some ty =>
            some { setValue s1 (Ty.ptr ty) with
              scope_ := scopeInsert (false, addr, name) (some (Ty.ptr ty)) s1.scope_ }
      | .unitTable =>
        match s.initializerFn_ with
        | none => none
        | some code =>
          match codegenExpr be false value { s with initializerFn_ := some (code ++ [name]) } with
          | none => none
          | some s1 =>
            some { s1 with scope_ := scopeInsertGlobal (false, addr, name) s1.value_ s1.scope_ }

/-- The code generator on the arguments of a call or the elements of a list.
    With `marshal` each value is stored into an ABI value record by
    `emitNativeValue` (a `NULL` value gives a VOID record); without, it becomes
    an argument of the call of a Flow function and must not be `NULL`. -/
def codegenArgs {σ : Type} (be : Backend σ) (inHandler : Bool) (marshal : Bool) :
    List Expr → FlowRunner → Option FlowRunner
  | [], s => some s
  | e :: es, s =>
    match codegenExpr be inHandler e s with
    | none => none
    | some s1 =>
      if (if marshal then emitNativeValueOk s1.value_ else s1.value_.isSome) then
        codegenArgs be inHandler marshal es s1
      else none

/-- The code generator on a function symbol, `FlowRunner::visit(Function&)`: a
    native declaration is skipped, a function without body is reported, any
    other function is created and recorded in `functions_`; in a new frame
    of the scope stack its local variables and its body are generated; the
    function is verified, the frame is left, and the symbol is bound in the
    outermost frame.  The prototype of a function (`argTypes()` and
    `returnType()`, whose declarations are not among the sources) is not
    modelled: a handler takes the context pointer and returns an `i1`, and a
    function that is no handler is taken to have a prototype with which the
    loop over its arguments and the calls of it are valid. -/
def codegenFunction {σ : Type} (be : Backend σ) : Function → FlowRunner → Option FlowRunner
  | .make addr name isHandler scope body, s =>
    if (be.find name).isSome then some s
    else
      match body with
      | none => some (reportError s ("Cannot use unknown function '" ++ name ++ "'."))
      | some body =>
        match codegenScope be isHandler scope
            { s with functions_ := s.functions_ ++ [name], scope_ := [] :: s.scope_ } with
        | none => none
        | some s1 =>
          match codegenStmt be isHandler body s1 with
          | none => none
          | some s2 =>
            some { s2 with
              value_ := some Ty.function,
              scope_ := scopeInsertGlobal (true, addr, name) (some Ty.function) s2.scope_.tail }

/-- The loop `for (i : function.scope()) codegen(*i);` of
    `FlowRunner::visit(Function&)`. -/
def codegenScope {σ : Type} (be : Backend σ) (inHandler : Bool) :
    List Variable → FlowRunner → Option FlowRunner
  | [], s => some s
  | v :: vs, s =>
    match codegenVariable be inHandler v s with
    | none => none
    | some s1 => codegenScope be inHandler vs s1

/-- The code generator on a statement, `FlowRunner::codegen(Stmt*)` with
    `visit(ExprStmt&)`, `visit(CompoundStmt&)` and `visit(CondStmt&)`. -/
def codegenStmt {σ : Type} (be : Backend σ) (inHandler : Bool) :
    Stmt → FlowRunner → Option FlowRunner
  | .ExprStmt expression, s => codegenExpr be inHandler expression s
  | .CompoundStmt stmts, s =>
    match codegenStmts be inHandler stmts s with
    | none => none
    | some s1 => some { s1 with value_ := none }
  | .CondStmt condition thenStmt elseStmt, s =>
    match codegenExpr be inHandler condition s with
    | none => none
    | some s1 =>
      match toBoolTy s1.value_ with
      | none => none
      | some _ =>
        match codegenStmt be inHandler thenStmt s1 with
        | none => none
        | some s2 => codegenElse be inHandler elseStmt s2

/-- The code generator on the statements of a compound statement, in order. -/
def codegenStmts {σ : Type} (be : Backend σ) (inHandler : Bool) :
    List Stmt → FlowRunner → Option FlowRunner
  | [], s => some s
  | st :: rest, s =>
    match codegenStmt be inHandler st s with
    | none => none
    | some s1 => codegenStmts be inHandler rest s1

/-- The code generator on the else branch, which may be absent. -/
def codegenElse {σ : Type} (be : Backend σ) (inHandler : Bool) :
    Option Stmt → FlowRunner → Option FlowRunner
  | none, s => some s
  | some st, s => codegenStmt be inHandler st s
end

/-- `FlowRunner::clear()`: the machine code of every generated function is
    freed through the engine (`none`: a call through a `NULL` engine), then
    `value_`, the scope, the pass manager and the engine are reset.  The module
    pointer is not touched (`//FIXME crash: delete module_;`). -/
def clear (s : FlowRunner) : Option FlowRunner :=
  if s.functions_ ≠ [] ∧ s.executionEngine_ = false then none
  else some { s with
    functions_ := [],
    value_ := none,
    scope_ := [[]],
    functionPassMgr_ := none,
    executionEngine_ := false }

/-- `FlowRunner::reinitialize()`: both `assert`s (`none` when one fails), then
    the module and the engine are created; `engineCreates` tells whether
    `EngineBuilder::create` succeeds.  The result is the returned `bool`. -/
def reinitialize (engineCreates : Bool) (s : FlowRunner) : Option (Bool × FlowRunner) :=
  if s.module_ ≠ false then none
  else if s.executionEngine_ ≠ false then none
  else
    let s1 := { s with module_ := true, executionEngine_ := engineCreates }
    if s1.executionEngine_ = false then some (false, s1)
    else some (true, s1)

/-- `FlowRunner::reset()`: `clear(); reinitialize();`. -/
def reset (engineCreates : Bool) (s : FlowRunner) : Option FlowRunner :=
  match clear s with
  | none => none
  | some s1 =>
    match reinitialize engineCreates s1 with
    | none => none
    | some (_, s2) => some s2

/-- `FlowRunner::FlowRunner(b)`: all pointer fields `NULL`, optimisation level
    0, then `reinitialize()`. -/
def FlowRunner.new (engineCreates : Bool) : Option FlowRunner :=
  match reinitialize engineCreates
    { unit_ := none, optimizationLevel_ := 0, errorHandler_ := false, module_ := false,
      executionEngine_ := false, functionPassMgr_ := none, functions_ := [], value_ := none,
      initializerFn_ := none, initializerRuns := 0, reported := [], scope_ := [[]],
      requestingLvalue_ := false } with
  | none => none
  | some (_, s) => some s

/-- `FlowRunner::setErrorHandler(callback)`. -/
def setErrorHandler (s : FlowRunner) : FlowRunner := { s with errorHandler_ := true }

/-- The loop of `FlowRunner::visit(Unit&)` over the members of the unit:
    `codegen(Symbol*)` on the members that are functions, which generates code
    for a function symbol unless the scope stack binds the symbol already. -/
def visitMembers {σ : Type} (be : Backend σ) : List Symbol → FlowRunner → Option FlowRunner
  | [], s => some s
  | Symbol.variable _ :: rest, s => visitMembers be rest s
  | Symbol.function f :: rest, s =>
    match scopeLookup f.key s.scope_ with
    | some ty => visitMembers be rest (setValue s ty)
    | none =>
      match codegenFunction be f s with
      | none => none
      | some s1 => visitMembers be rest s1

/-- `FlowRunner::emitInitializerHead()`: a new function `__flow_initialize`
    with an empty entry block. -/
def emitInitializerHead (s : FlowRunner) : FlowRunner := { s with initializerFn_ := some [] }

/-- `FlowRunner::emitInitializerTail()`: `ret void` ends the initialiser
    function, which is verified (and handed to the pass manager, if any); the
    initialiser code it holds stays as it is. -/
def emitInitializerTail (s : FlowRunner) : FlowRunner := s

/-- `FlowRunner::visit(Unit&)`: initialiser head, the member functions,
    initialiser tail, `value_ = NULL`.  The imports are handed to the backend,
    which loads plugins; that has no part in this model. -/
def visitUnit {σ : Type} (be : Backend σ) (unit : Unit) (s : FlowRunner) : Option FlowRunner :=
  match visitMembers be unit.members (emitInitializerHead s) with
  | none => none
  | some s1 => some { emitInitializerTail s1 with value_ := none }

/-- `FlowRunner::open(filename)`.  The parser is not among the sources:
    `parserInitialized` is the result of `parser_->initialize`, `parsed` the
    unit that `parser_->parse()` returns (`none` for `NULL`).  The engine is
    recreated when it is `NULL`, code is generated for the unit, the
    initialiser function is run, and `true` is returned.  The outer `none`
    stands for a run of `open` that does not return (a failed `assert`, or code
    generation that does not go on). -/
def FlowRunner.open_ {σ : Type} (be : Backend σ) (parserInitialized : Bool) (parsed : Option Unit)
    (engineCreates : Bool) (s : FlowRunner) : Option (Bool × FlowRunner) :=
  if parserInitialized = false then some (false, s)
  else
    let s1 := { s with unit_ := parsed }
    match parsed with
    | none => some (false, s1)
    | some unit =>
      let generate := fun (s2 : FlowRunner) =>
        match visitUnit be unit s2 with
        | none => none
        | some s3 => some (true, { s3 with initializerRuns := s3.initializerRuns + 1 })
      if s1.executionEngine_ = false then
        match reinitialize engineCreates s1 with
        | none => none
        | some (false, s2) => some (false, s2)
        | some (true, s2) => generate s2
      else generate s1

/-- `FlowRunner::optimizationLevel()`. -/
def optimizationLevel (s : FlowRunner) : Int := s.optimizationLevel_

/-- `FlowRunner::setOptimizationLevel(value)`: the level is clamped and stored,
    the old pass manager is deleted and a new one is created on the module;
    the target data of the engine is added to it (`none`: the engine is `NULL`
    and is dereferenced), and the standard function passes when the level is
    not zero. -/
def setOptimizationLevel (value : Int) (s : FlowRunner) : Option FlowRunner :=
  let s1 := { s with optimizationLevel_ := min (max value 0) 4 }
  let s2 := { s1 with functionPassMgr_ := some [] }
  if s2.executionEngine_ = false then none
  else
    let targetData := s2.functionPassMgr_.map (fun p => p ++ [Pass.TargetData])
    let s3 := { s2 with functionPassMgr_ := targetData }
    if s3.optimizationLevel_ ≠ 0 then
      let standard := Pass.StandardFunctionPasses s3.optimizationLevel_
      some { s3 with functionPassMgr_ := s3.functionPassMgr_.map (fun p => p ++ [standard]) }
    else some s3

/-- The loop of `FlowRunner::getHandlerList()` over the symbols of the unit:
    a symbol that is a function and a handler is pushed to the back of
    `result`. -/
def getHandlerList.loop : List Symbol → (result : List Function) → List Function
  | [], result => result
  | sym :: rest, result =>
    match sym with
    | Symbol.function fn =>
      if !fn.isHandler then getHandlerList.loop rest result
      else getHandlerList.loop rest (result ++ [fn])
    | Symbol.variable _ => getHandlerList.loop rest result

/-- `FlowRunner::getHandlerList()`; `none` when `unit_` is `NULL`, which the
    function dereferences. -/
def getHandlerList (s : FlowRunner) : Option (List Function) :=
  match s.unit_ with
  | none => none
  | some unit => some (getHandlerList.loop unit.members [])

/-- The loop of `FlowRunner::findHandler(name)` over the symbols of the unit;
    `none` is `nullptr`. -/
def findHandler.loop (name : String) : List Symbol → Option Function
  | [] => none
  | sym :: rest =>
    match sym with
    | Symbol.function fn =>
      if !fn.isHandler then findHandler.loop name rest
      else if fn.name ≠ name then findHandler.loop name rest
      else some fn
    | Symbol.variable _ => findHandler.loop name rest

/-- `FlowRunner::findHandler(name)`; the outer `none` when `unit_` is `NULL`,
    which the function dereferences, the inner `none` for `nullptr`. -/
def findHandler (s : FlowRunner) (name : String) : Option (Option Function) :=
  match s.unit_ with
  | none => none
  | some unit => some (findHandler.loop name unit.members)

/-- `FlowRunner::close()`: `clear()`, then the unit is deleted. -/
def FlowRunner.close (s : FlowRunner) : Option FlowRunner :=
  match clear s with
  | none => none
  | some s1 => some { s1 with unit_ := none }

/-- The unit of the source `handler main { foo(); "a" * 2; consume(); }`, where
    `foo` is neither defined in the unit nor registered with the backend. -/
def brokenUnit : Unit :=
  { imports := [],
    members := [Symbol.function (Function.mk "main" true (some (Stmt.CompoundStmt [
      Stmt.ExprStmt (Expr.CallExpr (Function.mk "foo" false none) [] false),
      Stmt.ExprStmt (Expr.BinaryExpr Operator.Mul (Expr.StringExpr [97]) (Expr.NumberExpr 2)),
      Stmt.ExprStmt (Expr.CallExpr (Function.mk "consume" true none) [] false)])))] }

/-- The unit of the source `handler main {}`. -/
def emptyHandlerUnit : Unit :=
  { imports := [],
    members := [Symbol.function (Function.mk "main" true (some (Stmt.CompoundStmt [])))] }

/-- The sequence `open; close; open` on a runner, each `open` on the same unit. -/
def openCloseOpen {σ : Type} (be : Backend σ) (unit : Unit) (s : FlowRunner) :
    Option (Bool × FlowRunner) :=
  match FlowRunner.open_ be true (some unit) true s with
  | none => none
  | some (_, s1) =>
    match FlowRunner.close s1 with
    | none => none
    | some s2 => FlowRunner.open_ be true (some unit) true s2

/-- A sample record memory with a BUFFER element: the array `["a" as a buffer]`
    at address 0, the empty array at address 2, two free records from address 3
    on, and at address 5 the array that the concatenation of the two is
    expected to be. -/
def bufferArrayMemory : List FlowValue :=
  [{ type_ := FlowValueType.BUFFER, number_ := 1, buffer_ := Pointer.chars [97] }, FlowValue.void,
   FlowValue.void,
   FlowValue.void, FlowValue.void,
   { type_ := FlowValueType.BUFFER, number_ := 1, buffer_ := Pointer.chars [97] }, FlowValue.void]

/-- A sample ip address, `10.0.0.1`. -/
def sampleIP : IPAddress := { family := 2, addr := [10, 0, 0, 1] }

/-- The text form of the sample ip address: the bytes of `10.0.0.1`. -/
def sampleIPText : IPAddress → List Byte := fun _ => [49, 48, 46, 48, 46, 48, 46, 49]

/-- The call site that `FlowRunner::emitNativeCall(id, argList)` emits, up to
    the call of `flow_backend_callback`: the number of records of the
    `args.ptr` alloca, the records stored into it before the call (from index
    0 on), and the `id` and `argc` operands of the call. -/
structure NativeCallSite where
  allocated : Nat
  argv : List FlowValue
  id : Nat
  argc : Nat
  deriving DecidableEq, Repr

/-- The first half of `FlowRunner::emitNativeCall(id, argList)`, on the values
    of the arguments: `argc` is the length of the list, `argc + 1` records are
    allocated, `emitNativeValue(0, argv, NULL)` initialises the return slot,
    and `emitNativeValue(index++, argv, codegen(*i))` stores the arguments in
    order from index 1. -/
def emitNativeCallSite (id : Nat) (args : List Val) : NativeCallSite :=
  let argc := args.length
  { allocated := argc + 1,
    argv := emitNativeValue none :: args.map (fun a => emitNativeValue (some a)),
    id := id,
    argc := argc }

/-- The declared return kinds for which the return-kind switch of
    `FlowRunner::emitNativeCall` takes its `default` branch. -/
def tagReturnKinds : List FlowValueType :=
  [FlowValueType.ARRAY, FlowValueType.REGEXP, FlowValueType.IP, FlowValueType.FUNCTION,
    FlowValueType.VOID]

/-- The operators `==` and `!=`. -/
def equalityOperators : List Operator := [Operator.Equal, Operator.UnEqual]

/-- The operators `<`, `>`, `<=`, `>=`. -/
def orderingOperators : List Operator :=
  [Operator.Less, Operator.Greater, Operator.LessOrEqual, Operator.GreaterOrEqual]

/-- The operand pairs (num,num), (bool,bool), (string,string) and (string,int)
    of the comparison operators, as pairs of value types; a string is a
    C-string or a buffer. -/
def orderedPairs : List (Ty × Ty) :=
  [(Ty.i64, Ty.i64), (Ty.i1, Ty.i1),
   (Ty.cstring, Ty.cstring), (Ty.cstring, Ty.bufferPtr),
   (Ty.bufferPtr, Ty.cstring), (Ty.bufferPtr, Ty.bufferPtr),
   (Ty.cstring, Ty.i64), (Ty.bufferPtr, Ty.i64)]

/-- The operand pairs (array,array), (ip,ip) and (ip,string), the string being a
    C-string. -/
def unorderedPairs : List (Ty × Ty) :=
  [(Ty.array, Ty.array), (Ty.ipaddr, Ty.ipaddr), (Ty.ipaddr, Ty.cstring)]


/-! ## The scope stack -/

/-- One frame of the scope stack, a `std::map<Symbol *, llvm::Value *>`: its
    bindings, at most one per symbol.  A pointer is an address, `0` for `NULL`. -/
abbrev ScopeFrame := List (Nat × Nat)

/-- `std::map::find` followed by `->second`: the value bound to `symbol` in
    the frame, `none` for `end()`. -/
def ScopeFrame.find (i : ScopeFrame) (symbol : Nat) : Option Nat := List.lookup symbol i

/-- `(*frame)[symbol] = value`: the binding of `symbol` is added or replaced. -/
def ScopeFrame.set (i : ScopeFrame) (symbol value : Nat) : ScopeFrame :=
  (symbol, value) :: i.filter (fun k => decide (k.1 ≠ symbol))

/-- `std::map::erase` of the binding of `symbol`. -/
def ScopeFrame.erase (i : ScopeFrame) (symbol : Nat) : ScopeFrame :=
  i.filter (fun k => decide (k.1 ≠ symbol))

/-- `FlowRunner::Scope`: the frames `scope_`, the innermost one at the front,
    the global one at the back. -/
structure Scope where
  scope_ : List ScopeFrame
  deriving DecidableEq, Repr

/-- `FlowRunner::Scope::enter()`: `scope_.push_front(new std::map)`. -/
def Scope.enter (s : Scope) : Scope := { scope_ := [] :: s.scope_ }

/-- `FlowRunner::Scope::leave()`: `delete scope_.front(); scope_.pop_front()`;
    `none` on an empty stack, where `front()` is undefined. -/
def Scope.leave (s : Scope) : Option Scope :=
  match s.scope_ with
  | [] => none
  | _ :: rest => some { scope_ := rest }

/-- The loop of `FlowRunner::Scope::lookup`, from the front of `scope_`. -/
def Scope.lookup.loop (symbol : Nat) : List ScopeFrame → Nat
  | [] => 0
  | i :: rest =>
    match i.find symbol with
    | some k => k
    | none => Scope.lookup.loop symbol rest

/-- `FlowRunner::Scope::lookup(symbol)`: the value found in the first frame,
    from the front, that binds `symbol`; `NULL` (`0`) when none does. -/
def Scope.lookup (s : Scope) (symbol : Nat) : Nat := Scope.lookup.loop symbol s.scope_

/-- `FlowRunner::Scope::insert(symbol, value)`: `(*scope_.front())[symbol] = value`. -/
def Scope.insert (s : Scope) (symbol value : Nat) : Option Scope :=
  match s.scope_ with
  | [] => none
  | front :: rest => some { scope_ := front.set symbol value :: rest }

/-- `FlowRunner::Scope::insertGlobal(symbol, value)`:
    `(*scope_.back())[symbol] = value`. -/
def Scope.insertGlobal (s : Scope) (symbol value : Nat) : Option Scope :=
  match s.scope_.getLast? with
  | none => none
  | some back => some { scope_ := s.scope_.dropLast ++ [back.set symbol value] }

/-- `FlowRunner::Scope::remove(symbol)`: the binding is erased from the front
    frame, when there is one. -/
def Scope.remove (s : Scope) (symbol : Nat) : Option Scope :=
  match s.scope_ with
  | [] => none
  | front :: rest => some { scope_ := front.erase symbol :: rest }

/-- `FlowRunner::Scope::clear()`: all frames are popped and a new global frame
    is entered. -/
def Scope.clear (_s : Scope) : Scope := Scope.enter { scope_ := [] }

/-- `FlowRunner::Scope::Scope()`: `enter(); // global scope`. -/
def Scope.new : Scope := Scope.enter { scope_ := [] }

/-- A sample scope stack: a function frame binding symbol 7 to value 70 on top
    of the global frame, which binds symbol 7 to value 71 and symbol 8 to 80. -/
def sampleScope : Scope := { scope_ := [[(7, 70)], [(7, 71), (8, 80)]] }

/-! ## The ABI value record type -/

/-- The element types that `FlowRunner::reinitialize()` puts into its struct
    types. -/
inductive ElementType
  | int32Type | int64Type | int8PtrType
  deriving DecidableEq, Repr

/-- `FlowRunner::numberType()`: `int64Type()`. -/
def numberType : ElementType := ElementType.int64Type

/-- `TargetData::getTypeAllocSize` on a 64-bit target, in bytes. -/
def ElementType.allocSize : ElementType → Nat
  | .int32Type => 4
  | .int64Type => 8
  | .int8PtrType => 8

/-- `TargetData::getABITypeAlignment` on a 64-bit target, in bytes. -/
def ElementType.abiAlignment : ElementType → Nat
  | .int32Type => 4
  | .int64Type => 8
  | .int8PtrType => 8

/-- An `llvm::StructType`: `StructType::get(cx, elts, packed)`. -/
structure StructType where
  elts : List ElementType
  packed : Bool
  deriving DecidableEq, Repr

/-- `TargetData::RoundUpAlignment(size, alignment)`. -/
def roundUpAlignment (size alignment : Nat) : Nat := (size + alignment - 1) / alignment * alignment

/-- The loop of LLVM's `StructLayout` over the elements of a struct type: each
    element is placed at the running size, rounded up to the element's
    alignment, which is 1 in a packed struct.  The result is the member
    offsets, the size before tail padding and the struct alignment. -/
def structLayout.loop (packed : Bool) :
    List ElementType → (memberOffsets : List Nat) → (structSize structAlignment : Nat) →
      List Nat × Nat × Nat
  | [], memberOffsets, structSize, structAlignment => (memberOffsets, structSize, structAlignment)
  | ty :: rest, memberOffsets, structSize, structAlignment =>
    let tyAlign := if packed then 1 else ty.abiAlignment
    let structSize := if structSize % tyAlign ≠ 0 then roundUpAlignment structSize tyAlign
                      else structSize
    structLayout.loop packed rest (memberOffsets ++ [structSize]) (structSize + ty.allocSize)
      (max tyAlign structAlignment)

/-- LLVM's `StructLayout` of a struct type on a 64-bit target: the byte offset
    of every member and the size of the struct, tail padding included. -/
def structLayout (st : StructType) : List Nat × Nat :=
  let r := structLayout.loop st.packed st.elts [] 0 0
  let structAlignment := if r.2.2 = 0 then 1 else r.2.2
  (r.1, if r.2.1 % structAlignment ≠ 0 then roundUpAlignment r.2.1 structAlignment else r.2.1)

/-- The type `valueType_` that `FlowRunner::reinitialize()` creates, "nval":
    `elts = { int32Type(), numberType(), int8PtrType() }`, `packed = true`. -/
def valueType_ : StructType :=
  { elts := [ElementType.int32Type, numberType, ElementType.int8PtrType], packed := true }

/-! ## The comparator of the spec -/

/-- Modelled from the spec: the reference loop of the string comparator, "a
    loop that (i) returns `len1 - len2` as soon as either length reaches zero,
    (ii) otherwise compares `tolower(*buf1)` vs `tolower(*buf2)`, (iii)
    advances both cursors and decrements both lengths"; the arithmetic (64-bit
    lengths, 8-bit characters) is that of the emitted code. -/
def cmpStringReference : (len1 : Nat) → (buf1 : List Byte) → (len2 : Nat) → (buf2 : List Byte) → Nat
  | 0, _, len2, _ => sub64 0 len2
  | len1 + 1, buf1, len2, buf2 =>
    if len2 = 0 then sub64 (len1 + 1) len2
    else
      let d := sext8to64 (sub8 (emitToLower (load buf1)) (emitToLower (load buf2)))
      if d ≠ 0 then d
      else cmpStringReference len1 buf1.tail (sub64 len2 1) buf2.tail

/-! ## Notions and samples used in the statements -/

/-- The names of the global variables among the symbols. -/
def globalsOf (symbols : List Symbol) : List String :=
  symbols.filterMap (fun m =>
    match m with
    | Symbol.variable v => if v.parentScope = ParentScope.unitTable then some v.name else none
    | Symbol.function _ => none)

/-- The symbols that the functions of a unit refer to: the member functions,
    their local variables, and what their bodies and initialisers refer to,
    in turn. -/
def Unit.functionSymbols (unit : Unit) : List Symbol :=
  unit.members.flatMap (fun m =>
    match m with
    | Symbol.function f => Function.symbols f
    | Symbol.variable _ => [])

/-- The names of the global variables that the functions of a unit refer to,
    directly or through the functions and variables they refer to. -/
def Unit.referencedGlobals (unit : Unit) : List String := globalsOf unit.functionSymbols

/-- From `s` to `s'` the initialiser function has been run no further time,
    and the initialiser code generated into it has grown at its end, by
    initialisers of variables of the given names only. -/
def Grows (globals : List String) (s s' : FlowRunner) : Prop :=
  s'.initializerRuns = s.initializerRuns ∧
  ∃ added, s'.initializerFn_ = s.initializerFn_.map (fun code => code ++ added) ∧
    ∀ n ∈ added, n ∈ globals

/-- A result of the code generator that, when there is one, has grown the
    initialiser function by initialisers of the given names only. -/
def GrowsTo (globals : List String) (s : FlowRunner) : Option FlowRunner → Prop
  | none => True
  | some s' => Grows globals s s'

/-- The handler a symbol of the unit is, when `isFunction()` and `isHandler()`
    hold for it. -/
def Symbol.asHandler : Symbol → Option Function
  | .function fn => if fn.isHandler then some fn else none
  | .variable _ => none

/-- The global variable `x` of the source `var x = 1;`. -/
def globalX : Variable := Variable.make 1 "x" ParentScope.unitTable (Expr.NumberExpr 1)

/-- The global variable `y` of the source `var y = 2;`. -/
def globalY : Variable := Variable.make 2 "y" ParentScope.unitTable (Expr.NumberExpr 2)

/-- The unit of the source `var x = 1; handler main {}`: a global variable
    that no function refers to, and a handler. -/
def globalVariableUnit : Unit :=
  { imports := [],
    members := [Symbol.variable globalX,
      Symbol.function (Function.mk "main" true (some (Stmt.CompoundStmt [])))] }

/-- The unit of the source `var x = 1; var y = 2; handler main { pass(x); pass(x); }`:
    the handler refers to `x` twice and to `y` not at all. -/
def referencedGlobalUnit : Unit :=
  { imports := [],
    members := [Symbol.variable globalX, Symbol.variable globalY,
      Symbol.function (Function.mk "main" true (some (Stmt.CompoundStmt [
        Stmt.ExprStmt (Expr.CallExpr (Function.mk "pass" true none)
          [Expr.VariableExpr globalX] false),
        Stmt.ExprStmt (Expr.CallExpr (Function.mk "pass" true none)
          [Expr.VariableExpr globalX] false)])))] }

/-- The unit of the source `handler a {} void f() {} var x = 1; handler b {} handler a { pass(); }`;
    the second handler `a` is a symbol of its own, at another address. -/
def handlersUnit : Unit :=
  { imports := [],
    members := [Symbol.function (Function.mk "a" true (some (Stmt.CompoundStmt []))),
      Symbol.function (Function.mk "f" false (some (Stmt.CompoundStmt []))),
      Symbol.variable globalX,
      Symbol.function (Function.mk "b" true (some (Stmt.CompoundStmt []))),
      Symbol.function (Function.make 1 "a" true [] (some (Stmt.CompoundStmt [
        Stmt.ExprStmt (Expr.CallExpr (Function.mk "pass" true none) [] false)])))] }

/-- The kinds of value that unary `!` accepts besides arrays: integers of the
    three widths, C-strings and buffers. -/
def Val.isIntegerOrString (v : Val) : Bool := v.isIntegerTy || v.toStrVal.isSome

theorem emitToLower_val (c : Byte) : emitToLower c.val = (asciiLower c).val := by
  have hc := c.isLt
  unfold emitToLower asciiLower sub8 add8
  by_cases h : 65 ≤ c.val ∧ c.val ≤ 90
  · have h1 : (c.val % 256 + 256 - 65 % 256) % 256 < 26 := by omega
    simp only [h1, decide_True, if_true, h, and_self, Fin.val_add]
    rfl
  · have h1 : ¬ (c.val % 256 + 256 - 65 % 256) % 256 < 26 := by omega
    simp only [h1, decide_False, h, if_false, Bool.false_eq_true]
    omega

theorem tolower_val (c : Byte) : tolower c.val = (asciiLower c).val := by
  have hc := c.isLt
  unfold tolower asciiLower
  by_cases h : 65 ≤ c.val ∧ c.val ≤ 90
  · simp only [h, and_self, if_true, Fin.val_add]
    have : ((32 : Fin 256) : Nat) = 32 := rfl
    rw [this]; omega
  · simp only [h, if_false]

theorem sext_sub8_eq_zero (a b : Nat) (ha : a < 256) (hb : b < 256) :
    sext8to64 (sub8 a b) = 0 ↔ a = b := by
  unfold sext8to64 sub8
  split <;> omega

theorem sub64_eq_zero (a b : Nat) (ha : a < 2 ^ 64) (hb : b < 2 ^ 64) :
    sub64 a b = 0 ↔ a = b := by
  unfold sub64; omega

theorem land_ne_zero_right {a b : Nat} (h : a &&& b ≠ 0) : b ≠ 0 := by
  rintro rfl; simp at h



theorem eqModCase_iff_map (a b : List Byte) :
    eqModCase a b ↔ a.map asciiLower = b.map asciiLower := by
  unfold eqModCase
  induction a generalizing b with
  | nil =>
    cases b with
    | nil => simp
    | cons y ys => simp
  | cons x xs ih =>
    cases b with
    | nil => simp
    | cons y ys =>
      simp only [List.length_cons, Nat.add_right_cancel_iff, List.map_cons, List.cons.injEq]
      rw [← ih ys]
      constructor
      · rintro ⟨hl, h⟩
        refine ⟨by simpa using h 0 (by omega), hl, fun i hi => ?_⟩
        simpa using h (i + 1) (by omega)
      · rintro ⟨h0, hl, h⟩
        refine ⟨hl, fun i hi => ?_⟩
        cases i with
        | zero => simpa using h0
        | succ j => simpa using h j (by omega)

/-- The comparator returns zero exactly when the lengths are equal and the
    compared windows agree modulo ASCII case. -/
theorem emitCmpString_eq_zero (len1 : Nat) :
    ∀ (buf1 : List Byte) (len2 : Nat) (buf2 : List Byte),
      len1 ≤ buf1.length → len2 ≤ buf2.length → len1 < 2 ^ 64 → len2 < 2 ^ 64 →
      (emitCmpString len1 buf1 len2 buf2 = 0 ↔
        (buf1.take len1).map asciiLower = (buf2.take len2).map asciiLower) := by
  induction len1 with
  | zero =>
    intro buf1 len2 buf2 _ h2 _ hl2
    simp only [emitCmpString]
    rw [sub64_eq_zero 0 len2 (by omega) hl2]
    constructor
    · intro h; subst h; simp
    · intro h
      have := congrArg List.length h
      simp at this
      omega
  | succ n ih =>
    intro buf1 len2 buf2 h1 h2 hl1 hl2
    simp only [emitCmpString]
    by_cases hand : (n + 1) &&& len2 = 0
    · simp only [hand, if_true]
      rw [sub64_eq_zero (n + 1) len2 hl1 hl2]
      constructor
      · intro h; rw [← h, Nat.and_self] at hand; omega
      · intro h
        have := congrArg List.length h
        simp at this
        have h3 : n + 1 = len2 := by omega
        rw [← h3, Nat.and_self] at hand; omega
    · simp only [hand, if_false]
      have hne : len2 ≠ 0 := land_ne_zero_right hand
      obtain ⟨m, rfl⟩ : ∃ m, len2 = m + 1 := ⟨len2 - 1, by omega⟩
      cases buf1 with
      | nil => simp at h1
      | cons c1 t1 =>
        cases buf2 with
        | nil => simp at h2
        | cons c2 t2 =>
          have hs : sub64 (m + 1) 1 = m := by unfold sub64; omega
          simp only [load, List.headD_cons, List.tail_cons, hs, emitToLower_val, List.take_succ_cons,
            List.map_cons, List.cons.injEq]
          by_cases hc : asciiLower c1 = asciiLower c2
          · have hz : sext8to64 (sub8 (asciiLower c1).val (asciiLower c2).val) = 0 := by
              rw [sext_sub8_eq_zero _ _ (asciiLower c1).isLt (asciiLower c2).isLt, hc]
            simp only [hz, ne_eq, not_true_eq_false, if_false]
            simp only [hc, true_and]
            exact ih t1 m t2 (by simpa using h1) (by simpa using h2) (by omega) (by omega)
          · have hz : sext8to64 (sub8 (asciiLower c1).val (asciiLower c2).val) ≠ 0 := by
              rw [ne_eq, sext_sub8_eq_zero _ _ (asciiLower c1).isLt (asciiLower c2).isLt]
              exact fun h => hc (Fin.ext h)
            simp only [hz, ne_eq, not_false_eq_true, if_true, hc, false_and]



theorem strlen_le (p : List Byte) : strlen p ≤ p.length := by
  induction p with
  | nil => simp [strlen]
  | cons c cs ih =>
    simp only [strlen, List.length_cons]
    split <;> omega

theorem take_strlen (p : List Byte) : p.take (strlen p) = p.takeWhile (fun c => c ≠ 0) := by
  induction p with
  | nil => simp [strlen]
  | cons c cs ih =>
    by_cases h : c = 0
    · simp [strlen, h, List.takeWhile]
    · simp [strlen, h, List.takeWhile, ih]

theorem strlen_eq_length {a : List Byte} (h : ∀ c ∈ a, c ≠ 0) : strlen a = a.length := by
  induction a with
  | nil => simp [strlen]
  | cons c cs ih =>
    have hc : c ≠ 0 := h c (List.mem_cons_self _ _)
    simp [strlen, hc, ih (fun x hx => h x (List.mem_cons_of_mem _ hx))]

theorem StrVal.take_buffer {v : StrVal} (h : v.wf) :
    (emitLoadStringBuffer v).take (emitLoadStringLength v) = v.bytes := by
  cases v with
  | cstring p => simp [emitLoadStringBuffer, emitLoadStringLength, StrVal.bytes, take_strlen]
  | buffer n d => simp [emitLoadStringBuffer, emitLoadStringLength, StrVal.bytes]

theorem StrVal.length_le {v : StrVal} (h : v.wf) :
    emitLoadStringLength v ≤ (emitLoadStringBuffer v).length := by
  cases v with
  | cstring p => simpa [emitLoadStringBuffer, emitLoadStringLength] using strlen_le p
  | buffer n d => exact h.1

theorem StrVal.length_lt {v : StrVal} (h : v.wf) : emitLoadStringLength v < 2 ^ 64 := by
  cases v with
  | cstring p => exact h
  | buffer n d => exact h.2

theorem StrVal.bytes_length {v : StrVal} (h : v.wf) :
    v.bytes.length = emitLoadStringLength v := by
  rw [← StrVal.take_buffer h, List.length_take]
  exact Nat.min_eq_left (StrVal.length_le h)

theorem emitCmpStringOp_equal_iff (rm : Nat → List Byte → Nat → List Byte → Nat)
    {left right : StrVal} (hl : left.wf) (hr : right.wf) :
    emitCmpStringOp rm Operator.Equal left right = some true ↔ eqModCase left.bytes right.bytes := by
  have key := emitCmpString_eq_zero (emitLoadStringLength left) (emitLoadStringBuffer left)
    (emitLoadStringLength right) (emitLoadStringBuffer right)
    (StrVal.length_le hl) (StrVal.length_le hr) (StrVal.length_lt hl) (StrVal.length_lt hr)
  rw [StrVal.take_buffer hl, StrVal.take_buffer hr] at key
  rw [eqModCase_iff_map, ← key]
  simp [emitCmpStringOp]

/-- C5: for well-formed string values (each a C-string or a buffer), `==`
    yields true iff both have the same length and agree at every position modulo
    ASCII case, and `!=` yields the negation. -/
theorem C5_string_equality (regexmatch : Nat → List Byte → Nat → List Byte → Nat)
    (left right : StrVal) (hl : left.wf) (hr : right.wf) :
    ∃ eq : Bool,
      emitCmpStringOp regexmatch Operator.Equal left right = some eq ∧
      emitCmpStringOp regexmatch Operator.UnEqual left right = some (!eq) ∧
      (eq = true ↔ eqModCase left.bytes right.bytes) := by
  refine ⟨decide (emitCmpString (emitLoadStringLength left) (emitLoadStringBuffer left)
    (emitLoadStringLength right) (emitLoadStringBuffer right) = 0), ?_, ?_, ?_⟩
  · simp [emitCmpStringOp]
  · simp [emitCmpStringOp]
  · rw [← emitCmpStringOp_equal_iff regexmatch hl hr]
    simp [emitCmpStringOp]

/-- C5, witness: the C-string `Foo` against the buffer `foo`. -/
theorem C5_witness :
    ∃ eq : Bool,
      emitCmpStringOp (fun _ _ _ _ => 0) Operator.Equal
        (StrVal.cstring [70, 111, 111]) (StrVal.buffer 3 [102, 111, 111]) = some eq ∧
      emitCmpStringOp (fun _ _ _ _ => 0) Operator.UnEqual
        (StrVal.cstring [70, 111, 111]) (StrVal.buffer 3 [102, 111, 111]) = some (!eq) ∧
      (eq = true ↔ eqModCase (StrVal.cstring [70, 111, 111]).bytes (StrVal.buffer 3 [102, 111, 111]).bytes) :=
  C5_string_equality (fun _ _ _ _ => 0) (StrVal.cstring [70, 111, 111]) (StrVal.buffer 3 [102, 111, 111])
    (by decide) (by decide)

/-- C6: `left =^ right` is true iff `right` is not longer than `left` and the
    first `len(right)` bytes of `left` equal `right` modulo ASCII case. -/
theorem C6_prefix_match (left right : StrVal) (hl : left.wf) (hr : right.wf) :
    emitPrefixMatch left right = true ↔
      right.bytes.length ≤ left.bytes.length ∧
      eqModCase (left.bytes.take right.bytes.length) right.bytes := by
  have h1 := StrVal.length_le hl
  have h2 := StrVal.length_le hr
  have b1 := StrVal.bytes_length hl
  have b2 := StrVal.bytes_length hr
  unfold emitPrefixMatch
  simp only []
  rw [b1, b2]
  by_cases hgt : emitLoadStringLength right > emitLoadStringLength left
  · simp only [hgt, if_true]
    constructor
    · intro h; cases h
    · rintro ⟨h, _⟩; omega
  · simp only [hgt, if_false]
    have key := emitCmpString_eq_zero (emitLoadStringLength right) (emitLoadStringBuffer left)
      (emitLoadStringLength right) (emitLoadStringBuffer right)
      (by omega) h2 (StrVal.length_lt hr) (StrVal.length_lt hr)
    rw [StrVal.take_buffer hr] at key
    rw [eqModCase_iff_map, ← StrVal.take_buffer hl, List.take_take,
      Nat.min_eq_left (Nat.le_of_not_gt hgt), ← key]
    by_cases hz : emitCmpString (emitLoadStringLength right) (emitLoadStringBuffer left)
      (emitLoadStringLength right) (emitLoadStringBuffer right) = 0
    · simp [hz]; omega
    · simp [hz]


theorem asciiLower_eq_zero (c : Byte) : asciiLower c = 0 ↔ c = 0 := by
  have hc := c.isLt
  have h := tolower_val c
  unfold tolower at h
  constructor
  · intro h0
    rw [h0] at h
    apply Fin.ext
    have : ((0 : Byte) : Nat) = 0 := rfl
    rw [this] at h ⊢
    split at h <;> omega
  · intro h0
    subst h0
    rfl

theorem cbytes_cons_ne {c : Byte} (h : c ≠ 0) (cs : List Byte) :
    (c :: cs).takeWhile (fun x => x ≠ 0) = c :: cs.takeWhile (fun x => x ≠ 0) := by
  simp [List.takeWhile, h]

theorem cbytes_cons_zero (cs : List Byte) :
    ((0 : Byte) :: cs).takeWhile (fun x => x ≠ 0) = [] := by
  simp [List.takeWhile]

/-- `strcasecmp` returns zero exactly when the two C-strings agree modulo ASCII case. -/
theorem strcasecmp_eq_zero (s1 : List Byte) :
    ∀ s2 : List Byte, strcasecmp s1 s2 = 0 ↔
      (s1.takeWhile (fun x => x ≠ 0)).map asciiLower =
        (s2.takeWhile (fun x => x ≠ 0)).map asciiLower := by
  induction s1 with
  | nil =>
    intro s2
    cases s2 with
    | nil => simp [strcasecmp, load, tolower]
    | cons d ds =>
      simp only [strcasecmp, load, List.headD_cons, tolower_val, List.takeWhile_nil, List.map_nil]
      by_cases hd : d = 0
      · subst hd; simp [cbytes_cons_zero, tolower]; rfl
      · have hd2 : asciiLower d ≠ 0 := fun h => hd ((asciiLower_eq_zero d).1 h)
        have hd3 : (asciiLower d).val ≠ 0 := fun h => hd2 (Fin.ext h)
        rw [cbytes_cons_ne hd]
        simp [tolower]
        omega
  | cons c cs ih =>
    intro s2
    have hcz : (asciiLower c).val = 0 ↔ c = 0 := by
      rw [← asciiLower_eq_zero c]
      exact ⟨fun h => Fin.ext h, fun h => by rw [h]; rfl⟩
    cases s2 with
    | nil =>
      simp only [strcasecmp, load, List.headD_nil, tolower_val, List.tail_nil, List.takeWhile_nil,
        List.map_nil]
      have h0 : ((asciiLower (0 : Byte)) : Nat) = 0 := rfl
      rw [h0]
      by_cases hc : c = 0
      · subst hc; simp [cbytes_cons_zero, h0]
      · have hc3 : (asciiLower c).val ≠ 0 := fun h => hc (hcz.1 h)
        rw [cbytes_cons_ne hc]
        simp [hc3]
    | cons d ds =>
      have hdz : (asciiLower d).val = 0 ↔ d = 0 := by
        rw [← asciiLower_eq_zero d]
        exact ⟨fun h => Fin.ext h, fun h => by rw [h]; rfl⟩
      simp only [strcasecmp, load, List.headD_cons, tolower_val, List.tail_cons]
      by_cases hcd : (asciiLower c).val = (asciiLower d).val
      · have hcd2 : asciiLower c = asciiLower d := Fin.ext hcd
        simp only [hcd, ne_eq, not_true_eq_false, if_false]
        by_cases hd : d = 0
        · have hc : c = 0 := hcz.1 (by rw [hcd]; exact hdz.2 hd)
          subst hd; subst hc
          simp [cbytes_cons_zero]
          intro h; exact absurd rfl h
        · have hc : c ≠ 0 := fun h => hd (hdz.1 (by rw [← hcd]; exact hcz.2 h))
          have hd3 : (asciiLower d).val ≠ 0 := fun h => hd (hdz.1 h)
          rw [cbytes_cons_ne hc, cbytes_cons_ne hd]
          simp only [hd3, if_false, List.map_cons, List.cons.injEq, hcd2, true_and]
          exact ih ds
      · have hcd2 : asciiLower c ≠ asciiLower d := fun h => hcd (by rw [h])
        simp only [hcd, ne_eq, not_false_eq_true, if_true]
        have hne : ((asciiLower c).val : Int) - ((asciiLower d).val : Int) ≠ 0 := by omega
        simp only [hne, false_iff]
        by_cases hc : c = 0
        · have hd : d ≠ 0 := fun h => hcd (by rw [hcz.2 hc, hdz.2 h])
          subst hc
          rw [cbytes_cons_zero, cbytes_cons_ne hd]
          simp
        · by_cases hd : d = 0
          · subst hd
            rw [cbytes_cons_zero, cbytes_cons_ne hc]
            simp
          · rw [cbytes_cons_ne hc, cbytes_cons_ne hd]
            simp [hcd2]

theorem emitSuffixMatch_iff (left right : StrVal) (hl : left.wf) (hr : right.wf) :
    emitSuffixMatch left right = true ↔
      right.bytes.length ≤ left.bytes.length ∧
      eqModCase (left.bytes.drop (left.bytes.length - right.bytes.length)) right.bytes := by
  have h1 := StrVal.length_le hl
  have h2 := StrVal.length_le hr
  have b1 := StrVal.bytes_length hl
  have b2 := StrVal.bytes_length hr
  have l1 := StrVal.length_lt hl
  have l2 := StrVal.length_lt hr
  unfold emitSuffixMatch
  simp only []
  rw [b1, b2]
  by_cases hgt : emitLoadStringLength right > emitLoadStringLength left
  · simp only [hgt, if_true]
    constructor
    · intro h; cases h
    · rintro ⟨h, _⟩; omega
  · simp only [hgt, if_false]
    have hofs : sub64 (emitLoadStringLength left) (emitLoadStringLength right) =
        emitLoadStringLength left - emitLoadStringLength right := by
      unfold sub64; omega
    rw [hofs]
    have key := emitCmpString_eq_zero (emitLoadStringLength right)
      ((emitLoadStringBuffer left).drop (emitLoadStringLength left - emitLoadStringLength right))
      (emitLoadStringLength right) (emitLoadStringBuffer right)
      (by rw [List.length_drop]; omega) h2 l2 l2
    rw [StrVal.take_buffer hr] at key
    have hwin : (left.bytes.drop (emitLoadStringLength left - emitLoadStringLength right)) =
        ((emitLoadStringBuffer left).drop
          (emitLoadStringLength left - emitLoadStringLength right)).take (emitLoadStringLength right) := by
      rw [← StrVal.take_buffer hl, List.drop_take]
      congr 1
      omega
    rw [eqModCase_iff_map, hwin, ← key]
    by_cases hz : emitCmpString (emitLoadStringLength right)
      ((emitLoadStringBuffer left).drop (emitLoadStringLength left - emitLoadStringLength right))
      (emitLoadStringLength right) (emitLoadStringBuffer right) = 0
    · simp [hz]; omega
    · simp [hz]

theorem flow_endsWidth_iff (a b : List Byte) (ha : ∀ c ∈ a, c ≠ 0) (hb : ∀ c ∈ b, c ≠ 0) :
    flow_endsWidth a b = 0 ↔
      b.length ≤ a.length ∧ eqModCase (a.drop (a.length - b.length)) b := by
  have hda : ∀ c ∈ a.drop (a.length - b.length), c ≠ 0 :=
    fun c hc => ha c (List.mem_of_mem_drop hc)
  have tw : ∀ l : List Byte, (∀ c ∈ l, c ≠ 0) → l.takeWhile (fun x => x ≠ 0) = l := by
    intro l hl
    rw [List.takeWhile_eq_self_iff]
    intro c hc
    simpa using hl c hc
  unfold flow_endsWidth
  simp only []
  rw [strlen_eq_length ha, strlen_eq_length hb]
  by_cases hgt : b.length > a.length
  · simp only [hgt, if_true]
    constructor
    · intro h; cases h
    · rintro ⟨h, _⟩; omega
  · simp only [hgt, if_false]
    have key := strcasecmp_eq_zero (a.drop (a.length - b.length)) b
    rw [tw _ hda, tw _ hb] at key
    rw [eqModCase_iff_map, ← key]
    by_cases hz : strcasecmp (a.drop (a.length - b.length)) b = 0
    · simp [hz]; omega
    · simp [hz]

theorem flow_endsWidth_range (a b : List Byte) :
    flow_endsWidth a b = 0 ∨ flow_endsWidth a b = 1 := by
  unfold flow_endsWidth
  simp only []
  split
  · right; rfl
  · split
    · right; rfl
    · left; rfl

/-- C6, witness: `"foobar" =^ "FOO"`. -/
theorem C6_witness :
    emitPrefixMatch (StrVal.cstring [102, 111, 111, 98, 97, 114]) (StrVal.cstring [70, 79, 79]) = true ↔
      (StrVal.cstring [70, 79, 79]).bytes.length ≤
        (StrVal.cstring [102, 111, 111, 98, 97, 114]).bytes.length ∧
      eqModCase ((StrVal.cstring [102, 111, 111, 98, 97, 114]).bytes.take
        (StrVal.cstring [70, 79, 79]).bytes.length) (StrVal.cstring [70, 79, 79]).bytes :=
  C6_prefix_match (StrVal.cstring [102, 111, 111, 98, 97, 114]) (StrVal.cstring [70, 79, 79])
    (by decide) (by decide)

/-- C7: for NUL-free strings `a` and `b`, however they are held, `a =$ b` is true
    iff `b` is not longer than `a` and the last `len(b)` bytes of `a` equal `b`
    modulo ASCII case; `flow_endsWidth(a, b)` is `0` in exactly those cases and
    `1` in all others. -/
theorem C7_suffix_match (a b : List Byte) (ha : ∀ c ∈ a, c ≠ 0) (hb : ∀ c ∈ b, c ≠ 0)
    (left right : StrVal) (hl : left.wf) (hr : right.wf)
    (hla : left.bytes = a) (hrb : right.bytes = b) :
    (emitSuffixMatch left right = true ↔
      b.length ≤ a.length ∧ eqModCase (a.drop (a.length - b.length)) b) ∧
    (flow_endsWidth a b = 0 ↔
      b.length ≤ a.length ∧ eqModCase (a.drop (a.length - b.length)) b) ∧
    (flow_endsWidth a b = 0 ∨ flow_endsWidth a b = 1) := by
  subst hla; subst hrb
  exact ⟨emitSuffixMatch_iff left right hl hr, flow_endsWidth_iff _ _ ha hb,
    flow_endsWidth_range _ _⟩

/-- C7, witness: `"foobar" =$ "BAR"`. -/
theorem C7_witness :
    (emitSuffixMatch (StrVal.cstring [102, 111, 111, 98, 97, 114]) (StrVal.buffer 3 [66, 65, 82]) = true ↔
      [66, 65, 82].length ≤ [102, 111, 111, 98, 97, 114].length ∧
        eqModCase (([102, 111, 111, 98, 97, 114] : List Byte).drop
          ([102, 111, 111, 98, 97, 114].length - [66, 65, 82].length)) [66, 65, 82]) ∧
    (flow_endsWidth [102, 111, 111, 98, 97, 114] [66, 65, 82] = 0 ↔
      [66, 65, 82].length ≤ [102, 111, 111, 98, 97, 114].length ∧
        eqModCase (([102, 111, 111, 98, 97, 114] : List Byte).drop
          ([102, 111, 111, 98, 97, 114].length - [66, 65, 82].length)) [66, 65, 82]) ∧
    (flow_endsWidth [102, 111, 111, 98, 97, 114] [66, 65, 82] = 0 ∨
      flow_endsWidth [102, 111, 111, 98, 97, 114] [66, 65, 82] = 1) :=
  C7_suffix_match [102, 111, 111, 98, 97, 114] [66, 65, 82] (by simp) (by simp)
    (StrVal.cstring [102, 111, 111, 98, 97, 114]) (StrVal.buffer 3 [66, 65, 82])
    (by decide) (by decide) (by decide) (by decide)

/-- C8, the code at the failing input: the bytes `0xE1` and `0x61` differ by
    128, the 8-bit difference is `-128` in both orders, so the comparator is
    negative both for `(a, b)` and for `(b, a)`. -/
theorem C8_antisymmetry_fails :
    toSigned64 (emitCmpString 1 [225] 1 [97]) = -128 ∧
    toSigned64 (emitCmpString 1 [97] 1 [225]) = -128 ∧
    sign (toSigned64 (emitCmpString 1 [225] 1 [97])) ≠
      -sign (toSigned64 (emitCmpString 1 [97] 1 [225])) := by
  decide

/-- C9, the code at the failing input: with `a = "z"`, `b = "aa"`, `c = "abx"`
    the comparator is negative on `(a, b)` and on `(b, c)`, because
    `(len1 & len2) == 0` holds for the lengths 1 and 2, and positive on `(a, c)`. -/
theorem C9_transitivity_fails :
    toSigned64 (emitCmpString 1 [122] 2 [97, 97]) < 0 ∧
    toSigned64 (emitCmpString 2 [97, 97] 3 [97, 98, 120]) < 0 ∧
    ¬ toSigned64 (emitCmpString 1 [122] 3 [97, 98, 120]) < 0 := by
  decide

theorem IsArrayAt.tail {mem : List FlowValue} {p : Nat} {x : FlowValue} {xs : List FlowValue}
    (h : IsArrayAt mem p (x :: xs)) : IsArrayAt mem (p + 1) xs := by
  obtain ⟨h1, h2, v, h3, h4⟩ := h
  refine ⟨fun y hy => h1 y (List.mem_cons_of_mem _ hy), fun i hi => ?_, v, ?_, h4⟩
  · have := h2 (i + 1) (by simp; omega)
    simpa [Nat.add_assoc, Nat.add_comm 1 i] using this
  · simpa [Nat.add_assoc, Nat.add_comm 1 xs.length] using h3

theorem IsArrayAt.head {mem : List FlowValue} {p : Nat} {x : FlowValue} {xs : List FlowValue}
    (h : IsArrayAt mem p (x :: xs)) : mem[p]? = some x ∧ x.isVoid = false := by
  obtain ⟨h1, h2, _⟩ := h
  exact ⟨by simpa using h2 0 (by simp), h1 x (List.mem_cons_self _ _)⟩

theorem IsArrayAt.lt_length {mem : List FlowValue} {p : Nat} {xs : List FlowValue}
    (h : IsArrayAt mem p xs) : p + xs.length < mem.length := by
  obtain ⟨_, _, v, h3, _⟩ := h
  by_contra hc
  rw [List.getElem?_eq_none (by omega)] at h3
  cases h3

theorem flow_arraylen_loop_spec (mem : List FlowValue) (xs : List FlowValue) :
    ∀ (fuel p r : Nat), IsArrayAt mem p xs → xs.length < fuel → r < 2 ^ 32 →
      flow_arraylen.loop mem fuel p r = some ((r + xs.length) % 2 ^ 32) := by
  induction xs with
  | nil =>
    intro fuel p r h hf hr
    obtain ⟨_, _, v, h3, h4⟩ := h
    obtain ⟨f, rfl⟩ : ∃ f, fuel = f + 1 := ⟨fuel - 1, by simp at hf; omega⟩
    simp only [List.length_nil, Nat.add_zero] at h3
    simp only [flow_arraylen.loop, h3, h4, if_true, List.length_nil, Nat.add_zero]
    rw [Nat.mod_eq_of_lt hr]
  | cons x xs ih =>
    intro fuel p r h hf hr
    obtain ⟨f, rfl⟩ : ∃ f, fuel = f + 1 := ⟨fuel - 1, by simp at hf; omega⟩
    obtain ⟨hx, hv⟩ := h.head
    simp only [flow_arraylen.loop, hx, hv, Bool.false_eq_true, if_false]
    rw [ih f (p + 1) ((r + 1) % 2 ^ 32) h.tail (by simp at hf; omega) (Nat.mod_lt _ (by norm_num))]
    simp only [List.length_cons]
    congr 1
    omega

theorem flow_arraylen_spec {mem : List FlowValue} {p : Nat} {xs : List FlowValue}
    (h : IsArrayAt mem p xs) : flow_arraylen mem p = some (xs.length % 2 ^ 32) := by
  have hl := h.lt_length
  unfold flow_arraylen
  rw [flow_arraylen_loop_spec mem xs _ p 0 h (by omega) (by norm_num)]
  simp

/-- One copy loop of `flow_arrayadd` writes the elements of the source array to
    the destination and leaves every other record as it was. -/
theorem flow_arrayadd_copy_spec (xs : List FlowValue) :
    ∀ (fuel : Nat) (mem : List FlowValue) (dst src : Nat),
      IsArrayAt mem src xs → xs.length < fuel → dst + xs.length ≤ mem.length →
      (src + xs.length < dst ∨ dst + xs.length ≤ src) →
      ∃ mem', flow_arrayadd.copy fuel mem dst src = some (mem', dst + xs.length) ∧
        mem'.length = mem.length ∧
        (∀ i, i < xs.length → mem'[dst + i]? = xs[i]?) ∧
        (∀ j, j < dst ∨ dst + xs.length ≤ j → mem'[j]? = mem[j]?) := by
  induction xs with
  | nil =>
    intro fuel mem dst src h hf _ _
    obtain ⟨_, _, v, h3, h4⟩ := h
    obtain ⟨f, rfl⟩ : ∃ f, fuel = f + 1 := ⟨fuel - 1, by simp at hf; omega⟩
    simp only [List.length_nil, Nat.add_zero] at h3
    refine ⟨mem, ?_, rfl, fun i hi => by simp at hi, fun j _ => rfl⟩
    simp only [flow_arrayadd.copy, h3, h4, if_true, List.length_nil, Nat.add_zero]
  | cons x xs ih =>
    intro fuel mem dst src h hf hroom hdis
    obtain ⟨f, rfl⟩ : ∃ f, fuel = f + 1 := ⟨fuel - 1, by simp at hf; omega⟩
    obtain ⟨hx, hv⟩ := h.head
    simp only [List.length_cons] at hroom hdis hf
    have hdl : dst < mem.length := by omega
    obtain ⟨r, hr⟩ : ∃ r, mem[dst]? = some r := ⟨mem[dst], List.getElem?_eq_getElem hdl⟩
    have htail : IsArrayAt (mem.set dst (r.set x)) (src + 1) xs := by
      obtain ⟨t1, t2, v, t3, t4⟩ := h.tail
      refine ⟨t1, fun i hi => ?_, v, ?_, t4⟩
      · rw [List.getElem?_set_ne (by omega)]
        exact t2 i hi
      · rw [List.getElem?_set_ne (by omega)]
        exact t3
    obtain ⟨mem', hc, hlen, hin, hout⟩ := ih f (mem.set dst (r.set x)) (dst + 1) (src + 1) htail
      (by omega) (by simp; omega) (by omega)
    refine ⟨mem', ?_, ?_, ?_, ?_⟩
    · simp only [flow_arrayadd.copy, hx, hv, Bool.false_eq_true, if_false, hr, hc, List.length_cons]
      simp [Nat.add_assoc, Nat.add_comm 1]
    · simpa using hlen
    · intro i hi
      cases i with
      | zero =>
        rw [Nat.add_zero, hout dst (Or.inl (by omega))]
        simp [List.getElem?_set_self, hdl, FlowValue.set]
      | succ k =>
        have := hin k (by simp at hi; omega)
        simpa [Nat.add_assoc, Nat.add_comm 1 k] using this
    · intro j hj
      rw [hout j (by simp only [List.length_cons] at hj; omega)]
      exact List.getElem?_set_ne (by simp only [List.length_cons] at hj; omega)

/-- After `flow_arrayadd` the destination holds the concatenation of both arrays,
    VOID-terminated; the records outside the destination are unchanged. -/
theorem flow_arrayadd_spec (mem : List FlowValue) (result left right : Nat)
    (xs ys : List FlowValue)
    (hl : IsArrayAt mem left xs) (hr : IsArrayAt mem right ys)
    (hroom : result + xs.length + ys.length + 1 ≤ mem.length)
    (hdl : left + xs.length < result ∨ result + xs.length + ys.length < left)
    (hdr : right + ys.length < result ∨ result + xs.length + ys.length < right) :
    ∃ mem', flow_arrayadd mem result left right = some mem' ∧
      mem'.length = mem.length ∧
      IsArrayAt mem' result (xs ++ ys) ∧
      (∀ j, j < result ∨ result + xs.length + ys.length < j → mem'[j]? = mem[j]?) := by
  have hll := hl.lt_length
  obtain ⟨mem1, hc1, hlen1, hin1, hout1⟩ := flow_arrayadd_copy_spec xs (mem.length + 1) mem
    result left hl (by omega) (by omega) (by omega)
  have hr1 : IsArrayAt mem1 right ys := by
    obtain ⟨t1, t2, v, t3, t4⟩ := hr
    refine ⟨t1, fun i hi => ?_, v, ?_, t4⟩
    · rw [hout1 _ (by omega)]; exact t2 i hi
    · rw [hout1 _ (by omega)]; exact t3
  have hrl := hr1.lt_length
  obtain ⟨mem2, hc2, hlen2, hin2, hout2⟩ := flow_arrayadd_copy_spec ys (mem1.length + 1) mem1
    (result + xs.length) right hr1 (by omega) (by omega) (by omega)
  have hlt : result + xs.length + ys.length < mem2.length := by omega
  refine ⟨mem2.set (result + xs.length + ys.length) (mem2[result + xs.length + ys.length]).clear,
    ?_, by simp; omega, ⟨?_, ?_, ?_⟩, ?_⟩
  · simp only [flow_arrayadd, hc1, hc2, List.getElem?_eq_getElem hlt]
  · intro x hx
    rcases List.mem_append.1 hx with h | h
    · exact hl.1 x h
    · exact hr.1 x h
  · intro i hi
    simp only [List.length_append] at hi
    rw [List.getElem?_set_ne (by omega)]
    by_cases hix : i < xs.length
    · rw [hout2 _ (Or.inl (by omega)), hin1 i hix, List.getElem?_append_left hix]
    · have := hin2 (i - xs.length) (by omega)
      rw [List.getElem?_append_right (by omega), ← this]
      congr 1
      omega
  · refine ⟨(mem2[result + xs.length + ys.length]).clear, ?_, by simp [FlowValue.clear, FlowValue.isVoid]⟩
    simp only [List.length_append, ← Nat.add_assoc]
    rw [List.getElem?_set_self hlt]
  · intro j hj
    rw [List.getElem?_set_ne (by omega), hout2 j (by omega), hout1 j (by omega)]

/-- C10: for VOID-terminated arrays at `left` and `right` and a destination of
    `|xs| + |ys| + 1` records that lies apart from both, `flow_arrayadd` returns,
    the destination then holds the VOID-terminated array `xs ++ ys`, and
    `flow_arraylen` of it is the sum of the two lengths (as `uint32_t`, that is
    modulo `2^32`; exactly the sum when that is below `2^32`). -/
theorem C10_arrayadd_arraylen (mem : List FlowValue) (result left right : Nat)
    (xs ys : List FlowValue)
    (hl : IsArrayAt mem left xs) (hr : IsArrayAt mem right ys)
    (hroom : result + xs.length + ys.length + 1 ≤ mem.length)
    (hdl : left + xs.length < result ∨ result + xs.length + ys.length < left)
    (hdr : right + ys.length < result ∨ result + xs.length + ys.length < right) :
    ∃ mem' nl nr nres,
      flow_arrayadd mem result left right = some mem' ∧
      IsArrayAt mem' result (xs ++ ys) ∧
      flow_arraylen mem left = some nl ∧
      flow_arraylen mem right = some nr ∧
      flow_arraylen mem' result = some nres ∧
      nres = (nl + nr) % 2 ^ 32 ∧
      (xs.length + ys.length < 2 ^ 32 → nres = nl + nr) := by
  obtain ⟨mem', h1, _, h3, _⟩ := flow_arrayadd_spec mem result left right xs ys hl hr hroom hdl hdr
  refine ⟨mem', xs.length % 2 ^ 32, ys.length % 2 ^ 32, (xs ++ ys).length % 2 ^ 32, h1, h3,
    flow_arraylen_spec hl, flow_arraylen_spec hr, flow_arraylen_spec h3, ?_, ?_⟩
  · simp only [List.length_append]; omega
  · intro h; simp only [List.length_append]; omega

/-- C10, witness: `[1]` and `[2, 3]` added into four free records. -/
theorem C10_witness :
    ∃ mem' nl nr nres,
      flow_arrayadd sampleMemory 5 0 2 = some mem' ∧
      IsArrayAt mem' 5 ([FlowValue.ofNumber 1] ++ [FlowValue.ofNumber 2, FlowValue.ofNumber 3]) ∧
      flow_arraylen sampleMemory 0 = some nl ∧
      flow_arraylen sampleMemory 2 = some nr ∧
      flow_arraylen mem' 5 = some nres ∧
      nres = (nl + nr) % 2 ^ 32 ∧
      ([FlowValue.ofNumber 1].length + [FlowValue.ofNumber 2, FlowValue.ofNumber 3].length < 2 ^ 32 →
        nres = nl + nr) :=
  C10_arrayadd_arraylen sampleMemory 5 0 2 [FlowValue.ofNumber 1]
    [FlowValue.ofNumber 2, FlowValue.ofNumber 3]
    ⟨by decide, by decide, FlowValue.void, by decide, by decide⟩
    ⟨by decide, by decide, FlowValue.void, by decide, by decide⟩
    (by decide) (by decide) (by decide)

/-! ### Generated code: what a run records -/

theorem Quiet.nil : Quiet [] := by
  intro e he; cases he

theorem Quiet.append {a b : List Event} (ha : Quiet a) (hb : Quiet b) : Quiet (a ++ b) := by
  intro e he
  rcases List.mem_append.1 he with h | h
  · exact ha e h
  · exact hb e h

theorem Consumed.prepend {a b : List Event} (ha : Quiet a) (hb : Consumed b) :
    Consumed (a ++ b) := by
  obtain ⟨pre, e, post, rfl, hq, he, hn, hp⟩ := hb
  exact ⟨a ++ pre, e, post, by simp, ha.append hq, he, hn, hp⟩

theorem Consumed.flowReturn {a : List Event} (ha : Consumed a) (name : String) :
    Consumed (a ++ [Event.flowHandler name true]) := by
  obtain ⟨pre, e, post, rfl, hq, he, hn, hp⟩ := ha
  refine ⟨pre, e, post ++ [Event.flowHandler name true], by simp, hq, he, hn, ?_⟩
  intro x hx
  rcases List.mem_append.1 hx with h | h
  · exact hp x h
  · exact ⟨name, by simpa using h⟩

theorem Traced.value_self {σ α : Type} (w : World σ) (v : α) :
    Traced w (Outcome.value v w) :=
  ⟨[], by simp, Quiet.nil⟩

/-- A code sequence that ran to its end, followed by more code. -/
theorem Traced.step {σ α β : Type} {w w1 : World σ} {v : α} {o : Outcome σ β}
    (h1 : Traced w (Outcome.value v w1)) (h2 : Traced w1 o) : Traced w o := by
  obtain ⟨evs1, ht1, hq1⟩ := h1
  cases o with
  | error => trivial
  | value u w2 =>
    obtain ⟨evs2, ht2, hq2⟩ := h2
    exact ⟨evs1 ++ evs2, by rw [ht2, ht1, List.append_assoc], hq1.append hq2⟩
  | done w2 =>
    obtain ⟨evs2, ht2, hc2⟩ := h2
    exact ⟨evs1 ++ evs2, by rw [ht2, ht1, List.append_assoc], hc2.prepend hq1⟩

theorem emitNativeReturn_cases {σ : Type} (native : Callback) (ret : FlowValue) (w1 : World σ) :
    (∃ v, emitNativeReturn native ret w1 = Outcome.value v w1 ∧
      (native.type = CallbackType.HANDLER → ret.number_ = 0)) ∨
    (emitNativeReturn native ret w1 = Outcome.done w1 ∧
      native.type = CallbackType.HANDLER ∧ ret.number_ ≠ 0) := by
  unfold emitNativeReturn
  cases htype : native.type <;> simp only []
  case HANDLER =>
    by_cases hn : ret.number_ ≠ 0
    · right
      exact ⟨by rw [if_pos hn], trivial, hn⟩
    · left
      exact ⟨Val.i1 false, by rw [if_neg hn], fun _ => by simpa using hn⟩
  case VARIABLE =>
    left
    split
    · exact ⟨_, rfl, fun h => by cases h⟩
    · split <;> exact ⟨_, rfl, fun h => by cases h⟩
  case FUNCTION =>
    left
    split
    · exact ⟨_, rfl, fun h => by cases h⟩
    · split <;> exact ⟨_, rfl, fun h => by cases h⟩
  all_goals (left; exact ⟨_, rfl, fun h => by cases h⟩)

theorem emitNativeCall_traced {σ : Type} (be : Backend σ) (id : Nat) (args : List Val)
    (w : World σ) : Traced w (emitNativeCall be id args w) := by
  unfold emitNativeCall
  simp only []
  rcases emitNativeReturn_cases (be.callbackAt id)
    (be.dispatch id (List.map (fun a => emitNativeValue (some a)) args) w.host).1
    { host := (be.dispatch id (List.map (fun a => emitNativeValue (some a)) args) w.host).2,
      trace := w.trace ++ [Event.native id (be.callbackAt id).type
        (List.map (fun a => emitNativeValue (some a)) args)
        (be.dispatch id (List.map (fun a => emitNativeValue (some a)) args) w.host).1] }
    with ⟨v, hv, hz⟩ | ⟨hd, ht, hn⟩
  · rw [hv]
    refine ⟨_, rfl, ?_⟩
    intro e he
    simp only [List.mem_singleton] at he
    subst he
    by_cases ht : (be.callbackAt id).type = CallbackType.HANDLER
    · simp [Event.handledTrue, hz ht]
    · simp [Event.handledTrue, ht]
  · rw [hd]
    refine ⟨_, rfl, [], _, [], rfl, Quiet.nil, ?_, ⟨_, _, _, by rw [ht]⟩, ?_⟩
    · simp [Event.handledTrue, ht, hn]
    · intro x hx; cases hx

/-- Code that follows an event which is no handler call that returned true. -/
theorem Traced.after_event {σ α : Type} {w : World σ} {e : Event} {o : Outcome σ α}
    (he : e.handledTrue = false) (h : Traced (w.log e) o) : Traced w o := by
  have h1 : Traced w (Outcome.value () (w.log e) : Outcome σ NoValue) := by
    refine ⟨[e], rfl, ?_⟩
    intro x hx
    simp only [List.mem_singleton] at hx
    subst hx
    exact he
  exact Traced.step h1 h

theorem Traced.value_event {σ α : Type} (w : World σ) (e : Event) (v : α)
    (he : e.handledTrue = false) : Traced w (Outcome.value v (w.log e)) := by
  refine ⟨[e], rfl, ?_⟩
  intro x hx
  simp only [List.mem_singleton] at hx
  subst hx
  exact he

theorem emitCallReturn_traced {σ : Type} (name : String) (isHandler : Bool) (w : World σ)
    (o : Outcome σ NoValue) (h : Traced w o) : Traced w (emitCallReturn name isHandler o) := by
  unfold emitCallReturn
  cases o with
  | error => trivial
  | done w1 =>
    obtain ⟨evs, ht, hc⟩ := h
    cases isHandler with
    | false => trivial
    | true =>
      exact ⟨evs ++ [Event.flowHandler name true],
        by simp [World.log, ht], hc.flowReturn name⟩
  | value v w1 =>
    cases isHandler with
    | false => exact Traced.step h (Traced.value_event w1 _ _ rfl)
    | true => exact Traced.step h (Traced.value_event w1 _ _ rfl)

mutual
theorem evalExpr_traced {σ : Type} (be : Backend σ) :
    ∀ (e : Expr) (w : World σ), Traced w (evalExpr be e w)
  | .BoolExpr value, w => by simp only [evalExpr]; exact Traced.value_self w _
  | .NumberExpr value, w => by simp only [evalExpr]; exact Traced.value_self w _
  | .StringExpr value, w => by simp only [evalExpr]; exact Traced.value_self w _
  | .RegExpExpr value, w => by simp only [evalExpr]; exact Traced.value_self w _
  | .IPAddressExpr value, w => by simp only [evalExpr]; exact Traced.value_self w _
  | .VariableExpr var, w => by
    simp only [evalExpr]
    exact evalVariable_traced be var w
  | .FunctionRefExpr function, w => by
    simp only [evalExpr]
    split
    · trivial
    · split
      · exact Traced.value_self w _
      · exact Traced.value_self w _
  | .UnaryExpr op subExpr, w => by
    have ih := evalExpr_traced be subExpr w
    simp only [evalExpr]
    cases h : evalExpr be subExpr w with
    | error => trivial
    | done w1 => rw [h] at ih; exact ih
    | value v w1 =>
      rw [h] at ih
      simp only []
      refine Traced.step ih ?_
      cases unaryOp op v with
      | none => trivial
      | some r => exact Traced.value_self w1 _
  | .BinaryExpr op leftExpr rightExpr, w => by
    have ihl := evalExpr_traced be leftExpr w
    simp only [evalExpr]
    cases op <;> simp only []
    case Assign =>
      cases leftExpr.lvalue with
      | none => trivial
      | some var =>
        simp only []
        split
        · cases w.load var.addr var.name with
          | none => trivial
          | some old =>
            simp only []
            have ihr := evalExpr_traced be rightExpr w
            cases hr : evalExpr be rightExpr w with
            | error => trivial
            | done w1 => rw [hr] at ihr; exact ihr
            | value right w1 =>
              rw [hr] at ihr
              simp only []
              split
              · exact Traced.step ihr (Traced.value_event w1 _ _ rfl)
              · trivial
        · trivial
    case Or =>
      cases hl : evalExpr be leftExpr w with
      | error => trivial
      | done w1 => rw [hl] at ihl; exact ihl
      | value left w1 =>
        rw [hl] at ihl
        simp only []
        refine Traced.step ihl ?_
        have ihr := evalExpr_traced be rightExpr w1
        cases hb : toBool left with
        | none => trivial
        | some b =>
          cases b with
          | true => exact Traced.value_self w1 _
          | false =>
            simp only []
            cases hr : evalExpr be rightExpr w1 with
            | error => trivial
            | done w2 => rw [hr] at ihr; exact ihr
            | value right w2 =>
              rw [hr] at ihr
              simp only []
              refine Traced.step ihr ?_
              cases toBool right with
              | none => trivial
              | some r => exact Traced.value_self w2 _
    case And =>
      cases hl : evalExpr be leftExpr w with
      | error => trivial
      | done w1 => rw [hl] at ihl; exact ihl
      | value left w1 =>
        rw [hl] at ihl
        simp only []
        refine Traced.step ihl ?_
        have ihr := evalExpr_traced be rightExpr w1
        cases hr : evalExpr be rightExpr w1 with
        | error => trivial
        | done w2 => rw [hr] at ihr; exact ihr
        | value right w2 =>
          rw [hr] at ihr
          simp only []
          split
          · exact ihr
          · trivial
    case Xor =>
      cases hl : evalExpr be leftExpr w with
      | error => trivial
      | done w1 => rw [hl] at ihl; exact ihl
      | value left w1 =>
        rw [hl] at ihl
        simp only []
        refine Traced.step ihl ?_
        have ihr := evalExpr_traced be rightExpr w1
        cases hr : evalExpr be rightExpr w1 with
        | error => trivial
        | done w2 => rw [hr] at ihr; exact ihr
        | value right w2 =>
          rw [hr] at ihr
          simp only []
          split
          · exact ihr
          · trivial
    all_goals
      cases hl : evalExpr be leftExpr w with
      | error => trivial
      | done w1 => rw [hl] at ihl; exact ihl
      | value left w1 =>
        rw [hl] at ihl
        simp only []
        refine Traced.step ihl ?_
        have ihr := evalExpr_traced be rightExpr w1
        cases hr : evalExpr be rightExpr w1 with
        | error => trivial
        | done w2 => rw [hr] at ihr; exact ihr
        | value right w2 =>
          rw [hr] at ihr
          simp only []
          refine Traced.step ihr ?_
          cases binaryOp be _ left right with
          | none => trivial
          | some r => exact Traced.value_self w2 _
  | .ListExpr elems, w => by
    simp only [evalExpr]
    have ih := evalArgs_traced be elems w
    cases h : evalArgs be elems w with
    | error => trivial
    | done w1 => rw [h] at ih; exact ih
    | value vs w1 =>
      rw [h] at ih
      simp only []
      refine Traced.step ih ?_
      exact Traced.value_self w1 _
  | .CallExpr callee args isAssignment, w => by
    simp only [evalExpr]
    split
    · split
      · trivial
      · split
        · exact Traced.value_self w _
        · have ih := evalCallArgs_traced be args w
          cases h : evalCallArgs be args w with
          | error => trivial
          | done w1 => rw [h] at ih; exact ih
          | value vs w1 =>
            rw [h] at ih
            simp only []
            refine Traced.step ih ?_
            exact emitCallReturn_traced _ _ w1 _ (execFunction_traced be callee w1)
    · split
      · exact Traced.value_self w _
      · have ih := evalArgs_traced be args w
        cases h : evalArgs be args w with
        | error => trivial
        | done w1 => rw [h] at ih; exact ih
        | value vs w1 =>
          rw [h] at ih
          simp only []
          refine Traced.step ih ?_
          exact emitNativeCall_traced be _ vs w1
theorem evalVariable_traced {σ : Type} (be : Backend σ) :
    ∀ (v : Variable) (w : World σ), Traced w (evalVariable be v w)
  | .make addr name parentScope value, w => by
    have ih := evalExpr_traced be value w
    simp only [evalVariable]
    cases parentScope <;> simp only []
    case absent =>
      split
      · exact Traced.value_self w _
      · exact emitNativeCall_traced be _ _ w
    case unitTable =>
      cases h : evalExpr be value w with
      | error => trivial
      | done w1 => trivial
      | value v w1 =>
        simp only []
        split
        · exact Traced.value_self w _
        · trivial
    case functionTable =>
      cases w.load addr name with
      | some v => exact Traced.value_self w _
      | none =>
        simp only []
        cases h : evalExpr be value w with
        | error => trivial
        | done w1 => rw [h] at ih; exact ih
        | value v w1 =>
          rw [h] at ih
          simp only []
          split
          · exact ih
          · trivial
          · exact Traced.step ih (Traced.value_event w1 _ _ rfl)
theorem evalArgs_traced {σ : Type} (be : Backend σ) :
    ∀ (es : List Expr) (w : World σ), Traced w (evalArgs be es w)
  | [], w => by simp only [evalArgs]; exact Traced.value_self w _
  | e :: es, w => by
    simp only [evalArgs]
    have ih := evalExpr_traced be e w
    cases h : evalExpr be e w with
    | error => trivial
    | done w1 => rw [h] at ih; exact ih
    | value v w1 =>
      rw [h] at ih
      simp only []
      split
      · refine Traced.step ih ?_
        have ih2 := evalArgs_traced be es w1
        cases h2 : evalArgs be es w1 with
        | error => trivial
        | done w2 => rw [h2] at ih2; exact ih2
        | value vs w2 => rw [h2] at ih2; exact ih2
      · trivial
theorem evalCallArgs_traced {σ : Type} (be : Backend σ) :
    ∀ (es : List Expr) (w : World σ), Traced w (evalCallArgs be es w)
  | [], w => by simp only [evalCallArgs]; exact Traced.value_self w _
  | e :: es, w => by
    simp only [evalCallArgs]
    have ih := evalExpr_traced be e w
    cases h : evalExpr be e w with
    | error => trivial
    | done w1 => rw [h] at ih; exact ih
    | value v w1 =>
      rw [h] at ih
      simp only []
      split
      · refine Traced.step ih ?_
        have ih2 := evalCallArgs_traced be es w1
        cases h2 : evalCallArgs be es w1 with
        | error => trivial
        | done w2 => rw [h2] at ih2; exact ih2
        | value vs w2 => rw [h2] at ih2; exact ih2
      · trivial
theorem execFunction_traced {σ : Type} (be : Backend σ) :
    ∀ (f : Function) (w : World σ), Traced w (execFunction be f w)
  | .make _ _ _ _ none, w => by simp only [execFunction]; trivial
  | .make _ name _ scope (some body), w => by
    simp only [execFunction]
    refine Traced.after_event (e := Event.enter name) rfl ?_
    have ih := execScope_traced be scope (w.log (Event.enter name))
    cases h : execScope be scope (w.log (Event.enter name)) with
    | error => trivial
    | done w1 => rw [h] at ih; exact ih
    | value v w1 =>
      rw [h] at ih
      simp only []
      exact Traced.step ih (execStmt_traced be body w1)
theorem execScope_traced {σ : Type} (be : Backend σ) :
    ∀ (vs : List Variable) (w : World σ), Traced w (execScope be vs w)
  | [], w => by simp only [execScope]; exact Traced.value_self w _
  | v :: vs, w => by
    simp only [execScope]
    have ih := evalVariable_traced be v w
    cases h : evalVariable be v w with
    | error => trivial
    | done w1 => rw [h] at ih; exact ih
    | value x w1 =>
      rw [h] at ih
      simp only []
      exact Traced.step ih (execScope_traced be vs w1)
theorem execStmt_traced {σ : Type} (be : Backend σ) :
    ∀ (s : Stmt) (w : World σ), Traced w (execStmt be s w)
  | .ExprStmt expression, w => by
    simp only [execStmt]
    have ih := evalExpr_traced be expression w
    cases h : evalExpr be expression w with
    | error => trivial
    | done w1 => rw [h] at ih; exact ih
    | value v w1 =>
      rw [h] at ih
      simp only []
      refine Traced.step ih ?_
      exact Traced.value_self w1 _
  | .CompoundStmt stmts, w => by
    simp only [execStmt]
    exact execStmts_traced be stmts w
  | .CondStmt condition thenStmt elseStmt, w => by
    have ihc := evalExpr_traced be condition w
    simp only [execStmt]
    cases hc : evalExpr be condition w with
    | error => trivial
    | done w1 => rw [hc] at ihc; exact ihc
    | value c w1 =>
      rw [hc] at ihc
      simp only []
      refine Traced.step ihc ?_
      cases hb : toBool c with
      | none => trivial
      | some b =>
        cases b with
        | true => exact execStmt_traced be thenStmt w1
        | false => exact execElse_traced be elseStmt w1
theorem execStmts_traced {σ : Type} (be : Backend σ) :
    ∀ (ss : List Stmt) (w : World σ), Traced w (execStmts be ss w)
  | [], w => by simp only [execStmts]; exact Traced.value_self w _
  | s :: ss, w => by
    simp only [execStmts]
    have ih := execStmt_traced be s w
    cases h : execStmt be s w with
    | error => trivial
    | done w1 => rw [h] at ih; exact ih
    | value v w1 =>
      rw [h] at ih
      simp only []
      refine Traced.step ih ?_
      exact execStmts_traced be ss w1
theorem execElse_traced {σ : Type} (be : Backend σ) :
    ∀ (s : Option Stmt) (w : World σ), Traced w (execElse be s w)
  | none, w => by simp only [execElse]; exact Traced.value_self w _
  | some s, w => by
    simp only [execElse]
    exact execStmt_traced be s w
end

/-- C4: once the left operand of `a || b` has the value `va`, the expression is
    `true`, in the world the left operand left behind (nothing of `b` has been
    run), when `toBool va` is true; when it is false, `b` is run and the
    expression has the value `toBool` of `b`. -/
theorem C4_or_short_circuit {σ : Type} (be : Backend σ) (a b : Expr) (w w1 : World σ) (va : Val)
    (ha : evalExpr be a w = Outcome.value va w1) :
    evalExpr be (Expr.BinaryExpr Operator.Or a b) w =
      match toBool va with
      | none => Outcome.error
      | some true => Outcome.value (Val.i1 true) w1
      | some false =>
        match evalExpr be b w1 with
        | Outcome.error => Outcome.error
        | Outcome.done w2 => Outcome.done w2
        | Outcome.value vb w2 =>
          match toBool vb with
          | none => Outcome.error
          | some r => Outcome.value (Val.i1 r) w2 := by
  simp only [evalExpr, ha]

/-- C4, witness: `true || crash()` is true and `crash` is not called: the host
    state and the record of calls are unchanged. -/
theorem C4_witness :
    evalExpr sampleBackend (Expr.BoolExpr true) (World.mk 0 []) =
      Outcome.value (Val.i64 1) (World.mk 0 []) ∧
    evalExpr sampleBackend (Expr.BinaryExpr Operator.Or (Expr.BoolExpr true)
      (Expr.CallExpr (Function.mk "crash" false none) [] false)) (World.mk 0 []) =
      Outcome.value (Val.i1 true) (World.mk 0 []) :=
  ⟨rfl, C4_or_short_circuit sampleBackend (Expr.BoolExpr true)
    (Expr.CallExpr (Function.mk "crash" false none) [] false) (World.mk 0 []) (World.mk 0 [])
    (Val.i64 1) rfl⟩

/-! ### The runner -/

/-- C1, counterexample: for the unit `handler main { foo(); "a" * 2; consume(); }`
    code generation reports an undefined function and an operator type mismatch
    through `reportError`, and `open` still returns `true`. -/
theorem C1_open_true_despite_error :
    (FlowRunner.open_ sampleBackend true (some brokenUnit) true
      (setErrorHandler freshRunner)).map (fun r => (r.1, r.2.reported)) =
      some (true, ["code generator error: Cannot use unknown function 'foo'.",
        "code generator error: operand types not compatible to operator *"]) := by
  decide

/-- C1, as amended: whenever `open` returns, its result is `true` exactly when
    the parser was initialised, the parse yielded a unit and the engine exists
    (it was there already or could be created); the messages that code
    generation passed to `reportError` have no influence on the result. -/
theorem C1_open_result {σ : Type} (be : Backend σ) (parserInitialized : Bool)
    (parsed : Option Unit) (engineCreates : Bool) (s s' : FlowRunner) (b : Bool)
    (h : FlowRunner.open_ be parserInitialized parsed engineCreates s = some (b, s')) :
    b = (parserInitialized && parsed.isSome && (s.executionEngine_ || engineCreates)) := by
  obtain ⟨u, ol, eh, m, ee, fpm, fs, v, ifn, ir, rep, sc, rl⟩ := s
  cases parserInitialized <;> cases parsed <;> cases ee <;> cases m <;> cases engineCreates <;>
    simp only [FlowRunner.open_, reinitialize, Bool.true_eq_false, Bool.false_eq_true, if_true,
      if_false, ne_eq, not_true_eq_false, not_false_eq_true, Option.some.injEq, Prod.mk.injEq,
      reduceCtorEq] at h <;>
    first
      | (simp [← h.1])
      | (split at h
         · cases h
         · simp only [Option.some.injEq, Prod.mk.injEq] at h
           simp [← h.1])

/-- C1, witness: the amended statement at the unit
    `handler main { foo(); "a" * 2; consume(); }`, where two errors are reported
    and `open` returns `true`. -/
theorem C1_witness :
    true = (true && (some brokenUnit).isSome && ((setErrorHandler freshRunner).executionEngine_ || true)) :=
  C1_open_result sampleBackend true (some brokenUnit) true (setErrorHandler freshRunner)
    { setErrorHandler freshRunner with
      unit_ := some brokenUnit,
      functions_ := ["main"],
      reported := ["code generator error: Cannot use unknown function 'foo'.",
        "code generator error: operand types not compatible to operator *"],
      initializerFn_ := some [],
      initializerRuns := 1,
      scope_ := [[((true, 0, "main"), some Ty.function)]] }
    true rfl

/-- C2, the code at the failing input: construction leaves module and engine
    set; `clear()` resets the engine and leaves `module_` non-`NULL`; so the
    `reinitialize()` of `reset()`, and the one of the second `open` in
    `open; close; open`, fail their `assert(module_ == NULL)`. -/
theorem C2_reinitialize_assert_fails :
    (FlowRunner.new true).map (fun s => (s.module_, s.executionEngine_)) = some (true, true) ∧
    (clear freshRunner).map (fun s => (s.module_, s.executionEngine_)) = some (true, false) ∧
    (reset true freshRunner).isNone = true ∧
    (openCloseOpen sampleBackend emptyHandlerUnit freshRunner).isNone = true := by
  decide

/-! ### Runtime helpers on arrays and ip addresses -/

/-- C11, the code at the failing input: for `left = [b]` with `b` a BUFFER
    record and `right = []`, `flow_arrayadd` stores `[b]` into the result, and
    `flow_arraycmp` of the result with the expected array `[b]` returns `1`;
    even an array compared with itself gives `1`. -/
theorem C11_arraycmp_buffer_unequal :
    (flow_arrayadd bufferArrayMemory 3 0 2).bind (fun mem => flow_arraycmp mem 3 5) = some 1 ∧
    (flow_arrayadd bufferArrayMemory 3 0 2).bind (fun mem => mem[3]?) = bufferArrayMemory[5]? ∧
    flow_arraycmp bufferArrayMemory 0 0 = some 1 := by
  decide

theorem flow_NumberInArray_loop_spec (mem : List FlowValue) (n : Nat) (xs : List FlowValue) :
    ∀ (fuel p : Nat), IsArrayAt mem p xs → xs.length < fuel →
      flow_NumberInArray.loop mem n fuel p =
        some (if xs.any (fun x => decide (x.type_ = FlowValueType.NUMBER ∧ n = x.number_))
          then 1 else 0) := by
  induction xs with
  | nil =>
    intro fuel p h hf
    obtain ⟨_, _, v, h3, h4⟩ := h
    obtain ⟨f, rfl⟩ : ∃ f, fuel = f + 1 := ⟨fuel - 1, by simp at hf; omega⟩
    simp only [List.length_nil, Nat.add_zero] at h3
    simp [flow_NumberInArray.loop, h3, h4]
  | cons x xs ih =>
    intro fuel p h hf
    obtain ⟨f, rfl⟩ : ∃ f, fuel = f + 1 := ⟨fuel - 1, by simp at hf; omega⟩
    obtain ⟨hx, hv⟩ := h.head
    have hrec := ih f (p + 1) h.tail (by simp at hf; omega)
    simp only [flow_NumberInArray.loop, hx, hv, Bool.false_eq_true, if_false, FlowValue.type,
      FlowValue.toNumber, List.any_cons]
    by_cases ht : x.type_ = FlowValueType.NUMBER
    · by_cases hn : n = x.number_
      · simp [ht, hn]
      · simp only [ht, hn, if_false, hrec]
        simp
    · have hgo : (match x.type_ with
          | FlowValueType.NUMBER =>
            if n = x.number_ then some 1 else flow_NumberInArray.loop mem n f (p + 1)
          | _ => flow_NumberInArray.loop mem n f (p + 1)) =
          flow_NumberInArray.loop mem n f (p + 1) := by
        cases hxt : x.type_ <;> simp_all
      rw [hgo, hrec]
      simp [ht]

theorem flow_NumberInArray_spec {mem : List FlowValue} {p : Nat} {xs : List FlowValue} (n : Nat)
    (h : IsArrayAt mem p xs) :
    flow_NumberInArray mem n p =
      some (if xs.any (fun x => decide (x.type_ = FlowValueType.NUMBER ∧ n = x.number_))
        then 1 else 0) := by
  have hl := h.lt_length
  unfold flow_NumberInArray
  exact flow_NumberInArray_loop_spec mem n xs _ p h (by omega)

/-- The memory of a list expression holds, at address 0, the array of its
    records up to the first VOID one. -/
theorem arrayMemory_isArrayAt (elems : List FlowValue) :
    IsArrayAt (arrayMemory elems) 0 (elems.takeWhile (fun v => !v.isVoid)) := by
  unfold arrayMemory
  induction elems with
  | nil =>
    refine ⟨fun x hx => by simp at hx, fun i hi => by simp at hi, emitNativeValue none, ?_, rfl⟩
    simp
  | cons e es ih =>
    by_cases he : e.isVoid = true
    · have htw : (e :: es).takeWhile (fun v => !v.isVoid) = [] := by
        simp [List.takeWhile, he]
      rw [htw]
      exact ⟨fun x hx => by simp at hx, fun i hi => by simp at hi, e, by simp, he⟩
    · have hef : e.isVoid = false := by simpa using he
      have htw : (e :: es).takeWhile (fun v => !v.isVoid) =
          e :: es.takeWhile (fun v => !v.isVoid) := by
        simp [List.takeWhile, hef]
      rw [htw]
      obtain ⟨h1, h2, v, h3, h4⟩ := ih
      refine ⟨?_, ?_, v, ?_, h4⟩
      · intro x hx
        rcases List.mem_cons.1 hx with rfl | hx
        · exact hef
        · exact h1 x hx
      · intro i hi
        cases i with
        | zero => simp
        | succ j =>
          have := h2 j (by simp at hi; omega)
          simpa using this
      · simpa using h3

/-- C12: on a VOID-terminated array, `flow_NumberInArray` followed by the test
    `!= 0` is true iff some element before the sentinel has kind NUMBER and
    the value `n`; so is the value of `n in xs` in generated code, on the
    records its list expression stored. -/
theorem C12_number_in_array {σ : Type} (be : Backend σ) (mem : List FlowValue) (p n : Nat)
    (xs elems : List FlowValue) (h : IsArrayAt mem p xs) :
    (∃ r, flow_NumberInArray mem n p = some r ∧
      (decide (r ≠ 0) = true ↔ ∃ x ∈ xs, x.type_ = FlowValueType.NUMBER ∧ x.number_ = n)) ∧
    (∃ b, binaryOp be Operator.In (Val.i64 n) (Val.array elems) = some (Val.i1 b) ∧
      (b = true ↔ ∃ x ∈ elems.takeWhile (fun v => !v.isVoid),
        x.type_ = FlowValueType.NUMBER ∧ x.number_ = n)) := by
  have key : ∀ ys : List FlowValue,
      (decide ((if ys.any (fun x => decide (x.type_ = FlowValueType.NUMBER ∧ n = x.number_))
        then 1 else 0) ≠ 0) = true ↔
        ∃ x ∈ ys, x.type_ = FlowValueType.NUMBER ∧ x.number_ = n) := by
    intro ys
    by_cases hany : ys.any (fun x => decide (x.type_ = FlowValueType.NUMBER ∧ n = x.number_)) = true
    · simp only [hany, if_true]
      simp only [List.any_eq_true, decide_eq_true_eq] at hany
      obtain ⟨x, hx, ht, hn⟩ := hany
      simp only [ne_eq, one_ne_zero, not_false_eq_true, decide_True, true_iff]
      exact ⟨x, hx, ht, hn.symm⟩
    · simp only [hany, Bool.false_eq_true, if_false, ne_eq, not_true_eq_false, decide_False,
        false_iff]
      rintro ⟨x, hx, ht, hn⟩
      apply hany
      simp only [List.any_eq_true, decide_eq_true_eq]
      exact ⟨x, hx, ht, hn.symm⟩
  refine ⟨⟨_, flow_NumberInArray_spec n h, key xs⟩, ?_⟩
  refine ⟨_, ?_, key (elems.takeWhile (fun v => !v.isVoid))⟩
  have hop : binaryOp be Operator.In (Val.i64 n) (Val.array elems) =
      (flow_NumberInArray (arrayMemory elems) n 0).map (fun r => Val.i1 (decide (r ≠ 0))) := rfl
  rw [hop, flow_NumberInArray_spec n (arrayMemory_isArrayAt elems), Option.map_some']

/-- C12, witness: `42 in [1, 2, 42, 7]` is true. -/
theorem C12_witness :
    (∃ r, flow_NumberInArray (arrayMemory [FlowValue.ofNumber 1, FlowValue.ofNumber 2,
        FlowValue.ofNumber 42, FlowValue.ofNumber 7]) 42 0 = some r ∧
      (decide (r ≠ 0) = true ↔ ∃ x ∈ [FlowValue.ofNumber 1, FlowValue.ofNumber 2,
        FlowValue.ofNumber 42, FlowValue.ofNumber 7],
        x.type_ = FlowValueType.NUMBER ∧ x.number_ = 42)) ∧
    (∃ b, binaryOp sampleBackend Operator.In (Val.i64 42) (Val.array [FlowValue.ofNumber 1,
        FlowValue.ofNumber 2, FlowValue.ofNumber 42, FlowValue.ofNumber 7]) = some (Val.i1 b) ∧
      (b = true ↔ ∃ x ∈ [FlowValue.ofNumber 1, FlowValue.ofNumber 2, FlowValue.ofNumber 42,
        FlowValue.ofNumber 7].takeWhile (fun v => !v.isVoid),
        x.type_ = FlowValueType.NUMBER ∧ x.number_ = 42)) :=
  C12_number_in_array sampleBackend
    (arrayMemory [FlowValue.ofNumber 1, FlowValue.ofNumber 2, FlowValue.ofNumber 42,
      FlowValue.ofNumber 7]) 0 42
    [FlowValue.ofNumber 1, FlowValue.ofNumber 2, FlowValue.ofNumber 42, FlowValue.ofNumber 7]
    [FlowValue.ofNumber 1, FlowValue.ofNumber 2, FlowValue.ofNumber 42, FlowValue.ofNumber 7]
    ⟨by decide, by decide, FlowValue.void, by decide, by decide⟩

/-- C13, the code at the failing input: for the text `ab` and an array whose
    only element is the buffer `ax`, the BUFFER case returns at the first
    position that agrees, so `flow_StringInArray` returns true although the
    two differ at the second position; and the empty text is not found in an
    array that holds the empty buffer.  On STRING elements the helper does
    compare every position (`"x" in ["a", "b"]` is false). -/
theorem C13_string_in_array_buffer :
    flow_StringInArray
      [{ type_ := FlowValueType.BUFFER, number_ := 2, buffer_ := Pointer.chars [97, 120] },
        FlowValue.void] 2 [97, 98] 0 = some 1 ∧
    ¬ eqModCase [97, 98] [97, 120] ∧
    flow_StringInArray
      [{ type_ := FlowValueType.BUFFER, number_ := 0, buffer_ := Pointer.chars [] },
        FlowValue.void] 0 [] 0 = some 0 ∧
    flow_StringInArray
      [{ type_ := FlowValueType.STRING, number_ := 0, buffer_ := Pointer.chars [97] },
        { type_ := FlowValueType.STRING, number_ := 0, buffer_ := Pointer.chars [98] },
        FlowValue.void] 1 [120] 0 = some 0 := by
  refine ⟨by decide, ?_, by decide, by decide⟩
  rw [eqModCase_iff_map]
  decide

theorem flow_arraycmp_loop_range (mem : List FlowValue) (xs : List FlowValue) :
    ∀ (ys : List FlowValue) (fuel l r : Nat), IsArrayAt mem l xs → IsArrayAt mem r ys →
      xs.length < fuel →
      ∃ v, flow_arraycmp.loop mem fuel l r = some v ∧ (v = 0 ∨ v = 1) := by
  induction xs with
  | nil =>
    intro ys fuel l r hl hr hf
    obtain ⟨f, rfl⟩ : ∃ f, fuel = f + 1 := ⟨fuel - 1, by simp at hf; omega⟩
    obtain ⟨_, _, v, h3, h4⟩ := hl
    simp only [List.length_nil, Nat.add_zero] at h3
    have hrr : ∃ u, mem[r]? = some u := by
      cases ys with
      | nil =>
        obtain ⟨_, _, u, h5, _⟩ := hr
        exact ⟨u, by simpa using h5⟩
      | cons y ys => exact ⟨y, hr.head.1⟩
    obtain ⟨u, hu⟩ := hrr
    simp only [flow_arraycmp.loop, h3, hu, h4, Bool.not_true, Bool.false_and, Bool.false_eq_true,
      if_false, Bool.true_and]
    by_cases huv : u.isVoid = true
    · exact ⟨0, by simp [huv], Or.inl rfl⟩
    · exact ⟨1, by simp [huv], Or.inr rfl⟩
  | cons x xs ih =>
    intro ys fuel l r hl hr hf
    obtain ⟨f, rfl⟩ : ∃ f, fuel = f + 1 := ⟨fuel - 1, by simp at hf; omega⟩
    obtain ⟨hx, hxv⟩ := hl.head
    cases ys with
    | nil =>
      obtain ⟨_, _, u, h5, h6⟩ := hr
      simp only [List.length_nil, Nat.add_zero] at h5
      exact ⟨1, by simp [flow_arraycmp.loop, hx, h5, hxv, h6], Or.inr rfl⟩
    | cons y ys =>
      obtain ⟨hy, hyv⟩ := hr.head
      obtain ⟨v, hv, hv01⟩ := ih ys f (l + 1) (r + 1) hl.tail hr.tail (by simp at hf; omega)
      simp only [flow_arraycmp.loop, hx, hy, hxv, hyv, Bool.not_false, Bool.and_self, if_true]
      by_cases ht : x.type ≠ y.type
      · exact ⟨1, by simp [ht], Or.inr rfl⟩
      · simp only [ht, if_false]
        split
        · exact ⟨1, rfl, Or.inr rfl⟩
        · exact ⟨v, hv, hv01⟩

theorem strcmp_eq_zero (s1 : List Byte) :
    ∀ s2 : List Byte, strcmp s1 s2 = 0 ↔
      s1.takeWhile (fun x => x ≠ 0) = s2.takeWhile (fun x => x ≠ 0) := by
  induction s1 with
  | nil =>
    intro s2
    cases s2 with
    | nil => simp [strcmp, load]
    | cons d ds =>
      simp only [strcmp, load, List.headD_cons, List.takeWhile_nil]
      by_cases hd : d = 0
      · subst hd; simp [cbytes_cons_zero]
      · have hd3 : d.val ≠ 0 := fun h => hd (Fin.ext h)
        rw [cbytes_cons_ne hd]
        simp
        omega
  | cons c cs ih =>
    intro s2
    cases s2 with
    | nil =>
      simp only [strcmp, load, List.headD_nil, List.tail_nil, List.takeWhile_nil]
      have h0 : ((0 : Byte) : Nat) = 0 := rfl
      rw [h0]
      by_cases hc : c = 0
      · subst hc; simp [cbytes_cons_zero]
      · have hc3 : c.val ≠ 0 := fun h => hc (Fin.ext h)
        rw [cbytes_cons_ne hc]
        simp [hc3]
    | cons d ds =>
      simp only [strcmp, load, List.headD_cons, List.tail_cons]
      by_cases hcd : c.val = d.val
      · have hcd2 : c = d := Fin.ext hcd
        subst hcd2
        simp only [ne_eq, not_true_eq_false, if_false]
        by_cases hc : c = 0
        · subst hc
          simp [cbytes_cons_zero]
        · have hc3 : c.val ≠ 0 := fun h => hc (Fin.ext h)
          rw [cbytes_cons_ne hc cs, cbytes_cons_ne hc ds]
          simp only [hc3, if_false, List.cons.injEq, true_and]
          exact ih ds
      · have hcd2 : c ≠ d := fun h => hcd (by rw [h])
        simp only [hcd, ne_eq, not_false_eq_true, if_true]
        have hne : (c.val : Int) - (d.val : Int) ≠ 0 := by omega
        simp only [hne, false_iff]
        by_cases hc : c = 0
        · have hd : d ≠ 0 := fun h => hcd2 (by rw [hc, h])
          subst hc
          rw [cbytes_cons_zero, cbytes_cons_ne hd]
          simp
        · by_cases hd : d = 0
          · subst hd
            rw [cbytes_cons_zero, cbytes_cons_ne hc]
            simp
          · rw [cbytes_cons_ne hc, cbytes_cons_ne hd]
            simp [hcd2]

/-- C14, counterexample: for the address `10.0.0.1` and the string `10.0.0.2`
    `flow_ipstrcmp` returns the `strcmp` result `-1`, which is neither `0`
    nor `1`. -/
theorem C14_ipstrcmp_not_one :
    flow_ipstrcmp sampleIPText sampleIP [49, 48, 46, 48, 46, 48, 46, 50] = -1 ∧
    flow_ipstrcmp sampleIPText sampleIP [49, 48, 46, 48, 46, 48, 46, 50] ≠ 0 ∧
    flow_ipstrcmp sampleIPText sampleIP [49, 48, 46, 48, 46, 48, 46, 50] ≠ 1 := by
  decide

/-- C14, as amended: `flow_endsWidth`, `flow_arraycmp` (on VOID-terminated
    arrays) and `flow_ipcmp` return `0` or `1` and nothing else, `flow_ipcmp`
    returning `0` exactly for equal addresses; `flow_ipstrcmp` returns the
    result of `strcmp`, which is `0` exactly when the text form of the address
    and the string are equal, and some non-zero value otherwise. -/
theorem C14_compare_helpers (str : IPAddress → List Byte) (ip1 ip2 : IPAddress)
    (string a b : List Byte) (mem : List FlowValue) (left right : Nat) (xs ys : List FlowValue)
    (hl : IsArrayAt mem left xs) (hr : IsArrayAt mem right ys) :
    (flow_endsWidth a b = 0 ∨ flow_endsWidth a b = 1) ∧
    (∃ v, flow_arraycmp mem left right = some v ∧ (v = 0 ∨ v = 1)) ∧
    (flow_ipcmp ip1 ip2 = 0 ∨ flow_ipcmp ip1 ip2 = 1) ∧
    (flow_ipcmp ip1 ip2 = 0 ↔ ip1 = ip2) ∧
    (flow_ipstrcmp str ip1 string = 0 ↔
      (str ip1).takeWhile (fun c => c ≠ 0) = string.takeWhile (fun c => c ≠ 0)) := by
  refine ⟨flow_endsWidth_range a b, ?_, ?_, ?_, ?_⟩
  · have hll := hl.lt_length
    exact flow_arraycmp_loop_range mem xs ys _ left right hl hr (by omega)
  · unfold flow_ipcmp; split
    · left; rfl
    · right; rfl
  · unfold flow_ipcmp; split <;> simp_all
  · unfold flow_ipstrcmp
    rw [strcmp_eq_zero]
    congr! 1
    rw [List.takeWhile_takeWhile]
    simp

/-- C14, witness: the helpers on the sample address and the sample arrays. -/
theorem C14_witness :
    (flow_endsWidth [102, 111, 111] [111] = 0 ∨ flow_endsWidth [102, 111, 111] [111] = 1) ∧
    (∃ v, flow_arraycmp sampleMemory 0 2 = some v ∧ (v = 0 ∨ v = 1)) ∧
    (flow_ipcmp sampleIP sampleIP = 0 ∨ flow_ipcmp sampleIP sampleIP = 1) ∧
    (flow_ipcmp sampleIP sampleIP = 0 ↔ sampleIP = sampleIP) ∧
    (flow_ipstrcmp sampleIPText sampleIP [49, 48, 46, 48, 46, 48, 46, 49] = 0 ↔
      (sampleIPText sampleIP).takeWhile (fun c => c ≠ 0) =
        ([49, 48, 46, 48, 46, 48, 46, 49] : List Byte).takeWhile (fun c => c ≠ 0)) :=
  C14_compare_helpers sampleIPText sampleIP sampleIP [49, 48, 46, 48, 46, 48, 46, 49]
    [102, 111, 111] [111] sampleMemory 0 2
    [FlowValue.ofNumber 1] [FlowValue.ofNumber 2, FlowValue.ofNumber 3]
    ⟨by decide, by decide, FlowValue.void, by decide, by decide⟩
    ⟨by decide, by decide, FlowValue.void, by decide, by decide⟩

/-! ### Operators in the code generator -/

/-- C15, the code at the failing input: `builder_.CreateNeg(value_)` does not
    assign its result, so the value of `-e` is the value of `e`: `-5` has the
    value `5`, not its negation `2^64 - 5`. -/
theorem C15_unary_minus_unchanged :
    (∀ x : Nat, unaryOp Operator.UnaryMinus (Val.i64 x) = some (Val.i64 x)) ∧
    evalExpr sampleBackend (Expr.UnaryExpr Operator.UnaryMinus (Expr.NumberExpr 5)) (World.mk 0 []) =
      Outcome.value (Val.i64 5) (World.mk 0 []) ∧
    sub64 0 5 ≠ 5 := by
  refine ⟨fun x => rfl, rfl, by decide⟩

/-- C16, the code at the failing inputs: for `/` with a string operand and for
    unary `-` on a string no branch of the code generator calls `reportError`;
    an instruction on operands of the wrong type is emitted (code generation
    does not go on to a result).  The sibling cases `*` and `!` do test the
    operand types and report. -/
theorem C16_div_and_minus_unreported (s : FlowRunner) :
    visitBinaryOp Operator.Div (some Ty.cstring) (some Ty.i64) s = none ∧
    visitBinaryOp Operator.Div (some Ty.i64) (some Ty.cstring) s = none ∧
    visitUnaryOp Operator.UnaryMinus Ty.cstring s = none ∧
    visitBinaryOp Operator.Mul (some Ty.cstring) (some Ty.i64) s =
      some (reportError s "operand types not compatible to operator *") ∧
    visitUnaryOp Operator.Not Ty.regexp s =
      some (reportError s "Invalid sub-type in not-expression") := by
  refine ⟨rfl, rfl, rfl, rfl, rfl⟩

/-- C17, counterexample: for `[1] < [2]`, an (array,array) pair, the code
    generator reports `Incompatible operand types for operator <` and leaves no
    value. -/
theorem C17_ordering_on_arrays_reported :
    (codegenExpr sampleBackend true
      (Expr.BinaryExpr Operator.Less (Expr.ListExpr [Expr.NumberExpr 1])
        (Expr.ListExpr [Expr.NumberExpr 2]))
      (setErrorHandler freshRunner)).map (fun s => (s.value_, s.reported)) =
      some (none, ["code generator error: Incompatible operand types for operator <"]) := by
  decide

/-- C17, as amended: for `==` and `!=` and each of the pairs (num,num),
    (bool,bool), (string,string), (string,int), (array,array), (ip,ip) and
    (ip,C-string), and for `<`, `>`, `<=`, `>=` and each of the pairs (num,num),
    (bool,bool), (string,string), (string,int), the code generator reports no
    error and yields an `i1`; for `<`, `>`, `<=`, `>=` on (array,array), (ip,ip)
    and (ip,string) it reports an error and leaves no value. -/
theorem C17_comparison_operators (s : FlowRunner) :
    (∀ op ∈ equalityOperators, ∀ p ∈ orderedPairs ++ unorderedPairs,
      visitBinaryOp op (some p.1) (some p.2) s = some (setValue s Ty.i1)) ∧
    (∀ op ∈ orderingOperators, ∀ p ∈ orderedPairs,
      visitBinaryOp op (some p.1) (some p.2) s = some (setValue s Ty.i1)) ∧
    (∀ op ∈ orderingOperators, ∀ p ∈ unorderedPairs,
      ∃ message, visitBinaryOp op (some p.1) (some p.2) s = some (reportError s message) ∧
        (reportError s message).value_ = none) := by
  refine ⟨?_, ?_, ?_⟩
  · intro op hop p hp
    simp only [equalityOperators, orderedPairs, unorderedPairs, List.cons_append, List.nil_append,
      List.mem_cons, List.mem_singleton, List.not_mem_nil, or_false] at hop hp
    rcases hop with rfl | rfl <;>
      rcases hp with rfl | rfl | rfl | rfl | rfl | rfl | rfl | rfl | rfl | rfl | rfl <;> rfl
  · intro op hop p hp
    simp only [orderingOperators, orderedPairs, List.mem_cons, List.mem_singleton,
      List.not_mem_nil, or_false] at hop hp
    rcases hop with rfl | rfl | rfl | rfl <;>
      rcases hp with rfl | rfl | rfl | rfl | rfl | rfl | rfl | rfl <;> rfl
  · intro op hop p hp
    simp only [orderingOperators, unorderedPairs, List.mem_cons, List.mem_singleton,
      List.not_mem_nil, or_false] at hop hp
    rcases hop with rfl | rfl | rfl | rfl <;>
      rcases hp with rfl | rfl | rfl <;> exact ⟨_, rfl, rfl⟩

/-- C17, witness: `<` on two numbers yields an `i1` and reports nothing. -/
theorem C17_witness :
    visitBinaryOp Operator.Less (some (Ty.i64, Ty.i64).1) (some (Ty.i64, Ty.i64).2) freshRunner =
      some (setValue freshRunner Ty.i1) :=
  (C17_comparison_operators freshRunner).2.1 Operator.Less (by decide) (Ty.i64, Ty.i64) (by decide)

/-! ### The native-call ABI -/

/-- C18: a call of the native entry that the registry finds under the callee's
    name, with `n` arguments whose values are `vs`, allocates `n + 1` records,
    stores kind VOID in `argv[0]` and the marshalled `i`-th argument in
    `argv[i]`, in source order, and dispatches with `argc = n` and the entry's
    index as `id`, on exactly these records. -/
theorem C18_native_call_site {σ : Type} (be : Backend σ) (callee : Function) (args : List Expr)
    (isAssignment : Bool) (id : Nat) (vs : List Val) (w w1 : World σ)
    (hfind : be.find callee.name = some id)
    (hassign : isAssignment = true → be.isVariable callee.name = true)
    (hargs : evalArgs be args w = Outcome.value vs w1) :
    (emitNativeCallSite id vs).allocated = vs.length + 1 ∧
    (emitNativeCallSite id vs).argv.length = vs.length + 1 ∧
    ((emitNativeCallSite id vs).argv[0]?).map FlowValue.type_ = some FlowValueType.VOID ∧
    (∀ i, i < vs.length →
      (emitNativeCallSite id vs).argv[i + 1]? = (vs[i]?).map (fun v => emitNativeValue (some v))) ∧
    (emitNativeCallSite id vs).argc = vs.length ∧
    (emitNativeCallSite id vs).id = id ∧
    evalExpr be (Expr.CallExpr callee args isAssignment) w =
      emitNativeReturn (be.callbackAt (emitNativeCallSite id vs).id)
        (be.dispatch (emitNativeCallSite id vs).id ((emitNativeCallSite id vs).argv.drop 1)
          w1.host).1
        { host := (be.dispatch (emitNativeCallSite id vs).id
            ((emitNativeCallSite id vs).argv.drop 1) w1.host).2,
          trace := w1.trace ++ [Event.native (emitNativeCallSite id vs).id
            (be.callbackAt (emitNativeCallSite id vs).id).type
            ((emitNativeCallSite id vs).argv.drop 1)
            (be.dispatch (emitNativeCallSite id vs).id ((emitNativeCallSite id vs).argv.drop 1)
              w1.host).1] } := by
  have hc : (isAssignment && !be.isVariable callee.name) = false := by
    cases isAssignment with
    | false => rfl
    | true => simp [hassign rfl]
  refine ⟨rfl, by simp [emitNativeCallSite],
    by simp [emitNativeCallSite, emitNativeValue], ?_, rfl, rfl, ?_⟩
  · intro i _
    simp [emitNativeCallSite]
  · simp only [evalExpr, hfind, hc, hargs, Bool.false_eq_true, if_false]
    rfl

/-- C18, witness: the call `consume(1, "a")` of the native entry 0. -/
theorem C18_witness :
    (emitNativeCallSite 0 [Val.i64 1, Val.cstring [97]]).allocated = 3 ∧
    (emitNativeCallSite 0 [Val.i64 1, Val.cstring [97]]).argv =
      [{ type_ := FlowValueType.VOID, number_ := 0, buffer_ := Pointer.null },
       { type_ := FlowValueType.NUMBER, number_ := 1, buffer_ := Pointer.null },
       { type_ := FlowValueType.STRING, number_ := 0, buffer_ := Pointer.chars [97] }] ∧
    (emitNativeCallSite 0 [Val.i64 1, Val.cstring [97]]).argc = 2 ∧
    (emitNativeCallSite 0 [Val.i64 1, Val.cstring [97]]).id = 0 ∧
    evalExpr sampleBackend (Expr.CallExpr (Function.mk "consume" true none)
      [Expr.NumberExpr 1, Expr.StringExpr [97]] false) (World.mk 0 []) =
      emitNativeCall sampleBackend 0 [Val.i64 1, Val.cstring [97]] (World.mk 0 []) :=
  have h := C18_native_call_site sampleBackend (Function.mk "consume" true none)
    [Expr.NumberExpr 1, Expr.StringExpr [97]] false 0 [Val.i64 1, Val.cstring [97]]
    (World.mk 0 []) (World.mk 0 []) rfl (fun hh => by cases hh) rfl
  ⟨h.1, rfl, h.2.2.2.2.1, h.2.2.2.2.2.1, h.2.2.2.2.2.2⟩

/-- C19, the code at the failing inputs: for a function- or variable-kind entry
    whose declared return kind is ARRAY, REGEXP, IP, FUNCTION or VOID, the
    `default` of the return-kind switch selects index 0 of the record, so the
    value read is the kind tag of `argv[0]`, as an `i32`; the pointer slot is
    not read.  For the kinds STRING, NUMBER, BOOLEAN and BUFFER the slots are
    the ones the claim names. -/
theorem C19_return_reads_kind_tag {σ : Type} (name : String) (ret : FlowValue) (w : World σ) :
    tagReturnKinds.map (fun returnType => emitNativeReturn
      (Callback.mk CallbackType.FUNCTION name returnType) ret w) =
      tagReturnKinds.map (fun _ => Outcome.value (Val.i32 ret.type_.code) w) ∧
    tagReturnKinds.map (fun returnType => emitNativeReturn
      (Callback.mk CallbackType.VARIABLE name returnType) ret w) =
      tagReturnKinds.map (fun _ => Outcome.value (Val.i32 ret.type_.code) w) ∧
    emitNativeReturn (Callback.mk CallbackType.FUNCTION name FlowValueType.STRING) ret w =
      Outcome.value (Val.cstring ret.buffer_.toChars) w ∧
    emitNativeReturn (Callback.mk CallbackType.FUNCTION name FlowValueType.NUMBER) ret w =
      Outcome.value (Val.i64 ret.number_) w ∧
    emitNativeReturn (Callback.mk CallbackType.FUNCTION name FlowValueType.BOOLEAN) ret w =
      Outcome.value (Val.i64 ret.number_) w ∧
    emitNativeReturn (Callback.mk CallbackType.FUNCTION name FlowValueType.BUFFER) ret w =
      Outcome.value (Val.bufferPtr ret.number_ ret.buffer_.toChars) w := by
  refine ⟨rfl, rfl, rfl, rfl, rfl, rfl⟩

/-- C20, counterexample: the literals `true` and `false` are `i64` constants, so
    as elements of a list (or arguments of a native call) they are stored
    with kind NUMBER, not BOOLEAN; the result of a comparison is stored with
    kind BOOLEAN. -/
theorem C20_bool_literal_stored_as_number :
    evalExpr sampleBackend (Expr.ListExpr [Expr.BoolExpr true, Expr.BoolExpr false,
      Expr.BinaryExpr Operator.Equal (Expr.NumberExpr 1) (Expr.NumberExpr 1)]) (World.mk 0 []) =
      Outcome.value (Val.array
        [{ type_ := FlowValueType.NUMBER, number_ := 1, buffer_ := Pointer.null },
         { type_ := FlowValueType.NUMBER, number_ := 0, buffer_ := Pointer.null },
         { type_ := FlowValueType.BOOLEAN, number_ := 1, buffer_ := Pointer.null }])
        (World.mk 0 []) := by
  rfl

/-- C20, as amended: `emitNativeValue` stores a boolean that is the result of a
    comparison (an `i1`) with kind BOOLEAN and number 0 or 1, a number (an
    `i64`) with kind NUMBER in the number slot, a C-string with kind STRING in
    the buffer slot, and a buffer with kind BUFFER, its length in the number
    slot and its data pointer in the buffer slot; the literals `true` and
    `false` are generated as the numbers 1 and 0 and are stored with kind
    NUMBER and number 1 or 0; the comparison operators on numbers yield an
    `i1`. -/
theorem C20_marshalled_kinds {σ : Type} (be : Backend σ) (w : World σ) :
    (∀ b : Bool, (emitNativeValue (some (Val.i1 b))).type_ = FlowValueType.BOOLEAN ∧
      (emitNativeValue (some (Val.i1 b))).number_ = (if b then 1 else 0)) ∧
    (∀ n : Nat, (emitNativeValue (some (Val.i64 n))).type_ = FlowValueType.NUMBER ∧
      (emitNativeValue (some (Val.i64 n))).number_ = n) ∧
    (∀ p : List Byte, (emitNativeValue (some (Val.cstring p))).type_ = FlowValueType.STRING ∧
      (emitNativeValue (some (Val.cstring p))).buffer_ = Pointer.chars p) ∧
    (∀ (length : Nat) (data : List Byte),
      (emitNativeValue (some (Val.bufferPtr length data))).type_ = FlowValueType.BUFFER ∧
      (emitNativeValue (some (Val.bufferPtr length data))).number_ = length ∧
      (emitNativeValue (some (Val.bufferPtr length data))).buffer_ = Pointer.chars data) ∧
    (∀ value : Bool, evalExpr be (Expr.BoolExpr value) w =
      Outcome.value (Val.i64 (if value then 1 else 0)) w ∧
      (emitNativeValue (some (Val.i64 (if value then 1 else 0)))).type_ = FlowValueType.NUMBER ∧
      (emitNativeValue (some (Val.i64 (if value then 1 else 0)))).number_ =
        (if value then 1 else 0)) ∧
    (∀ op ∈ equalityOperators ++ orderingOperators, ∀ a b : Nat,
      ∃ r : Bool, binaryOp be op (Val.i64 a) (Val.i64 b) = some (Val.i1 r)) := by
  refine ⟨fun b => ⟨rfl, rfl⟩, fun n => ⟨rfl, rfl⟩, fun p => ⟨rfl, rfl⟩,
    fun l d => ⟨rfl, rfl, rfl⟩, fun v => ⟨rfl, rfl, rfl⟩, ?_⟩
  intro op hop a b
  simp only [equalityOperators, orderingOperators, List.cons_append, List.nil_append,
    List.mem_cons, List.mem_singleton, List.not_mem_nil, or_false] at hop
  rcases hop with rfl | rfl | rfl | rfl | rfl | rfl <;> exact ⟨_, rfl⟩

/-- C20, witness: the marshalled result of the comparison `1 == 1`. -/
theorem C20_witness :
    ∃ r : Bool, binaryOp sampleBackend Operator.Equal (Val.i64 1) (Val.i64 1) = some (Val.i1 r) :=
  (C20_marshalled_kinds sampleBackend (World.mk 0 [])).2.2.2.2.2 Operator.Equal (by decide) 1 1

/-! ### The scope stack -/

theorem ScopeFrame.find_set_self (i : ScopeFrame) (symbol value : Nat) :
    (i.set symbol value).find symbol = some value := by
  simp [ScopeFrame.find, ScopeFrame.set, List.lookup]

theorem ScopeFrame.find_set_ne (i : ScopeFrame) (symbol value other : Nat) (h : other ≠ symbol) :
    (i.set symbol value).find other = i.find other := by
  have hb : (other == symbol) = false := by simpa using h
  simp only [ScopeFrame.find, ScopeFrame.set, List.lookup, hb]
  induction i with
  | nil => rfl
  | cons p i ih =>
    obtain ⟨k, v⟩ := p
    by_cases hk : k = symbol
    · subst hk
      simp only [ne_eq, not_true_eq_false, decide_False, Bool.false_eq_true, not_false_eq_true,
        List.filter_cons_of_neg, List.lookup, hb]
      exact ih
    · simp only [ne_eq, hk, not_false_eq_true, decide_True, List.filter_cons_of_pos, List.lookup]
      split
      · rfl
      · exact ih

theorem Scope.lookup_loop_eq (symbol : Nat) (frames : List ScopeFrame) :
    Scope.lookup.loop symbol frames =
      ((frames.find? (fun i => (i.find symbol).isSome)).bind (fun i => i.find symbol)).getD 0 := by
  induction frames with
  | nil => rfl
  | cons i rest ih =>
    cases hf : i.find symbol with
    | none => simp [Scope.lookup.loop, hf, List.find?, ih]
    | some k => simp [Scope.lookup.loop, hf, List.find?]

theorem Scope.lookup_loop_replace (symbol : Nat) (x x' : ScopeFrame) (post : List ScopeFrame)
    (hx : x'.find symbol = x.find symbol) (pre : List ScopeFrame) :
    Scope.lookup.loop symbol (pre ++ x' :: post) = Scope.lookup.loop symbol (pre ++ x :: post) := by
  induction pre with
  | nil => simp [Scope.lookup.loop, hx]
  | cons i pre ih => simp [Scope.lookup.loop, ih]

theorem Scope.lookup_loop_append_none (symbol : Nat) (rest : List ScopeFrame)
    (pre : List ScopeFrame) (h : ∀ i ∈ pre, i.find symbol = none) :
    Scope.lookup.loop symbol (pre ++ rest) = Scope.lookup.loop symbol rest := by
  induction pre with
  | nil => rfl
  | cons i pre ih =>
    have hi := h i (List.mem_cons_self _ _)
    simp only [List.cons_append, Scope.lookup.loop, hi]
    exact ih (fun j hj => h j (List.mem_cons_of_mem _ hj))

theorem Scope.lookup_loop_append_some (symbol : Nat) (rest rest' : List ScopeFrame)
    (pre : List ScopeFrame) (h : ∃ i ∈ pre, (i.find symbol).isSome = true) :
    Scope.lookup.loop symbol (pre ++ rest) = Scope.lookup.loop symbol (pre ++ rest') := by
  induction pre with
  | nil => simp at h
  | cons i pre ih =>
    cases hf : i.find symbol with
    | some k => simp [Scope.lookup.loop, hf]
    | none =>
      simp only [List.cons_append, Scope.lookup.loop, hf]
      apply ih
      obtain ⟨j, hj, hs⟩ := h
      rcases List.mem_cons.mp hj with rfl | hj
      · simp [hf] at hs
      · exact ⟨j, hj, hs⟩

/-- C28: on a non-empty scope stack, `lookup(s)` is the value bound to `s` in
    the first frame from the top that binds `s`, and `NULL` when none does;
    `insert(s, v)` changes the top frame only, and there the binding of `s`
    only, after which `lookup(s) = v`; `insertGlobal(s, v)` changes the bottom
    frame only, after which `lookup(s) = v` unless a frame above the bottom one
    binds `s`, in which case `lookup(s)` is what it was; neither changes the
    `lookup` of another symbol. -/
theorem C28_scope_stack (s : Scope) (symbol value : Nat) (h : s.scope_ ≠ []) :
    s.lookup symbol =
      ((s.scope_.find? (fun i => (i.find symbol).isSome)).bind
        (fun i => i.find symbol)).getD 0 ∧
    (∃ front rest s', s.scope_ = front :: rest ∧
      s.insert symbol value = some s' ∧
      s'.scope_ = front.set symbol value :: rest ∧
      (∀ other, other ≠ symbol → (front.set symbol value).find other = front.find other) ∧
      s'.lookup symbol = value ∧
      (∀ other, other ≠ symbol → s'.lookup other = s.lookup other)) ∧
    (∃ above back s', s.scope_ = above ++ [back] ∧
      s.insertGlobal symbol value = some s' ∧
      s'.scope_ = above ++ [back.set symbol value] ∧
      (∀ other, other ≠ symbol → (back.set symbol value).find other = back.find other) ∧
      ((∀ i ∈ above, i.find symbol = none) → s'.lookup symbol = value) ∧
      ((∃ i ∈ above, (i.find symbol).isSome = true) → s'.lookup symbol = s.lookup symbol) ∧
      (∀ other, other ≠ symbol → s'.lookup other = s.lookup other)) := by
  obtain ⟨frames⟩ := s
  simp only at h
  refine ⟨Scope.lookup_loop_eq symbol frames, ?_, ?_⟩
  · obtain ⟨front, rest, rfl⟩ := List.exists_cons_of_ne_nil h
    refine ⟨front, rest, _, rfl, rfl, rfl, fun other ho => ScopeFrame.find_set_ne _ _ _ _ ho,
      ?_, ?_⟩
    · simp [Scope.lookup, Scope.lookup.loop, ScopeFrame.find_set_self]
    · intro other ho
      exact Scope.lookup_loop_replace other front _ rest (ScopeFrame.find_set_ne _ _ _ _ ho) []
  · obtain ⟨above, back, rfl⟩ : ∃ above back, frames = above ++ [back] :=
      ⟨frames.dropLast, frames.getLast h, (List.dropLast_append_getLast h).symm⟩
    refine ⟨above, back, { scope_ := above ++ [back.set symbol value] }, rfl, ?_, rfl,
      fun other ho => ScopeFrame.find_set_ne _ _ _ _ ho, ?_, ?_, ?_⟩
    · simp [Scope.insertGlobal]
    · intro hn
      simp only [Scope.lookup]
      rw [Scope.lookup_loop_append_none symbol _ above hn]
      simp [Scope.lookup.loop, ScopeFrame.find_set_self]
    · intro hs
      exact Scope.lookup_loop_append_some symbol _ _ above hs
    · intro other ho
      exact Scope.lookup_loop_replace other back _ [] (ScopeFrame.find_set_ne _ _ _ _ ho) above

/-- C28, witness: the sample stack, where the function frame and the global
    frame both bind symbol 7; after `insertGlobal(7, 99)` the lookup of 7 is
    still the 70 of the function frame, after `insert(7, 99)` it is 99. -/
theorem C28_witness :
    sampleScope.scope_ ≠ [] ∧
    sampleScope.lookup 7 =
      ((sampleScope.scope_.find? (fun i => (i.find 7).isSome)).bind
        (fun i => i.find 7)).getD 0 ∧
    sampleScope.lookup 7 = 70 ∧
    (sampleScope.insert 7 99).map (fun s => (s.scope_, s.lookup 7, s.lookup 8)) =
      some ([[(7, 99)], [(7, 71), (8, 80)]], 99, 80) ∧
    (sampleScope.insertGlobal 7 99).map (fun s => (s.scope_, s.lookup 7, s.lookup 8)) =
      some ([[(7, 70)], [(7, 99), (8, 80)]], 70, 80) ∧
    (sampleScope.insertGlobal 9 99).map (fun s => s.lookup 9) = some 99 ∧
    sampleScope.lookup 5 = 0 :=
  ⟨by decide, (C28_scope_stack sampleScope 7 99 (by decide)).1, by decide, by decide, by decide,
    by decide, by decide⟩

/-! ### The ABI value record type -/

/-- C21, counterexample: the struct type that `reinitialize()` declares is
    packed, so `number` is at byte offset 4 and the buffer pointer at byte
    offset 12, not at 8 and 16. -/
theorem C21_packed_offsets_not_8_16 :
    valueType_.packed = true ∧
    (structLayout valueType_).1 = [0, 4, 12] ∧
    (structLayout valueType_).1 ≠ [0, 8, 16] := by
  decide

/-- C21, as amended: with the packing flag the code passes (`true`), the
    record type `{i32 kind, i64 number, i8* buffer}` places kind at byte offset
    0, number at byte offset 4 and the buffer pointer at byte offset 12, and
    has size 20, on a 64-bit target; the offsets 0, 8 and 16 (size 24) are
    those of the same struct without the packing flag. -/
theorem C21_value_record_layout :
    valueType_ = { elts := [ElementType.int32Type, ElementType.int64Type,
      ElementType.int8PtrType], packed := true } ∧
    structLayout valueType_ = ([0, 4, 12], 20) ∧
    structLayout { valueType_ with packed := false } = ([0, 8, 16], 24) := by
  decide

/-! ### The emitted comparator and the loop of the spec -/

/-- C24, the code at the failing input: for `len1 = 1`, `buf1 = "b"`,
    `len2 = 2`, `buf2 = "aa"` the emitted comparator stops in `loop.cmp1`,
    because `1 & 2 = 0`, and returns `len1 - len2 = -1` without looking at a
    character (so for any buffers), while the loop that stops when a length is
    zero compares `b` with `a` and returns `1`.  For equal lengths such as
    `"ab"` and `"aC"` the two agree. -/
theorem C24_comparator_stops_on_bitwise_and :
    (∀ buf1 buf2 : List Byte, emitCmpString 1 buf1 2 buf2 = sub64 1 2) ∧
    toSigned64 (emitCmpString 1 [98] 2 [97, 97]) = -1 ∧
    toSigned64 (cmpStringReference 1 [98] 2 [97, 97]) = 1 ∧
    emitCmpString 1 [98] 2 [97, 97] ≠ cmpStringReference 1 [98] 2 [97, 97] ∧
    emitCmpString 2 [97, 98] 2 [97, 67] = cmpStringReference 2 [97, 98] 2 [97, 67] := by
  refine ⟨fun buf1 buf2 => ?_, by decide, by decide, by decide, by decide⟩
  simp [emitCmpString]

/-! ### The optimisation level and the pass manager -/

/-- C22: for every integer `n`, on a runner whose engine exists,
    `setOptimizationLevel(n)` returns and stores `min(max(n, 0), 4)`, which
    `optimizationLevel()` returns: `n` for `0 <= n <= 4`, `0` for `n < 0`, `4`
    for `n > 4`. -/
theorem C22_optimization_level_clamped (s : FlowRunner) (n : Int)
    (h : s.executionEngine_ = true) :
    ∃ s', setOptimizationLevel n s = some s' ∧
      optimizationLevel s' = min (max n 0) 4 ∧
      (0 ≤ n → n ≤ 4 → optimizationLevel s' = n) ∧
      (n < 0 → optimizationLevel s' = 0) ∧
      (4 < n → optimizationLevel s' = 4) := by
  have hl : ∀ s', setOptimizationLevel n s = some s' → optimizationLevel s' = min (max n 0) 4 := by
    intro s' hs
    simp only [setOptimizationLevel, h, Bool.true_eq_false, if_false] at hs
    split at hs <;> (cases hs; rfl)
  have hex : ∃ s', setOptimizationLevel n s = some s' := by
    simp only [setOptimizationLevel, h, Bool.true_eq_false, if_false]
    split <;> exact ⟨_, rfl⟩
  obtain ⟨s', hs⟩ := hex
  refine ⟨s', hs, hl s' hs, ?_, ?_, ?_⟩ <;> intros <;> rw [hl s' hs] <;> omega

/-- C22, witness: `setOptimizationLevel(7)` on a fresh runner stores 4. -/
theorem C22_witness :
    ∃ s', setOptimizationLevel 7 freshRunner = some s' ∧
      optimizationLevel s' = min (max 7 0) 4 ∧
      (0 ≤ (7 : Int) → (7 : Int) ≤ 4 → optimizationLevel s' = 7) ∧
      ((7 : Int) < 0 → optimizationLevel s' = 0) ∧
      (4 < (7 : Int) → optimizationLevel s' = 4) :=
  C22_optimization_level_clamped freshRunner 7 rfl

/-- C26, counterexample: after `setOptimizationLevel(0)` on a fresh runner the
    pass manager is not `NULL`; it holds the target-data pass. -/
theorem C26_pass_manager_present_at_level_0 :
    (setOptimizationLevel 0 freshRunner).map (fun s => (s.optimizationLevel_, s.functionPassMgr_)) =
      some (0, some [Pass.TargetData]) ∧
    (setOptimizationLevel 0 freshRunner).map (fun s => s.functionPassMgr_.isSome) = some true := by
  decide

/-- C26, as amended: on a runner whose engine exists, `setOptimizationLevel(n)`
    always leaves a pass manager (`functionPassMgr_` is not `NULL`) that holds
    the target-data pass, followed by the standard function passes of the
    clamped level exactly when that level is not zero: for `n <= 0` the pass
    manager holds the target-data pass only, for `1 <= n <= 4` the standard
    function passes of level `n` as well.  `functionPassMgr_` is `NULL` after
    construction and after `clear()`. -/
theorem C26_pass_manager_contents (s : FlowRunner) (n : Int) (h : s.executionEngine_ = true) :
    (∃ s', setOptimizationLevel n s = some s' ∧
      s'.functionPassMgr_ = some (Pass.TargetData ::
        (if min (max n 0) 4 = 0 then [] else [Pass.StandardFunctionPasses (min (max n 0) 4)])) ∧
      (n ≤ 0 → s'.functionPassMgr_ = some [Pass.TargetData]) ∧
      (1 ≤ n → n ≤ 4 →
        s'.functionPassMgr_ = some [Pass.TargetData, Pass.StandardFunctionPasses n])) ∧
    (∀ engineCreates s0, FlowRunner.new engineCreates = some s0 → s0.functionPassMgr_ = none) ∧
    (∀ s1, clear s = some s1 → s1.functionPassMgr_ = none) := by
  refine ⟨?_, ?_, ?_⟩
  · have hex : ∃ s', setOptimizationLevel n s = some s' ∧
        s'.functionPassMgr_ = some (Pass.TargetData ::
          (if min (max n 0) 4 = 0 then [] else [Pass.StandardFunctionPasses (min (max n 0) 4)])) := by
      simp only [setOptimizationLevel, h, Bool.true_eq_false, if_false]
      by_cases hz : min (max n 0) 4 = 0
      · simp [hz]
      · simp [hz]
    obtain ⟨s', hs, hp⟩ := hex
    refine ⟨s', hs, hp, ?_, ?_⟩
    · intro hn
      have hz : min (max n 0) 4 = 0 := by omega
      rw [hp, hz]; rfl
    · intro h1 h4
      have hz : min (max n 0) 4 = n := by omega
      have hne : n ≠ 0 := by omega
      rw [hp, hz]; simp [hne]
  · intro engineCreates s0 h0
    cases engineCreates <;> simp [FlowRunner.new, reinitialize] at h0 <;> subst h0 <;> rfl
  · intro s1 h1
    simp only [clear] at h1
    split at h1
    · cases h1
    · cases h1; rfl

/-- C26, witness: `setOptimizationLevel(2)` on a fresh runner. -/
theorem C26_witness :
    (setOptimizationLevel 2 freshRunner).map (fun s => s.functionPassMgr_) =
      some (some [Pass.TargetData, Pass.StandardFunctionPasses 2]) ∧
    (setOptimizationLevel (-3) freshRunner).map (fun s => s.functionPassMgr_) =
      some (some [Pass.TargetData]) := by
  obtain ⟨s', hs, _, _, h2⟩ := (C26_pass_manager_contents freshRunner 2 rfl).1
  obtain ⟨s'', hs', _, h3, _⟩ := (C26_pass_manager_contents freshRunner (-3) rfl).1
  rw [hs, hs']
  exact ⟨congrArg some (h2 (by decide) (by decide)), congrArg some (h3 (by decide))⟩

/-! ### Handlers of the unit -/

theorem getHandlerList_loop_eq (members : List Symbol) :
    ∀ result, getHandlerList.loop members result = result ++ members.filterMap Symbol.asHandler := by
  induction members with
  | nil => intro result; simp [getHandlerList.loop]
  | cons sym rest ih =>
    intro result
    rcases sym with fn | ⟨name, value⟩
    · cases hh : fn.isHandler <;> simp [getHandlerList.loop, Symbol.asHandler, hh, ih]
    · simp [getHandlerList.loop, Symbol.asHandler, ih]

theorem findHandler_loop_none (name : String) (members : List Symbol) :
    findHandler.loop name members = none ↔
      ∀ fn, Symbol.function fn ∈ members → fn.isHandler = true → fn.name ≠ name := by
  induction members with
  | nil => simp [findHandler.loop]
  | cons sym rest ih =>
    rcases sym with fn | ⟨n, v⟩
    rotate_left
    · simp [findHandler.loop, ih]
    · cases hh : fn.isHandler with
      | false =>
        simp only [findHandler.loop, hh, Bool.not_false, if_true, ih, List.mem_cons,
          Symbol.function.injEq]
        constructor
        · intro h g hg hgh
          rcases hg with rfl | hg
          · rw [hh] at hgh; cases hgh
          · exact h g hg hgh
        · intro h g hg hgh
          exact h g (Or.inr hg) hgh
      | true =>
        by_cases hn : fn.name = name
        · simp only [findHandler.loop, hh, Bool.not_true, Bool.false_eq_true, if_false, hn, ne_eq,
            not_true_eq_false, reduceCtorEq, List.mem_cons, Symbol.function.injEq, false_iff,
            not_forall]
          exact ⟨fn, Or.inl rfl, hh, fun h => h hn⟩
        · simp only [findHandler.loop, hh, Bool.not_true, Bool.false_eq_true, if_false, ne_eq, hn,
            not_false_eq_true, if_true, ih, List.mem_cons, Symbol.function.injEq]
          constructor
          · intro h g hg hgh
            rcases hg with rfl | hg
            · exact hn
            · exact h g hg hgh
          · intro h g hg hgh
            exact h g (Or.inr hg) hgh

theorem findHandler_loop_some (name : String) (members : List Symbol) (fn : Function) :
    findHandler.loop name members = some fn →
      fn.isHandler = true ∧ fn.name = name ∧
      ∃ pre post, members = pre ++ Symbol.function fn :: post ∧
        ∀ g, Symbol.function g ∈ pre → g.isHandler = true → g.name ≠ name := by
  induction members with
  | nil => intro h; simp [findHandler.loop] at h
  | cons sym rest ih =>
    intro h
    have skip : findHandler.loop name rest = some fn →
        (∀ g, sym = Symbol.function g → g.isHandler = true → g.name ≠ name) →
        fn.isHandler = true ∧ fn.name = name ∧
        ∃ pre post, sym :: rest = pre ++ Symbol.function fn :: post ∧
          ∀ g, Symbol.function g ∈ pre → g.isHandler = true → g.name ≠ name := by
      intro hr hs
      obtain ⟨h1, h2, pre, post, h3, h4⟩ := ih hr
      refine ⟨h1, h2, sym :: pre, post, by rw [h3]; rfl, ?_⟩
      intro g hg hgh
      rcases List.mem_cons.mp hg with rfl | hg
      · exact hs g rfl hgh
      · exact h4 g hg hgh
    rcases sym with f | ⟨n, v⟩
    rotate_left
    · simp only [findHandler.loop] at h
      exact skip h (fun g hg => by cases hg)
    · cases hh : f.isHandler with
      | false =>
        simp only [findHandler.loop, hh, Bool.not_false, if_true] at h
        refine skip h (fun g hg hgh => ?_)
        cases hg
        rw [hh] at hgh; cases hgh
      | true =>
        by_cases hn : f.name = name
        · simp only [findHandler.loop, hh, Bool.not_true, Bool.false_eq_true, if_false, hn, ne_eq,
            not_true_eq_false, Option.some.injEq] at h
          subst h
          exact ⟨hh, hn, [], rest, rfl, fun g hg => by cases hg⟩
        · simp only [findHandler.loop, hh, Bool.not_true, Bool.false_eq_true, if_false, ne_eq, hn,
            not_false_eq_true, if_true] at h
          refine skip h (fun g hg _ => ?_)
          cases hg
          exact hn

/-- C23: on a runner that holds a unit, `getHandlerList()` is the list of the
    unit's symbols that are functions and handlers, each once, in unit order;
    `findHandler(name)` returns `nullptr` exactly when no symbol of the unit is
    a handler function of that name, and otherwise the first such symbol in
    unit order, which is an element of `getHandlerList()`. -/
theorem C23_handler_lookup (s : FlowRunner) (unit : Unit) (name : String)
    (h : s.unit_ = some unit) :
    getHandlerList s = some (unit.members.filterMap Symbol.asHandler) ∧
    ∃ r, findHandler s name = some r ∧
      (r = none ↔
        ∀ fn, Symbol.function fn ∈ unit.members → fn.isHandler = true → fn.name ≠ name) ∧
      (∀ fn, r = some fn →
        fn ∈ unit.members.filterMap Symbol.asHandler ∧
        fn.isHandler = true ∧ fn.name = name ∧
        ∃ pre post, unit.members = pre ++ Symbol.function fn :: post ∧
          ∀ g, Symbol.function g ∈ pre → g.isHandler = true → g.name ≠ name) := by
  refine ⟨?_, findHandler.loop name unit.members, ?_, findHandler_loop_none name unit.members, ?_⟩
  · simp [getHandlerList, h, getHandlerList_loop_eq]
  · simp [findHandler, h]
  · intro fn hfn
    obtain ⟨h1, h2, pre, post, h3, h4⟩ := findHandler_loop_some name unit.members fn hfn
    refine ⟨?_, h1, h2, pre, post, h3, h4⟩
    rw [List.mem_filterMap]
    exact ⟨Symbol.function fn, by rw [h3]; simp, by simp [Symbol.asHandler, h1]⟩

/-- C23, witness: in the unit with the handlers `a`, `b` and a second `a`,
    `findHandler("a")` is the first `a`, and `findHandler("f")` is `nullptr`,
    `f` being a function that is not a handler. -/
theorem C23_witness :
    getHandlerList { freshRunner with unit_ := some handlersUnit } =
      some (handlersUnit.members.filterMap Symbol.asHandler) ∧
    (getHandlerList { freshRunner with unit_ := some handlersUnit }).map
      (fun l => l.map Function.name) = some ["a", "b", "a"] ∧
    (findHandler { freshRunner with unit_ := some handlersUnit } "a").map
      (fun r => r.map (fun fn => (fn.name, fn.body.isSome, fn.body.map
        (fun b => match b with | Stmt.CompoundStmt l => l.length | _ => 0)))) =
      some (some ("a", true, some 0)) ∧
    (findHandler { freshRunner with unit_ := some handlersUnit } "f").map Option.isSome =
      some false :=
  ⟨(C23_handler_lookup { freshRunner with unit_ := some handlersUnit } handlersUnit "a" rfl).1,
    by decide, by decide, by decide⟩

/-! ### Logical operators and conversion to boolean -/

/-- C25: in `a && b` and in `a xor b` the code of `b` runs after the code of
    `a`, whatever value `a` has: once `a` has a value, the outcome of the
    expression is the outcome of `b` run in the state `a` left behind, and
    when `b` has a value too, the value of the expression is
    `toBool(a) AND toBool(b)`, respectively `toBool(a) XOR toBool(b)`, in the
    state `b` left behind. -/
theorem C25_and_xor_evaluate_both {σ : Type} (be : Backend σ) (a b : Expr) (w w1 : World σ)
    (va : Val) (hl : evalExpr be a w = Outcome.value va w1) :
    (∀ op ∈ [Operator.And, Operator.Xor],
      (evalExpr be b w1 = Outcome.error → evalExpr be (Expr.BinaryExpr op a b) w = Outcome.error) ∧
      (∀ w2, evalExpr be b w1 = Outcome.done w2 →
        evalExpr be (Expr.BinaryExpr op a b) w = Outcome.done w2)) ∧
    (∀ vb w2 l r, evalExpr be b w1 = Outcome.value vb w2 → toBool va = some l →
      toBool vb = some r →
      evalExpr be (Expr.BinaryExpr Operator.And a b) w = Outcome.value (Val.i1 (l && r)) w2 ∧
      evalExpr be (Expr.BinaryExpr Operator.Xor a b) w = Outcome.value (Val.i1 (xor l r)) w2) := by
  refine ⟨?_, ?_⟩
  · intro op hop
    simp only [List.mem_cons, List.mem_singleton, List.not_mem_nil, or_false] at hop
    rcases hop with rfl | rfl
    · refine ⟨fun hr => ?_, fun w2 hr => ?_⟩ <;> simp only [evalExpr, hl, hr]
    · refine ⟨fun hr => ?_, fun w2 hr => ?_⟩ <;> simp only [evalExpr, hl, hr]
  · intro vb w2 l r hr hbl hbr
    constructor <;> simp only [evalExpr, hl, hr, hbl, hbr]

/-- C25, witness: in `false && crash()` the native function `crash` is called
    although the left operand is false; the value is false. -/
theorem C25_witness :
    evalExpr sampleBackend (Expr.BinaryExpr Operator.And (Expr.BoolExpr false)
      (Expr.CallExpr (Function.mk "crash" false none) [] false)) (World.mk 0 []) =
      Outcome.value (Val.i1 (false && false))
        (World.mk 1 [Event.native 2 CallbackType.FUNCTION []
          { type_ := FlowValueType.BOOLEAN, number_ := 0, buffer_ := Pointer.null }]) ∧
    evalExpr sampleBackend (Expr.BinaryExpr Operator.Xor (Expr.BoolExpr false)
      (Expr.CallExpr (Function.mk "crash" false none) [] false)) (World.mk 0 []) =
      Outcome.value (Val.i1 (xor false false))
        (World.mk 1 [Event.native 2 CallbackType.FUNCTION []
          { type_ := FlowValueType.BOOLEAN, number_ := 0, buffer_ := Pointer.null }]) :=
  (C25_and_xor_evaluate_both sampleBackend (Expr.BoolExpr false)
    (Expr.CallExpr (Function.mk "crash" false none) [] false) (World.mk 0 []) (World.mk 0 [])
    (Val.i64 0) rfl).2 (Val.i64 0) _ false false rfl rfl rfl

/-- C29, the code at the failing input: for the string `ab` and the number
    `-1`, `s < n` is true (the lengths are compared unsigned, `icmp ult`) while
    `s <= n` is false (compared signed, `icmp sle`), and `s >= n` is true
    (`icmp sge`) while `s > n` (`icmp ugt`) and `s == n` are false. -/
theorem C29_string_int_relations_disagree :
    binaryOp sampleBackend Operator.Less (Val.cstring [97, 98]) (Val.i64 (2 ^ 64 - 1)) =
      some (Val.i1 true) ∧
    binaryOp sampleBackend Operator.Equal (Val.cstring [97, 98]) (Val.i64 (2 ^ 64 - 1)) =
      some (Val.i1 false) ∧
    binaryOp sampleBackend Operator.LessOrEqual (Val.cstring [97, 98]) (Val.i64 (2 ^ 64 - 1)) =
      some (Val.i1 false) ∧
    binaryOp sampleBackend Operator.Greater (Val.cstring [97, 98]) (Val.i64 (2 ^ 64 - 1)) =
      some (Val.i1 false) ∧
    binaryOp sampleBackend Operator.GreaterOrEqual (Val.cstring [97, 98]) (Val.i64 (2 ^ 64 - 1)) =
      some (Val.i1 true) ∧
    toSigned64 (2 ^ 64 - 1) = -1 := by
  decide

/-- C30, counterexample: unary `!` accepts an array (`![1]` is false), but
    `toBool` of an array is not defined: it ends in
    `reportError("toBool: cast of unknown type ignored")`. -/
theorem C30_toBool_rejects_array :
    unaryOp Operator.Not (Val.array [FlowValue.ofNumber 1]) = some (Val.i1 false) ∧
    toBool (Val.array [FlowValue.ofNumber 1]) = none ∧
    visitUnaryOp Operator.Not Ty.array freshRunner = some (setValue freshRunner Ty.i1) ∧
    toBoolTy (some Ty.array) = none := by
  refine ⟨by decide, by decide, rfl, by decide⟩

/-- C30, as amended: for every value `v` that is an integer (`i1`, `i32`,
    `i64`), a C-string or a buffer, `toBool(v)` is defined and the value of
    `!v` is its negation; for an array, `!v` is defined (true iff the array is
    empty) and `toBool(v)` is not. -/
theorem C30_not_negates_toBool (v : Val) :
    (v.isIntegerOrString = true →
      ∃ b, toBool v = some b ∧ unaryOp Operator.Not v = some (Val.i1 (!b))) ∧
    (∀ elems, v = Val.array elems →
      toBool v = none ∧
      unaryOp Operator.Not v = some (Val.i1 (decide (arraylenOf elems = 0)))) := by
  refine ⟨?_, ?_⟩
  · intro h
    cases v with
    | i1 b => exact ⟨b, rfl, by cases b <;> rfl⟩
    | i32 n => exact ⟨_, rfl, by simp [unaryOp]⟩
    | i64 n => exact ⟨_, rfl, by simp [unaryOp]⟩
    | cstring p => exact ⟨_, rfl, by simp [unaryOp]⟩
    | bufferPtr length data => exact ⟨_, rfl, by simp [unaryOp]⟩
    | array elems => simp [Val.isIntegerOrString, Val.isIntegerTy, Val.toStrVal] at h
    | regexp addr => simp [Val.isIntegerOrString, Val.isIntegerTy, Val.toStrVal] at h
    | ipaddr addr => simp [Val.isIntegerOrString, Val.isIntegerTy, Val.toStrVal] at h
    | void => simp [Val.isIntegerOrString, Val.isIntegerTy, Val.toStrVal] at h
    | function addr name => simp [Val.isIntegerOrString, Val.isIntegerTy, Val.toStrVal] at h
    | null => simp [Val.isIntegerOrString, Val.isIntegerTy, Val.toStrVal] at h
  · rintro elems rfl
    exact ⟨rfl, rfl⟩

/-- C30, witness: `!"" ` is true and `toBool("")` is false. -/
theorem C30_witness :
    ∃ b, toBool (Val.cstring []) = some b ∧
      unaryOp Operator.Not (Val.cstring []) = some (Val.i1 (!b)) :=
  (C30_not_negates_toBool (Val.cstring [])).1 rfl


/-! ### Code generation and the initialiser function -/

theorem globalsOf_append (a b : List Symbol) : globalsOf (a ++ b) = globalsOf a ++ globalsOf b := by
  simp [globalsOf, List.filterMap_append]

theorem Grows.refl (G : List String) (s : FlowRunner) : Grows G s s := by
  refine ⟨rfl, [], ?_, by simp⟩
  cases h : s.initializerFn_ <;> simp

theorem Grows.trans {G : List String} {s s1 s2 : FlowRunner} (h1 : Grows G s s1)
    (h2 : Grows G s1 s2) : Grows G s s2 := by
  obtain ⟨r1, a1, f1, g1⟩ := h1
  obtain ⟨r2, a2, f2, g2⟩ := h2
  refine ⟨r2.trans r1, a1 ++ a2, ?_, ?_⟩
  · rw [f2, f1]
    cases s.initializerFn_ <;> simp
  · intro n hn
    rcases List.mem_append.1 hn with h | h
    · exact g1 n h
    · exact g2 n h

theorem Grows.of_fields {G : List String} {s s' : FlowRunner}
    (h1 : s'.initializerRuns = s.initializerRuns) (h2 : s'.initializerFn_ = s.initializerFn_) :
    Grows G s s' := by
  refine ⟨h1, [], ?_, by simp⟩
  rw [h2]
  cases s.initializerFn_ <;> simp

theorem GrowsTo.chain {G : List String} {s s1 : FlowRunner} {r : Option FlowRunner}
    (h1 : Grows G s s1) (h2 : GrowsTo G s1 r) : GrowsTo G s r := by
  cases r with
  | none => trivial
  | some s2 => exact h1.trans h2

theorem GrowsTo.of_eq {G : List String} {s s1 : FlowRunner} {r : Option FlowRunner}
    (h : GrowsTo G s r) (e : r = some s1) : Grows G s s1 := by
  subst e; exact h

theorem visitUnaryOp_grows (G : List String) (op : Operator) (ty : Ty) (s : FlowRunner) :
    GrowsTo G s (visitUnaryOp op ty s) := by
  unfold visitUnaryOp
  repeat' split
  all_goals first
    | trivial
    | exact Grows.of_fields rfl rfl

theorem emitNativeReturnTy_grows (G : List String) (native : Callback) (inHandler : Bool)
    (s : FlowRunner) : GrowsTo G s (emitNativeReturnTy native inHandler s) := by
  unfold emitNativeReturnTy
  repeat' split
  all_goals first
    | trivial
    | exact Grows.of_fields rfl rfl

theorem option_bind_grows {α : Type} (G : List String) (s : FlowRunner) (o : Option α)
    (f : α → Option FlowRunner) (h : ∀ a, GrowsTo G s (f a)) : GrowsTo G s (o.bind f) := by
  cases o with
  | none => trivial
  | some a => exact h a

theorem visitBinaryOp_grows (G : List String) (op : Operator) (left right : Option Ty)
    (s : FlowRunner) : GrowsTo G s (visitBinaryOp op left right s) := by
  unfold visitBinaryOp
  split
  all_goals
    try simp only [bind, pure]
    repeat' first
      | (apply option_bind_grows; intro _)
      | split
    all_goals first
      | trivial
      | exact Grows.of_fields rfl rfl

mutual
theorem codegenExpr_grows {σ : Type} (be : Backend σ) (G : List String) :
    ∀ (inHandler : Bool) (e : Expr) (s : FlowRunner),
      (∀ n ∈ globalsOf (Expr.symbols e), n ∈ G) → GrowsTo G s (codegenExpr be inHandler e s)
  | _, .BoolExpr _, s, _ => by simp only [codegenExpr]; exact Grows.of_fields rfl rfl
  | _, .NumberExpr _, s, _ => by simp only [codegenExpr]; exact Grows.of_fields rfl rfl
  | _, .StringExpr _, s, _ => by simp only [codegenExpr]; exact Grows.of_fields rfl rfl
  | _, .RegExpExpr _, s, _ => by simp only [codegenExpr]; exact Grows.of_fields rfl rfl
  | _, .IPAddressExpr _, s, _ => by simp only [codegenExpr]; exact Grows.of_fields rfl rfl
  | inHandler, .VariableExpr var, s, hG => by
    have ih := codegenVariable_grows be G inHandler var s (by simpa only [Expr.symbols] using hG)
    simp only [codegenExpr]
    split
    · trivial
    · rename_i s1 h1
      have k1 := ih.of_eq h1
      repeat' split
      all_goals first
        | trivial
        | exact k1
        | exact k1.trans (Grows.of_fields rfl rfl)
  | inHandler, .FunctionRefExpr function, s, hG => by
    have ih := codegenFunction_grows be G function s (by simpa only [Expr.symbols] using hG)
    simp only [codegenExpr]
    split
    · exact Grows.of_fields rfl rfl
    · exact ih
  | inHandler, .UnaryExpr op subExpr, s, hG => by
    have ih := codegenExpr_grows be G inHandler subExpr s (by simpa only [Expr.symbols] using hG)
    simp only [codegenExpr]
    split
    · trivial
    · rename_i s1 h1
      have k1 := ih.of_eq h1
      split
      · exact k1
      · exact GrowsTo.chain k1 (visitUnaryOp_grows G _ _ s1)
  | inHandler, .BinaryExpr op leftExpr rightExpr, s, hG => by
    simp only [Expr.symbols, globalsOf_append, List.mem_append] at hG
    have ihl := codegenExpr_grows be G inHandler leftExpr
      { s with requestingLvalue_ := decide (op = Operator.Assign) } (fun n hn => hG n (Or.inl hn))
    have k0 : Grows G s { s with requestingLvalue_ := decide (op = Operator.Assign) } :=
      Grows.of_fields rfl rfl
    simp only [codegenExpr]
    split
    · trivial
    · rename_i s1 h1
      have k1 := k0.trans (ihl.of_eq h1)
      have ihr := codegenExpr_grows be G inHandler rightExpr s1 (fun n hn => hG n (Or.inr hn))
      have ihr2 := codegenExpr_grows be G inHandler rightExpr
        { s1 with requestingLvalue_ := false } (fun n hn => hG n (Or.inr hn))
      have k1b : Grows G s { s1 with requestingLvalue_ := false } :=
        k1.trans (Grows.of_fields rfl rfl)
      split
      all_goals first
        | (split
           · trivial
           · split
             · trivial
             · rename_i s2 h2
               have k2 := k1.trans (ihr.of_eq h2)
               split
               · trivial
               · exact k2.trans (Grows.of_fields rfl rfl))
        | (split
           · trivial
           · rename_i s2 h2
             exact GrowsTo.chain (k1b.trans (ihr2.of_eq h2)) (visitBinaryOp_grows G _ _ _ s2))
  | inHandler, .ListExpr elems, s, hG => by
    have ih := codegenArgs_grows be G inHandler true elems s (by simpa only [Expr.symbols] using hG)
    simp only [codegenExpr]
    split
    · trivial
    · rename_i s1 h1
      exact (ih.of_eq h1).trans (Grows.of_fields rfl rfl)
  | inHandler, .CallExpr callee args isAssignment, s, hG => by
    simp only [Expr.symbols, globalsOf_append, List.mem_append] at hG
    have hGa : ∀ n ∈ globalsOf (Expr.symbolsList args), n ∈ G := fun n hn => hG n (Or.inr hn)
    have hGf : ∀ n ∈ globalsOf (Function.symbols callee), n ∈ G := fun n hn => hG n (Or.inl hn)
    simp only [codegenExpr]
    split
    · split
      · trivial
      · split
        · have ih := codegenArgs_grows be G inHandler false args s hGa
          split
          · trivial
          · rename_i s1 h1
            have k1 := ih.of_eq h1
            repeat' split
            all_goals first
              | trivial
              | exact k1.trans (Grows.of_fields rfl rfl)
        · split
          · exact Grows.of_fields rfl rfl
          · have ihf := codegenFunction_grows be G callee s hGf
            split
            · trivial
            · rename_i s1 h1
              have k1 := ihf.of_eq h1
              split
              · have ih := codegenArgs_grows be G inHandler false args s1 hGa
                split
                · trivial
                · rename_i s2 h2
                  have k2 := k1.trans (ih.of_eq h2)
                  repeat' split
                  all_goals first
                    | trivial
                    | exact k2.trans (Grows.of_fields rfl rfl)
              · exact k1
    · split
      · exact Grows.of_fields rfl rfl
      · have ih := codegenArgs_grows be G inHandler true args s hGa
        split
        · trivial
        · rename_i s1 h1
          exact GrowsTo.chain (ih.of_eq h1) (emitNativeReturnTy_grows G _ _ s1)
theorem codegenVariable_grows {σ : Type} (be : Backend σ) (G : List String) :
    ∀ (inHandler : Bool) (v : Variable) (s : FlowRunner),
      (∀ n ∈ globalsOf (Variable.symbols v), n ∈ G) →
      GrowsTo G s (codegenVariable be inHandler v s)
  | inHandler, .make addr name parentScope value, s, hG => by
    have hGv : ∀ n ∈ globalsOf (Expr.symbols value), n ∈ G := by
      intro n hn
      apply hG n
      simp only [Variable.symbols, globalsOf, List.filterMap_cons]
      split
      · exact hn
      · exact List.mem_cons_of_mem _ hn
    simp only [codegenVariable]
    split
    · exact Grows.of_fields rfl rfl
    · cases parentScope <;> simp only []
      case absent =>
        split
        · exact Grows.of_fields rfl rfl
        · exact emitNativeReturnTy_grows G _ _ s
      case functionTable =>
        have ih := codegenExpr_grows be G inHandler value s hGv
        split
        · trivial
        · rename_i s1 h1
          have k1 := ih.of_eq h1
          split
          · exact k1
          · trivial
          · exact k1.trans (Grows.of_fields rfl rfl)
      case unitTable =>
        split
        · trivial
        · rename_i code hc
          have ih := codegenExpr_grows be G false value
            { s with initializerFn_ := some (code ++ [name]) } hGv
          have hname : name ∈ G := by
            apply hG name
            simp [Variable.symbols, globalsOf, Variable.parentScope, Variable.name]
          have k0 : Grows G s { s with initializerFn_ := some (code ++ [name]) } := by
            refine ⟨rfl, [name], by simp [hc], ?_⟩
            intro n hn
            simp only [List.mem_singleton] at hn
            subst hn
            exact hname
          split
          · trivial
          · rename_i s1 h1
            exact (k0.trans (ih.of_eq h1)).trans (Grows.of_fields rfl rfl)
theorem codegenArgs_grows {σ : Type} (be : Backend σ) (G : List String) :
    ∀ (inHandler marshal : Bool) (es : List Expr) (s : FlowRunner),
      (∀ n ∈ globalsOf (Expr.symbolsList es), n ∈ G) →
      GrowsTo G s (codegenArgs be inHandler marshal es s)
  | _, _, [], s, _ => by simp only [codegenArgs]; exact Grows.refl G s
  | inHandler, marshal, e :: es, s, hG => by
    simp only [Expr.symbolsList, globalsOf_append, List.mem_append] at hG
    have ih := codegenExpr_grows be G inHandler e s (fun n hn => hG n (Or.inl hn))
    simp only [codegenArgs]
    split
    · trivial
    · rename_i s1 h1
      have kr := GrowsTo.chain (ih.of_eq h1)
        (codegenArgs_grows be G inHandler marshal es s1 (fun n hn => hG n (Or.inr hn)))
      repeat' split
      all_goals first
        | trivial
        | exact kr
theorem codegenFunction_grows {σ : Type} (be : Backend σ) (G : List String) :
    ∀ (f : Function) (s : FlowRunner),
      (∀ n ∈ globalsOf (Function.symbols f), n ∈ G) → GrowsTo G s (codegenFunction be f s)
  | .make addr name isHandler scope none, s, _ => by
    simp only [codegenFunction]
    split
    · exact Grows.refl G s
    · exact Grows.of_fields rfl rfl
  | .make addr name isHandler scope (some body), s, hG => by
    have hG2 : ∀ n, n ∈ globalsOf (Variable.symbolsList scope) ∨
        n ∈ globalsOf (Stmt.symbols body) → n ∈ G := by
      intro n hn
      apply hG n
      simp only [Function.symbols, Stmt.symbolsOption, globalsOf, List.filterMap_cons,
        List.filterMap_append, List.mem_append]
      simpa only [globalsOf] using hn
    have ihs := codegenScope_grows be G isHandler scope
      { s with functions_ := s.functions_ ++ [name], scope_ := [] :: s.scope_ }
      (fun n hn => hG2 n (Or.inl hn))
    have k0 : Grows G s
        { s with functions_ := s.functions_ ++ [name], scope_ := [] :: s.scope_ } :=
      Grows.of_fields rfl rfl
    simp only [codegenFunction]
    split
    · exact Grows.refl G s
    · split
      · trivial
      · rename_i s1 h1
        have k1 := k0.trans (ihs.of_eq h1)
        have ihb := codegenStmt_grows be G isHandler body s1 (fun n hn => hG2 n (Or.inr hn))
        split
        · trivial
        · rename_i s2 h2
          exact (k1.trans (ihb.of_eq h2)).trans (Grows.of_fields rfl rfl)
theorem codegenScope_grows {σ : Type} (be : Backend σ) (G : List String) :
    ∀ (inHandler : Bool) (vs : List Variable) (s : FlowRunner),
      (∀ n ∈ globalsOf (Variable.symbolsList vs), n ∈ G) →
      GrowsTo G s (codegenScope be inHandler vs s)
  | _, [], s, _ => by simp only [codegenScope]; exact Grows.refl G s
  | inHandler, v :: vs, s, hG => by
    simp only [Variable.symbolsList, globalsOf_append, List.mem_append] at hG
    have ih := codegenVariable_grows be G inHandler v s (fun n hn => hG n (Or.inl hn))
    simp only [codegenScope]
    split
    · trivial
    · rename_i s1 h1
      exact GrowsTo.chain (ih.of_eq h1)
        (codegenScope_grows be G inHandler vs s1 (fun n hn => hG n (Or.inr hn)))
theorem codegenStmt_grows {σ : Type} (be : Backend σ) (G : List String) :
    ∀ (inHandler : Bool) (st : Stmt) (s : FlowRunner),
      (∀ n ∈ globalsOf (Stmt.symbols st), n ∈ G) → GrowsTo G s (codegenStmt be inHandler st s)
  | inHandler, .ExprStmt expression, s, hG => by
    simp only [codegenStmt]
    exact codegenExpr_grows be G inHandler expression s (by simpa only [Stmt.symbols] using hG)
  | inHandler, .CompoundStmt stmts, s, hG => by
    have ih := codegenStmts_grows be G inHandler stmts s (by simpa only [Stmt.symbols] using hG)
    simp only [codegenStmt]
    split
    · trivial
    · rename_i s1 h1
      exact (ih.of_eq h1).trans (Grows.of_fields rfl rfl)
  | inHandler, .CondStmt condition thenStmt elseStmt, s, hG => by
    simp only [Stmt.symbols, globalsOf_append, List.mem_append] at hG
    have ihc := codegenExpr_grows be G inHandler condition s
      (fun n hn => hG n (Or.inl (Or.inl hn)))
    simp only [codegenStmt]
    split
    · trivial
    · rename_i s1 h1
      have k1 := ihc.of_eq h1
      split
      · trivial
      · have iht := codegenStmt_grows be G inHandler thenStmt s1
          (fun n hn => hG n (Or.inl (Or.inr hn)))
        split
        · trivial
        · rename_i s2 h2
          exact GrowsTo.chain (k1.trans (iht.of_eq h2))
            (codegenElse_grows be G inHandler elseStmt s2 (fun n hn => hG n (Or.inr hn)))
theorem codegenStmts_grows {σ : Type} (be : Backend σ) (G : List String) :
    ∀ (inHandler : Bool) (sts : List Stmt) (s : FlowRunner),
      (∀ n ∈ globalsOf (Stmt.symbolsList sts), n ∈ G) →
      GrowsTo G s (codegenStmts be inHandler sts s)
  | _, [], s, _ => by simp only [codegenStmts]; exact Grows.refl G s
  | inHandler, st :: rest, s, hG => by
    simp only [Stmt.symbolsList, globalsOf_append, List.mem_append] at hG
    have ih := codegenStmt_grows be G inHandler st s (fun n hn => hG n (Or.inl hn))
    simp only [codegenStmts]
    split
    · trivial
    · rename_i s1 h1
      exact GrowsTo.chain (ih.of_eq h1)
        (codegenStmts_grows be G inHandler rest s1 (fun n hn => hG n (Or.inr hn)))
theorem codegenElse_grows {σ : Type} (be : Backend σ) (G : List String) :
    ∀ (inHandler : Bool) (st : Option Stmt) (s : FlowRunner),
      (∀ n ∈ globalsOf (Stmt.symbolsOption st), n ∈ G) →
      GrowsTo G s (codegenElse be inHandler st s)
  | _, none, s, _ => by simp only [codegenElse]; exact Grows.refl G s
  | inHandler, some st, s, hG => by
    simp only [codegenElse]
    exact codegenStmt_grows be G inHandler st s (by simpa only [Stmt.symbolsOption] using hG)
end

theorem visitMembers_grows {σ : Type} (be : Backend σ) (G : List String) :
    ∀ (members : List Symbol) (s : FlowRunner),
      (∀ n ∈ globalsOf (Unit.functionSymbols { imports := [], members := members }), n ∈ G) →
      GrowsTo G s (visitMembers be members s)
  | [], s, _ => by simp only [visitMembers]; exact Grows.refl G s
  | Symbol.variable _ :: rest, s, hG => by
    simp only [visitMembers]
    exact visitMembers_grows be G rest s (by
      simpa only [Unit.functionSymbols, List.flatMap_cons, List.nil_append] using hG)
  | Symbol.function f :: rest, s, hG => by
    simp only [Unit.functionSymbols, List.flatMap_cons, globalsOf_append, List.mem_append] at hG
    have ih := codegenFunction_grows be G f s (fun n hn => hG n (Or.inl hn))
    have hrest : ∀ n ∈ globalsOf (Unit.functionSymbols { imports := [], members := rest }), n ∈ G :=
      fun n hn => hG n (Or.inr hn)
    simp only [visitMembers]
    split
    · exact GrowsTo.chain (Grows.of_fields rfl rfl) (visitMembers_grows be G rest _ hrest)
    · split
      · trivial
      · rename_i s1 h1
        exact GrowsTo.chain (ih.of_eq h1) (visitMembers_grows be G rest s1 hrest)


/-! ### The initialiser function -/

theorem visitMembers_filter {σ : Type} (be : Backend σ) :
    ∀ (members : List Symbol) (s : FlowRunner),
      visitMembers be members s = visitMembers be (members.filter Symbol.isFunction) s
  | [], s => rfl
  | Symbol.variable _ :: rest, s => by
    simp only [visitMembers, Symbol.isFunction, Bool.false_eq_true, not_false_eq_true,
      List.filter_cons_of_neg]
    exact visitMembers_filter be rest s
  | Symbol.function f :: rest, s => by
    simp only [visitMembers, Symbol.isFunction, List.filter_cons_of_pos]
    split
    · exact visitMembers_filter be rest _
    · split
      · rfl
      · exact visitMembers_filter be rest _

theorem visitUnit_fields {σ : Type} (be : Backend σ) (unit : Unit) (s s' : FlowRunner)
    (h : visitUnit be unit s = some s') :
    (∃ names, s'.initializerFn_ = some names ∧ ∀ n ∈ names, n ∈ unit.referencedGlobals) ∧
    s'.initializerRuns = s.initializerRuns := by
  have hk := visitMembers_grows be unit.referencedGlobals unit.members (emitInitializerHead s)
    (fun n hn => hn)
  simp only [visitUnit] at h
  split at h
  · cases h
  · rename_i s1 h1
    obtain ⟨hr, added, hf, hg⟩ := hk.of_eq h1
    cases h
    refine ⟨⟨added, ?_, hg⟩, hr⟩
    simpa [emitInitializerHead, emitInitializerTail] using hf

theorem reinitialize_runs (engineCreates b : Bool) (s1 s2 : FlowRunner)
    (h : reinitialize engineCreates s1 = some (b, s2)) :
    s2.initializerRuns = s1.initializerRuns := by
  unfold reinitialize at h
  split at h
  · cases h
  · split at h
    · cases h
    · dsimp only at h
      split at h <;>
        (simp only [Option.some.injEq, Prod.mk.injEq] at h
         obtain ⟨_, rfl⟩ := h
         rfl)

/-- C27, counterexample: for the unit `var x = 1; handler main {}`, `open`
    returns true, has generated code for `main` and run the initialiser
    function once, and no initialiser code has been generated into the
    initialiser function, although the unit has the global variable `x`: no
    function refers to it, and `visit(Unit&)` skips it. -/
theorem C27_unreferenced_global_not_initialized :
    (FlowRunner.open_ sampleBackend true (some globalVariableUnit) true freshRunner).map
      (fun r => (r.1, r.2.functions_, r.2.initializerFn_, r.2.initializerRuns)) =
      some (true, ["main"], some [], 1) ∧
    globalVariableUnit.members.filterMap (fun m =>
      match m with
      | Symbol.variable v => some v.name
      | Symbol.function _ => none) = ["x"] := by
  decide

/-- C27, as amended: `visit(Unit&)` generates code for the members of the unit
    that are functions and skips its variables.  The initialiser code of a
    global variable is generated into the initialiser function by
    `visit(Variable&)`, which is entered from `codegen(Symbol*)` when code for a
    reference to the variable is generated and the scope stack does not bind
    the variable: such a reference appends the initialiser of the variable to
    the initialiser function, and a reference to a variable that is bound
    appends nothing.  So after `open` the initialiser function holds
    initialiser code only of global variables that the functions of the unit
    refer to, and a run of `open` that returns true has run the initialiser
    function exactly once, after code generation. -/
theorem C27_initializer_function {σ : Type} (be : Backend σ) (unit : Unit)
    (engineCreates : Bool) (s s' : FlowRunner)
    (h : FlowRunner.open_ be true (some unit) engineCreates s = some (true, s')) :
    (∃ names, s'.initializerFn_ = some names ∧ ∀ n ∈ names, n ∈ unit.referencedGlobals) ∧
    s'.initializerRuns = s.initializerRuns + 1 ∧
    (∀ s0, visitUnit be unit s0 =
      visitUnit be { unit with members := unit.members.filter Symbol.isFunction } s0) ∧
    (∀ v rest s0, visitMembers be (Symbol.variable v :: rest) s0 = visitMembers be rest s0) ∧
    (∀ (inHandler : Bool) (v : Variable) (s0 s1 : FlowRunner) (code : List String),
      v.parentScope = ParentScope.unitTable → s0.initializerFn_ = some code →
      scopeLookup v.key s0.scope_ = none →
      codegenExpr be inHandler (Expr.VariableExpr v) s0 = some s1 →
      ∃ rest, s1.initializerFn_ = some (code ++ v.name :: rest)) ∧
    (∀ (inHandler : Bool) (v : Variable) (s0 s1 : FlowRunner) (ty : Ty),
      scopeLookup v.key s0.scope_ = some ty →
      codegenExpr be inHandler (Expr.VariableExpr v) s0 = some s1 →
      s1.initializerFn_ = s0.initializerFn_) := by
  have gen : ∀ s2 : FlowRunner, s2.initializerRuns = s.initializerRuns →
      (match visitUnit be unit s2 with
        | none => none
        | some s3 => some (true, { s3 with initializerRuns := s3.initializerRuns + 1 })) =
        some (true, s') →
      (∃ names, s'.initializerFn_ = some names ∧ ∀ n ∈ names, n ∈ unit.referencedGlobals) ∧
      s'.initializerRuns = s.initializerRuns + 1 := by
    intro s2 hr hg
    split at hg
    · cases hg
    · rename_i s3 h3
      obtain ⟨hf, hn⟩ := visitUnit_fields be unit s2 s3 h3
      cases hg
      exact ⟨hf, by simp only [hn, hr]⟩
  have key : (∃ names, s'.initializerFn_ = some names ∧
      ∀ n ∈ names, n ∈ unit.referencedGlobals) ∧
      s'.initializerRuns = s.initializerRuns + 1 := by
    simp only [FlowRunner.open_, Bool.true_eq_false, if_false] at h
    split at h
    · split at h
      · cases h
      · simp at h
      · rename_i s2 heq
        exact gen s2 (reinitialize_runs engineCreates true { s with unit_ := some unit } s2 heq) h
    · exact gen { s with unit_ := some unit } rfl h
  refine ⟨key.1, key.2, ?_, fun _ _ _ => rfl, ?_, ?_⟩
  · intro s0
    simp only [visitUnit]
    rw [visitMembers_filter]
  · intro inHandler v s0 s1 code hps hc hl hv
    obtain ⟨addr, name, parentScope, value⟩ := v
    simp only [Variable.parentScope] at hps
    subst hps
    simp only [Variable.key, Variable.addr, Variable.name] at hl ⊢
    simp only [codegenExpr, codegenVariable, hl, hc] at hv
    have ih := codegenExpr_grows be (globalsOf (Expr.symbols value)) false value
      { s0 with initializerFn_ := some (code ++ [name]) } (fun n hn => hn)
    cases h3 : codegenExpr be false value { s0 with initializerFn_ := some (code ++ [name]) } with
    | none => simp only [h3] at hv; cases hv
    | some s3 =>
      obtain ⟨_, added, hf, _⟩ := ih.of_eq h3
      simp only [h3] at hv
      refine ⟨added, ?_⟩
      have hs1 : s1.initializerFn_ = s3.initializerFn_ := by
        repeat' split at hv
        all_goals first
          | (cases hv; done)
          | (cases hv; rfl)
      rw [hs1, hf]
      simp
  · intro inHandler v s0 s1 ty hl hv
    obtain ⟨addr, name, parentScope, value⟩ := v
    simp only [Variable.key, Variable.addr, Variable.name] at hl
    simp only [codegenExpr, codegenVariable, hl] at hv
    repeat' split at hv
    all_goals first
      | (cases hv; done)
      | (cases hv; rfl)

/-- C27, witness: `open` on the unit
    `var x = 1; var y = 2; handler main { pass(x); pass(x); }`: the initialiser
    function holds the initialiser of `x`, once, and none for `y`; it has been
    run once. -/
theorem C27_witness :
    (FlowRunner.open_ sampleBackend true (some referencedGlobalUnit) true freshRunner).map
      (fun r => (r.1, r.2.initializerFn_, r.2.initializerRuns)) = some (true, some ["x"], 1) ∧
    referencedGlobalUnit.referencedGlobals = ["x", "x"] ∧
    (∀ s', FlowRunner.open_ sampleBackend true (some referencedGlobalUnit) true freshRunner =
        some (true, s') →
      (∃ names, s'.initializerFn_ = some names ∧
        ∀ n ∈ names, n ∈ referencedGlobalUnit.referencedGlobals) ∧
      s'.initializerRuns = freshRunner.initializerRuns + 1) :=
  ⟨by decide, by decide, fun s' h =>
    ⟨(C27_initializer_function sampleBackend referencedGlobalUnit true freshRunner s' h).1,
      (C27_initializer_function sampleBackend referencedGlobalUnit true freshRunner s' h).2.1⟩⟩

end x0
